import Mathlib

/-!
# FSWV1 acquisition pipeline

A shallow embedding of the pressure/temperature compensation engine
(`fswv1_sensor.c`), of the inertial-measurement frame decoder (`fswv1_uart.c`), of
the initialisation, the command processing and the periodic reading of the main loop
(`fswv1_app.c`, with the LED functions of `fswv1_gpio.c`) and of the two sinks the
periodic reading feeds (`FSWV1_SendUDP` in `fswv1_sensor.c`, `fswv1_uart_telemetry.c`),
together with the properties established about them.

Conventions of the embedding:

* C integers are `Int`/`Nat`; every arithmetic result of a fixed-width signed
  type is passed through `wrap32`/`wrap64` (two's-complement wrap-around), and
  conversions to unsigned types are reductions modulo `2 ^ w`.
* `>>` on a signed operand is the arithmetic shift `Int.shiftRight` (written
  `x >>> (n : Nat)`), signed `/` is truncating division `Int.tdiv`, and `<<` on a
  signed operand is the multiplication by the power of two.
* File-scope `static` variables become fields of an explicit state record that
  every function receives and returns.
* A `float` is represented by the real number it stands for (`FloatVal`); the
  rounding to binary32 is not part of the embedding.
* What the hardware delivers (bus replies, serial bytes, the clock) is an
  explicit argument; so is what cFE and the operating system return.  Calls that
  leave the application are listed, in order, next to the resulting state.
* Two library functions are described where a property depends on what they do:
  `sscanf` after the C standard, and `CFE_MSG_SetSequenceCount` after cFE's message
  module, for the sequence count in the CCSDS primary header.
-/

namespace FSWV1

/-! ## Machine integers -/

/-- Two's-complement wrap of `x` into the signed range of width `w`. -/
def wrapS (w : Nat) (x : Int) : Int := (x + 2 ^ (w - 1)) % 2 ^ w - 2 ^ (w - 1)

/-- Result of an `int32` operation. -/
def wrap32 (x : Int) : Int := wrapS 32 x

/-- Result of an `int64` operation. -/
def wrap64 (x : Int) : Int := wrapS 64 x

/-- Conversion to `uint16_t`. -/
def toU16 (x : Int) : Int := x % 65536

/-- Conversion to `int16_t`. -/
def toS16 (x : Int) : Int := wrapS 16 x

/-- Conversion to `uint32`. -/
def toU32 (x : Int) : Nat := (x % 4294967296).toNat

/-- An `uint8`. -/
abbrev Byte := Fin 256

/-! ## Status codes, events and floats -/

/-- Status codes returned by the functions below.  Their numeric values live in
the cFE/OSAL headers; only their identity matters here. -/
inductive Status where
  | CFE_SUCCESS
  | CFE_STATUS_EXTERNAL_RESOURCE_FAIL
  | CFE_ES_BAD_ARGUMENT
  | OS_ERROR
  | OS_INVALID_POINTER
deriving DecidableEq, Repr

/-- Event identifiers passed to `CFE_EVS_SendEvent`. -/
inductive EventId where
  | FSWV1_APP_SENSOR_ERR_EID
  | FSWV1_APP_UART_ERR_EID
  | FSWV1_APP_UART_INIT_INF_EID
  | FSWV1_APP_INIT_INF_EID
  | FSWV1_APP_COMMANDNOP_INF_EID
  | FSWV1_APP_COMMANDRST_INF_EID
  | FSWV1_APP_INVALID_MSGID_ERR_EID
  | FSWV1_APP_LEN_ERR_EID
  | FSWV1_APP_PIPE_ERR_EID
  | FSWV1_APP_UDP_ERR_EID
  | FSWV1_APP_ENABLE_INF_EID
  | FSWV1_APP_DISABLE_INF_EID
  | FSWV1_APP_GPIO_INIT_INF_EID
  | FSWV1_APP_GPIO_ERR_EID
  | FSWV1_APP_LED_ON_INF_EID
  | FSWV1_APP_LED_OFF_INF_EID
  | FSWV1_APP_LED_TOGGLE_INF_EID
  | FSWV1_APP_LED_STATUS_INF_EID
  | FSWV1_APP_IMU_ERR_EID
  | FSWV1_APP_UART_TELEMETRY_INIT_INF_EID
  | FSWV1_APP_UART_TELEMETRY_ERR_EID
deriving DecidableEq, Repr

/-- The value of a C `float`: the real number it stands for, an infinity, or a
NaN. -/
inductive FloatVal where
  | finite (q : ℚ)
  | inf (negative : Bool)
  | nan
deriving DecidableEq

/-! ## `fswv1_sensor.c` -/

/-- Calibration data structure. -/
structure FSWV1_CalibData_t where
  dig_T1 : Int
  dig_T2 : Int
  dig_T3 : Int
  dig_P1 : Int
  dig_P2 : Int
  dig_P3 : Int
  dig_P4 : Int
  dig_P5 : Int
  dig_P6 : Int
  dig_P7 : Int
  dig_P8 : Int
  dig_P9 : Int
deriving DecidableEq

/-- The file-scope variables of `fswv1_sensor.c`. -/
structure SensorState where
  I2C_Fd : Int
  CalibData : FSWV1_CalibData_t
  t_fine : Int
deriving DecidableEq

/-- BMP280 sensor data structure. -/
structure FSWV1_SensorData_t where
  Temperature : FloatVal
  Pressure : FloatVal
  Timestamp : Nat
deriving DecidableEq

/-- What the bus does during one `FSWV1_ReadReg`: `none` when the write of the
register address or the read fails, `some bs` when the read delivers the bytes
`bs`. -/
abbrev I2CReply := Option (List Byte)

/-- `FSWV1_ReadReg`: succeeds (`some`) only when exactly `len` bytes arrive. -/
def FSWV1_ReadReg (reply : I2CReply) (len : Nat) : Option (List Byte) :=
  match reply with
  | none => none
  | some bs => if bs.length ≠ len then none else some bs

/-- The expression `(calib[hi] << 8) | calib[lo]` over promoted `uint8`s. -/
def calibWord (calib : List Byte) (hi lo : Nat) : Int :=
  (((calib.getD hi 0).val <<< 8 ||| (calib.getD lo 0).val : Nat) : Int)

/-- `FSWV1_ReadCalibrationData`: `r1` answers the 6-byte read at `0x88`, `r2`
the 18-byte read at `0x8E`. -/
def FSWV1_ReadCalibrationData (s : SensorState) (r1 r2 : I2CReply) :
    Status × SensorState :=
  match FSWV1_ReadReg r1 6 with
  | none => (Status.CFE_STATUS_EXTERNAL_RESOURCE_FAIL, s)
  | some calib =>
    let c1 : FSWV1_CalibData_t :=
      { s.CalibData with
        dig_T1 := toU16 (calibWord calib 1 0)
        dig_T2 := toS16 (calibWord calib 3 2)
        dig_T3 := toS16 (calibWord calib 5 4) }
    match FSWV1_ReadReg r2 18 with
    | none => (Status.CFE_STATUS_EXTERNAL_RESOURCE_FAIL, { s with CalibData := c1 })
    | some calib =>
      let c2 : FSWV1_CalibData_t :=
        { c1 with
          dig_P1 := toU16 (calibWord calib 1 0)
          dig_P2 := toS16 (calibWord calib 3 2)
          dig_P3 := toS16 (calibWord calib 5 4)
          dig_P4 := toS16 (calibWord calib 7 6)
          dig_P5 := toS16 (calibWord calib 9 8)
          dig_P6 := toS16 (calibWord calib 11 10)
          dig_P7 := toS16 (calibWord calib 13 12)
          dig_P8 := toS16 (calibWord calib 15 14)
          dig_P9 := toS16 (calibWord calib 17 16) }
      (Status.CFE_SUCCESS, { s with CalibData := c2 })

/-- `FSWV1_CompensateTemperature`: returns `T` and stores `t_fine`. -/
def FSWV1_CompensateTemperature (s : SensorState) (adc_T : Int) : Int × SensorState :=
  let c := s.CalibData
  let var1 : Int :=
    (wrap32 (wrap32 ((adc_T >>> (3 : Nat)) - wrap32 (c.dig_T1 * 2)) * c.dig_T2)) >>> (11 : Nat)
  let var2 : Int :=
    (wrap32 ((wrap32 (wrap32 ((adc_T >>> (4 : Nat)) - c.dig_T1) * wrap32 ((adc_T >>> (4 : Nat)) - c.dig_T1))
      >>> (12 : Nat)) * c.dig_T3)) >>> (14 : Nat)
  let t_fine : Int := wrap32 (var1 + var2)
  let T : Int := (wrap32 (wrap32 (t_fine * 5) + 128)) >>> (8 : Nat)
  (T, { s with t_fine := t_fine })

/-- The value of `var1` in `FSWV1_CompensatePressure` when it is compared with
zero: the denominator of the division that follows. -/
def pressureDenominator (c : FSWV1_CalibData_t) (t_fine : Int) : Int :=
  let var1 : Int := wrap64 (t_fine - 128000)
  let var1 : Int :=
    wrap64 ((wrap64 (wrap64 (var1 * var1) * c.dig_P3) >>> (8 : Nat)) +
      wrap64 (wrap64 (var1 * c.dig_P2) * 2 ^ 12))
  (wrap64 (wrap64 (2 ^ 47 + var1) * c.dig_P1)) >>> (33 : Nat)

/-- `FSWV1_CompensatePressure`: reads `t_fine`, returns a `uint32`.  The difference
`1048576 - adc_P` has two `int` operands and is therefore a 32-bit result; everything
else is 64-bit. -/
def FSWV1_CompensatePressure (s : SensorState) (adc_P : Int) : Nat :=
  let c := s.CalibData
  let var1 : Int := wrap64 (s.t_fine - 128000)
  let var2 : Int := wrap64 (wrap64 (var1 * var1) * c.dig_P6)
  let var2 : Int := wrap64 (var2 + wrap64 (wrap64 (var1 * c.dig_P5) * 2 ^ 17))
  let var2 : Int := wrap64 (var2 + wrap64 (c.dig_P4 * 2 ^ 35))
  let var1 : Int := pressureDenominator c s.t_fine
  if var1 = 0 then
    0
  else
    let p : Int := wrap32 (1048576 - adc_P)
    let p : Int := wrap64 (Int.tdiv (wrap64 (wrap64 (wrap64 (p * 2 ^ 31) - var2) * 3125)) var1)
    let var1 : Int := (wrap64 (wrap64 (c.dig_P9 * (p >>> (13 : Nat))) * (p >>> (13 : Nat)))) >>> (25 : Nat)
    let var2 : Int := (wrap64 (c.dig_P8 * p)) >>> (19 : Nat)
    let p : Int := wrap64 ((wrap64 (wrap64 (p + var1) + var2) >>> (8 : Nat)) + wrap64 (c.dig_P7 * 2 ^ 4))
    toU32 p

/-- The raw pressure count `(data[0] << 12) | (data[1] << 4) | (data[2] >> 4)`. -/
def rawPressure (data : List Byte) : Int :=
  ((((data.getD 0 0).val <<< 12 ||| (data.getD 1 0).val <<< 4 |||
    (data.getD 2 0).val >>> 4 : Nat)) : Int)

/-- The raw temperature count `(data[3] << 12) | (data[4] << 4) | (data[5] >> 4)`. -/
def rawTemperature (data : List Byte) : Int :=
  ((((data.getD 3 0).val <<< 12 ||| (data.getD 4 0).val <<< 4 |||
    (data.getD 5 0).val >>> 4 : Nat)) : Int)

/-- Everything one call of `FSWV1_ReadSensor` produces. -/
structure ReadSensorResult where
  status : Status
  Data : Option FSWV1_SensorData_t
  state : SensorState
  events : List EventId
deriving DecidableEq

/-- `FSWV1_ReadSensor`: `Data` is the caller's structure (`none` for a null
pointer), `reply` answers the 6-byte burst read at `0xF7`, `now` is
`CFE_TIME_GetTime().Seconds`. -/
def FSWV1_ReadSensor (s : SensorState) (Data : Option FSWV1_SensorData_t)
    (reply : I2CReply) (now : Nat) : ReadSensorResult :=
  match Data with
  | none => ⟨Status.CFE_ES_BAD_ARGUMENT, none, s, []⟩
  | some d0 =>
    if s.I2C_Fd < 0 then
      ⟨Status.CFE_STATUS_EXTERNAL_RESOURCE_FAIL, some d0, s, [EventId.FSWV1_APP_SENSOR_ERR_EID]⟩
    else
      match FSWV1_ReadReg reply 6 with
      | none =>
        ⟨Status.CFE_STATUS_EXTERNAL_RESOURCE_FAIL, some d0, s, [EventId.FSWV1_APP_SENSOR_ERR_EID]⟩
      | some data =>
        let adc_P : Int := rawPressure data
        let adc_T : Int := rawTemperature data
        let (temp, s1) := FSWV1_CompensateTemperature s adc_T
        let press : Nat := FSWV1_CompensatePressure s1 adc_P
        ⟨Status.CFE_SUCCESS,
          some { Temperature := FloatVal.finite ((temp : ℚ) / 100)
                 Pressure := FloatVal.finite ((press : ℚ) / 25600)
                 Timestamp := now },
          s1, []⟩

/-- The calibration set of the datasheet's worked example. -/
def datasheetCalib : FSWV1_CalibData_t :=
  { dig_T1 := 27504, dig_T2 := 26435, dig_T3 := -1000,
    dig_P1 := 36477, dig_P2 := -10685, dig_P3 := 3024, dig_P4 := 2855, dig_P5 := 140,
    dig_P6 := -7, dig_P7 := 15500, dig_P8 := -14600, dig_P9 := 6000 }

/-! ## The C library's `sscanf`, as far as `fswv1_uart.c` uses it

The model follows the C standard's description of `fscanf` (input items are the
longest input prefix that is a prefix of a matching sequence; the subject
sequences of `%f` are those of `strtod`).  Only the directives that occur in
this program are supported: white space, ordinary characters and `%f`. -/

/-- The terminating character of a C string. -/
def NUL : Char := Char.ofNat 0

/-- The C string stored at the start of a character array: everything before the
first `NUL`. -/
def cString (buf : List Char) : List Char := buf.takeWhile (fun c => c != NUL)

/-- `isspace` in the "C" locale. -/
def isSpaceC (c : Char) : Bool :=
  c == ' ' || c == '\t' || c == '\n' || c == '\r' || c.toNat == 11 || c.toNat == 12

/-- Value of a decimal digit. -/
def decDigit (c : Char) : Option Nat :=
  if '0' ≤ c ∧ c ≤ '9' then some (c.toNat - 48) else none

/-- Value of a hexadecimal digit. -/
def hexDigit (c : Char) : Option Nat :=
  if '0' ≤ c ∧ c ≤ '9' then some (c.toNat - 48)
  else if 'a' ≤ c ∧ c ≤ 'f' then some (c.toNat - 87)
  else if 'A' ≤ c ∧ c ≤ 'F' then some (c.toNat - 55)
  else none

/-- Longest run of digits at the front of the input: the value read (continuing
from `acc`), the number of digits read (continuing from `n`), and the rest. -/
def scanDigits (digit : Char → Option Nat) (base : Nat) :
    List Char → Nat → Nat → Nat × Nat × List Char
  | [], acc, n => (acc, n, [])
  | c :: cs, acc, n =>
    match digit c with
    | some v => scanDigits digit base cs (acc * base + v) (n + 1)
    | none => (acc, n, c :: cs)

/-- Optional sign: whether it is `-`, and the rest. -/
def scanSign (cs : List Char) : Bool × List Char :=
  match cs with
  | '-' :: r => (true, r)
  | '+' :: r => (false, r)
  | _ => (false, cs)

/-- Digits with an optional radix point: all digits read as one integer, the
number of digits, the number of digits after the point, and the rest. -/
def scanMantissa (digit : Char → Option Nat) (base : Nat) (cs : List Char) :
    Nat × Nat × Nat × List Char :=
  match scanDigits digit base cs 0 0 with
  | (v1, n1, r1) =>
    match r1 with
    | '.' :: r2 =>
      match scanDigits digit base r2 v1 0 with
      | (v2, n2, r3) => (v2, n1 + n2, n2, r3)
    | _ => (v1, n1, 0, r1)

/-- Optional exponent part introduced by `lo` or `up`: `none` when the marker is
not followed by digits (the input item is then not a matching sequence), the
exponent (0 when absent) and the rest otherwise. -/
def scanExponent (lo up : Char) (cs : List Char) : Option (Int × List Char) :=
  match cs with
  | [] => some (0, [])
  | c :: r =>
    if c = lo ∨ c = up then
      match scanSign r with
      | (neg, r1) =>
        match scanDigits decDigit 10 r1 0 0 with
        | (v, n, r2) =>
          if n = 0 then none else some (if neg then -(v : Int) else (v : Int), r2)
    else some (0, c :: r)

/-- The number `± m * base ^ e`. -/
def scaled (neg : Bool) (m base : Nat) (e : Int) : ℚ :=
  let q : ℚ := if 0 ≤ e then ((m * base ^ e.toNat : Nat) : ℚ) else mkRat (m : Int) (base ^ (-e).toNat)
  if neg then -q else q

/-- Removes the word `w` (given in lower case) from the front of the input,
ignoring case. -/
def stripWord : List Char → List Char → Option (List Char)
  | [], cs => some cs
  | _ :: _, [] => none
  | w :: ws, c :: cs => if c.toLower = w then stripWord ws cs else none

/-- Characters allowed between the parentheses of `nan(...)`. -/
def isNChar (c : Char) : Bool := c.isAlphanum || c == '_'

/-- The forms `inf`, `infinity`, `nan` and `nan(...)` after the sign. -/
def scanSpecial (neg : Bool) (cs : List Char) : Option (FloatVal × List Char) :=
  match stripWord "inf".toList cs with
  | some r =>
    match r with
    | c :: _ =>
      if c.toLower = 'i' then
        match stripWord "inity".toList r with
        | some r2 => some (FloatVal.inf neg, r2)
        | none => none
      else some (FloatVal.inf neg, r)
    | [] => some (FloatVal.inf neg, [])
  | none =>
    match stripWord "nan".toList cs with
    | some r =>
      match r with
      | '(' :: r1 =>
        match r1.dropWhile isNChar with
        | ')' :: r2 => some (FloatVal.nan, r2)
        | _ => none
      | _ => some (FloatVal.nan, r)
    | none => none

/-- The `%f` conversion on an input that starts with a non-space character:
the value and the unread rest, or `none` on a matching failure. -/
def scanFloat (cs : List Char) : Option (FloatVal × List Char) :=
  match scanSign cs with
  | (neg, r) =>
    match r with
    | '0' :: x :: r1 =>
      if x = 'x' ∨ x = 'X' then
        match scanMantissa hexDigit 16 r1 with
        | (m, n, k, r2) =>
          if n = 0 then none
          else
            match scanExponent 'p' 'P' r2 with
            | some (e, r3) => some (FloatVal.finite (scaled neg m 2 (e - 4 * (k : Int))), r3)
            | none => none
      else
        match scanMantissa decDigit 10 r with
        | (m, n, k, r2) =>
          if n = 0 then none
          else
            match scanExponent 'e' 'E' r2 with
            | some (e, r3) => some (FloatVal.finite (scaled neg m 10 (e - (k : Int))), r3)
            | none => none
    | _ =>
      match scanMantissa decDigit 10 r with
      | (m, n, k, r2) =>
        if n = 0 then scanSpecial neg r
        else
          match scanExponent 'e' 'E' r2 with
          | some (e, r3) => some (FloatVal.finite (scaled neg m 10 (e - (k : Int))), r3)
          | none => none

/-- A directive of a format string. -/
inductive Directive where
  | space
  | lit (c : Char)
  | float
deriving DecidableEq

/-- Splits a format string into its directives. -/
def parseFormat : List Char → List Directive
  | [] => []
  | '%' :: 'f' :: r => Directive.float :: parseFormat r
  | c :: r => (if isSpaceC c then Directive.space else Directive.lit c) :: parseFormat r

/-- How far the directives got: the values assigned so far, in order, and
whether execution stopped on an input failure (end of the string). -/
structure ScanResult where
  assigned : List FloatVal
  inputFailure : Bool
deriving DecidableEq

/-- Executes the directives in turn until one fails. -/
def scanDirectives : List Directive → List Char → List FloatVal → ScanResult
  | [], _, acc => ⟨acc, false⟩
  | Directive.space :: ds, input, acc => scanDirectives ds (input.dropWhile isSpaceC) acc
  | Directive.lit c :: ds, input, acc =>
    match input with
    | [] => ⟨acc, true⟩
    | x :: xs => if x = c then scanDirectives ds xs acc else ⟨acc, false⟩
  | Directive.float :: ds, input, acc =>
    match input.dropWhile isSpaceC with
    | [] => ⟨acc, true⟩
    | x :: xs =>
      match scanFloat (x :: xs) with
      | some (v, rest) => scanDirectives ds rest (acc ++ [v])
      | none => ⟨acc, false⟩

/-- `sscanf(str, format, ...)`: the return value (`-1` is `EOF`) and the values
stored through the pointer arguments, first argument first. -/
def sscanf (str : List Char) (format : String) : Int × List FloatVal :=
  let r := scanDirectives (parseFormat format.toList) str []
  (if r.inputFailure && r.assigned.isEmpty then -1 else (r.assigned.length : Int), r.assigned)

/-! ## `fswv1_uart.c` -/

/-- IMU data structure (from UART). -/
structure FSWV1_IMUData_t where
  Accel_X : FloatVal
  Accel_Y : FloatVal
  Accel_Z : FloatVal
  Gyro_X : FloatVal
  Gyro_Y : FloatVal
  Gyro_Z : FloatVal
  Temperature : FloatVal
  Timestamp : Nat
deriving DecidableEq

/-- Size of `uart_buffer`. -/
def UART_BUFFER_SIZE : Nat := 256

/-- The file-scope variables of `fswv1_uart.c`; `uart_buffer` holds
`UART_BUFFER_SIZE` characters. -/
structure UartState where
  UART_Initialized : Bool
  uart_fd : Int
  uart_buffer : List Char
  buffer_pos : Nat
deriving DecidableEq

/-- Stores `v` through the `i`-th pointer argument of the `sscanf` call in
`ParseIMUData`. -/
def storeField (data : FSWV1_IMUData_t) (i : Nat) (v : FloatVal) : FSWV1_IMUData_t :=
  match i with
  | 0 => { data with Accel_X := v }
  | 1 => { data with Accel_Y := v }
  | 2 => { data with Accel_Z := v }
  | 3 => { data with Gyro_X := v }
  | 4 => { data with Gyro_Y := v }
  | 5 => { data with Gyro_Z := v }
  | 6 => { data with Temperature := v }
  | _ => data

/-- Stores the assigned values through the pointer arguments, starting with
the `i`-th. -/
def storeFields : List FloatVal → Nat → FSWV1_IMUData_t → FSWV1_IMUData_t
  | [], _, data => data
  | v :: vs, i, data => storeFields vs (i + 1) (storeField data i v)

/-- `ParseIMUData`: `now` is `CFE_TIME_GetTime().Seconds`. -/
def ParseIMUData (str : List Char) (data : FSWV1_IMUData_t) (now : Nat) :
    Status × FSWV1_IMUData_t :=
  match sscanf str "$,%f,%f,%f,%f,%f,%f,%f,#" with
  | (parsed, vals) =>
    if parsed ≠ 7 then
      (Status.CFE_STATUS_EXTERNAL_RESOURCE_FAIL, storeFields vals 0 data)
    else
      (Status.CFE_SUCCESS, { storeFields vals 0 data with Timestamp := now })

/-- Everything one call of `FSWV1_ReadUART` produces; `unread` are the bytes
still waiting on the serial line when it returns. -/
structure ReadUARTResult where
  status : Status
  data : Option FSWV1_IMUData_t
  state : UartState
  unread : List Char
  events : List EventId
deriving DecidableEq

/-- The `while` loop of `FSWV1_ReadUART`: `input` are the bytes that successive
`read` calls deliver, `endRc` (0 or negative) is what `read` returns after
them. -/
def readLoop (now : Nat) (endRc : Int) :
    List Char → UartState → FSWV1_IMUData_t → ReadUARTResult
  | [], s, data => ⟨Status.OS_ERROR, some data, s, [], []⟩
  | byte :: rest, s, data =>
    if byte = '$' then
      readLoop now endRc rest
        { s with uart_buffer := s.uart_buffer.set 0 byte, buffer_pos := 1 } data
    else if byte = '#' then
      if 0 < s.buffer_pos ∧ s.buffer_pos < UART_BUFFER_SIZE - 1 then
        let buf := (s.uart_buffer.set s.buffer_pos byte).set (s.buffer_pos + 1) NUL
        match ParseIMUData (cString buf) data now with
        | (Status.CFE_SUCCESS, data1) =>
          ⟨Status.CFE_SUCCESS, some data1, { s with uart_buffer := buf, buffer_pos := 0 }, rest, []⟩
        | (_, data1) =>
          readLoop now endRc rest { s with uart_buffer := buf, buffer_pos := 0 } data1
      else
        readLoop now endRc rest { s with buffer_pos := 0 } data
    else if 0 < s.buffer_pos ∧ s.buffer_pos < UART_BUFFER_SIZE - 1 then
      readLoop now endRc rest
        { s with uart_buffer := s.uart_buffer.set s.buffer_pos byte,
                 buffer_pos := s.buffer_pos + 1 } data
    else if s.buffer_pos ≥ UART_BUFFER_SIZE - 1 then
      readLoop now endRc rest { s with buffer_pos := 0 } data
    else
      readLoop now endRc rest s data

/-- `FSWV1_ReadUART`: `data` is the caller's structure (`none` for a null
pointer). -/
def FSWV1_ReadUART (s : UartState) (data : Option FSWV1_IMUData_t) (input : List Char)
    (endRc : Int) (now : Nat) : ReadUARTResult :=
  if ¬ s.UART_Initialized ∨ s.uart_fd < 0 then
    ⟨Status.CFE_STATUS_EXTERNAL_RESOURCE_FAIL, data, s, input, []⟩
  else
    match data with
    | none => ⟨Status.OS_INVALID_POINTER, none, s, input, []⟩
    | some d => readLoop now endRc input s d

/-- A decoder right after a successful `FSWV1_InitUART` at program start. -/
def uartStart : UartState :=
  { UART_Initialized := true, uart_fd := 3,
    uart_buffer := List.replicate UART_BUFFER_SIZE NUL, buffer_pos := 0 }

/-- An all-zero IMU structure, as in the zero-initialised global data. -/
def imuZero : FSWV1_IMUData_t :=
  ⟨FloatVal.finite 0, FloatVal.finite 0, FloatVal.finite 0, FloatVal.finite 0,
    FloatVal.finite 0, FloatVal.finite 0, FloatVal.finite 0, 0⟩

/-! ## The decoder loop with a record of what it does

`readLoopLog` is `readLoop` with one addition: it lists, in order, every store into
`uart_buffer` and every string handed to `ParseIMUData`. -/

/-- One access of the loop of `FSWV1_ReadUART` to its buffer. -/
inductive BufferAccess where
  | store (index : Nat) (c : Char)
  | parse (str : List Char)
deriving DecidableEq

/-- The loop of `FSWV1_ReadUART`, returning also the accesses it made:
`uart_buffer[index] = c` is `store index c`, `ParseIMUData(uart_buffer, data)` is
`parse` of the C string in the buffer. -/
def readLoopLog (now : Nat) (endRc : Int) :
    List Char → UartState → FSWV1_IMUData_t → ReadUARTResult × List BufferAccess
  | [], s, data => (⟨Status.OS_ERROR, some data, s, [], []⟩, [])
  | byte :: rest, s, data =>
    if byte = '$' then
      match readLoopLog now endRc rest
          { s with uart_buffer := s.uart_buffer.set 0 byte, buffer_pos := 1 } data with
      | (r, log) => (r, BufferAccess.store 0 byte :: log)
    else if byte = '#' then
      if 0 < s.buffer_pos ∧ s.buffer_pos < UART_BUFFER_SIZE - 1 then
        let buf := (s.uart_buffer.set s.buffer_pos byte).set (s.buffer_pos + 1) NUL
        let here : List BufferAccess :=
          [BufferAccess.store s.buffer_pos byte, BufferAccess.store (s.buffer_pos + 1) NUL,
            BufferAccess.parse (cString buf)]
        match ParseIMUData (cString buf) data now with
        | (Status.CFE_SUCCESS, data1) =>
          (⟨Status.CFE_SUCCESS, some data1, { s with uart_buffer := buf, buffer_pos := 0 },
            rest, []⟩, here)
        | (_, data1) =>
          match readLoopLog now endRc rest { s with uart_buffer := buf, buffer_pos := 0 }
              data1 with
          | (r, log) => (r, here ++ log)
      else
        readLoopLog now endRc rest { s with buffer_pos := 0 } data
    else if 0 < s.buffer_pos ∧ s.buffer_pos < UART_BUFFER_SIZE - 1 then
      match readLoopLog now endRc rest
          { s with uart_buffer := s.uart_buffer.set s.buffer_pos byte,
                   buffer_pos := s.buffer_pos + 1 } data with
      | (r, log) => (r, BufferAccess.store s.buffer_pos byte :: log)
    else if s.buffer_pos ≥ UART_BUFFER_SIZE - 1 then
      readLoopLog now endRc rest { s with buffer_pos := 0 } data
    else
      readLoopLog now endRc rest s data

/-! ## `fswv1_app_msg.h` and `fswv1_app.h` -/

/-- Combined Sensor + IMU Telemetry Payload. -/
structure FSWV1_APP_CombinedTlm_Payload_t where
  BMP_Temperature : FloatVal
  BMP_Pressure : FloatVal
  Accel_X : FloatVal
  Accel_Y : FloatVal
  Accel_Z : FloatVal
  Gyro_X : FloatVal
  Gyro_Y : FloatVal
  Gyro_Z : FloatVal
  IMU_Temperature : FloatVal
  Timestamp : Nat
deriving DecidableEq

/-- Combined Telemetry.  The type of the header, `CFE_MSG_TelemetryHeader_t`, belongs
to cFE; the header is kept as the bytes it occupies. -/
structure FSWV1_APP_CombinedTlm_t where
  TelemetryHeader : List Byte
  Payload : FSWV1_APP_CombinedTlm_Payload_t
deriving DecidableEq

/-- Global Data Structure, without the housekeeping packet, the pipe and the event
filters, which the periodic reading does not touch.  `UdpSocket` is `none` for
`OS_OBJECT_ID_UNDEFINED`; `CmdCounter` and `ErrCounter` are `uint8`, `CombinedTlmSeqCnt` is
`uint16`. -/
structure FSWV1_APP_Data_t where
  CmdCounter : Nat
  ErrCounter : Nat
  CombinedTlm : FSWV1_APP_CombinedTlm_t
  RunStatus : Nat
  UdpSocket : Option Nat
  SensorData : FSWV1_SensorData_t
  IMUData : FSWV1_IMUData_t
  SensorEnabled : Bool
  IMUEnabled : Bool
  ReadRate : Nat
  CombinedTlmSeqCnt : Nat
  LedState : Bool
deriving DecidableEq

/-! ## What the program does to the outside -/

/-- The `OS_printf` calls of the periodic reading and of the two sinks. -/
inductive PrintSite where
  | bmpData
  | imuData
  | udpSendError
  | telemetryWriteError
deriving DecidableEq

/-- A call that leaves the application, with the arguments that matter: events, console
output, the cFE calls on the telemetry header, and the three transmissions.  The two
transmissions of the whole structure carry the structure as it is in memory at the
call; `write` carries the bytes handed to the serial port. -/
inductive Effect where
  | CFE_EVS_SendEvent (id : EventId)
  | OS_printf (site : PrintSite)
  | CFE_MSG_SetSequenceCount (SeqCnt : Nat)
  | CFE_SB_TimeStampMsg
  | CFE_SB_TransmitMsg (packet : FSWV1_APP_CombinedTlm_t)
  | OS_SocketSendTo (packet : FSWV1_APP_CombinedTlm_t)
  | write (bytes : List Byte)
deriving DecidableEq

/-- What the compiler and the machine fix: the byte order (`littleEndian` is
`__BYTE_ORDER__ == __ORDER_LITTLE_ENDIAN__`) and the 32-bit object representation of a
`float`. -/
structure Platform where
  littleEndian : Bool
  floatBits : FloatVal → Nat

/-! ## `fswv1_sensor.c`: the network sink -/

/-- Result of `FSWV1_SendUDP`: the return value, the global data, the function's
`static uint32 error_count`, and the calls made. -/
structure SendUDPResult where
  status : Status
  app : FSWV1_APP_Data_t
  error_count : Nat
  effects : List Effect
deriving DecidableEq

/-- `FSWV1_SendUDP`: `sendRc` is what `OS_SocketSendTo` returns.  The two pointer
arguments are not used by the function. -/
def FSWV1_SendUDP (app : FSWV1_APP_Data_t) (error_count : Nat)
    (_SensorData : Option FSWV1_SensorData_t) (_IMUData : Option FSWV1_IMUData_t)
    (sendRc : Int) : SendUDPResult :=
  if app.UdpSocket.isNone then
    ⟨Status.CFE_SUCCESS, app, error_count, []⟩
  else if sendRc < 0 then
    ⟨Status.CFE_SUCCESS, app, (error_count + 1) % 4294967296,
      Effect.OS_SocketSendTo app.CombinedTlm ::
        (if error_count % 100 = 0 then [Effect.OS_printf PrintSite.udpSendError] else [])⟩
  else
    ⟨Status.CFE_SUCCESS, app, error_count, [Effect.OS_SocketSendTo app.CombinedTlm]⟩

/-! ## `fswv1_uart_telemetry.c`: the serial sink (`TELEMETRY_ASCII_FORMAT` is 0) -/

/-- `__builtin_bswap32`: the 32-bit value with the order of its four bytes reversed. -/
def bswap32 (v : Nat) : Nat :=
  (v % 256) * 16777216 + (v / 256 % 256) * 65536 + (v / 65536 % 256) * 256 +
    (v / 16777216 % 256)

/-- `swap_float_to_be`, on the 32-bit object of the float. -/
def swap_float_to_be (val : Nat) : Nat := bswap32 val

/-- `swap_uint32_to_be`. -/
def swap_uint32_to_be (val : Nat) : Nat := bswap32 val

/-- The byte with value `n` modulo 256. -/
def byteOf (n : Nat) : Byte := ⟨n % 256, Nat.mod_lt n (by decide)⟩

/-- The four bytes that a 32-bit object of value `v` occupies in memory, lowest address
first. -/
def objectBytes (p : Platform) (v : Nat) : List Byte :=
  if p.littleEndian then
    [byteOf v, byteOf (v / 256), byteOf (v / 65536), byteOf (v / 16777216)]
  else
    [byteOf (v / 16777216), byteOf (v / 65536), byteOf (v / 256), byteOf v]

/-- The local `packet_copy` of `SendTelemetryBinary`: the header bytes and the ten
payload members as 32-bit objects. -/
structure PacketImage where
  TelemetryHeader : List Byte
  BMP_Temperature : Nat
  BMP_Pressure : Nat
  Accel_X : Nat
  Accel_Y : Nat
  Accel_Z : Nat
  Gyro_X : Nat
  Gyro_Y : Nat
  Gyro_Z : Nat
  IMU_Temperature : Nat
  Timestamp : Nat
deriving DecidableEq

/-- The `memcpy` of the stored structure into `packet_copy`. -/
def packetImage (p : Platform) (t : FSWV1_APP_CombinedTlm_t) : PacketImage :=
  { TelemetryHeader := t.TelemetryHeader
    BMP_Temperature := p.floatBits t.Payload.BMP_Temperature % 4294967296
    BMP_Pressure := p.floatBits t.Payload.BMP_Pressure % 4294967296
    Accel_X := p.floatBits t.Payload.Accel_X % 4294967296
    Accel_Y := p.floatBits t.Payload.Accel_Y % 4294967296
    Accel_Z := p.floatBits t.Payload.Accel_Z % 4294967296
    Gyro_X := p.floatBits t.Payload.Gyro_X % 4294967296
    Gyro_Y := p.floatBits t.Payload.Gyro_Y % 4294967296
    Gyro_Z := p.floatBits t.Payload.Gyro_Z % 4294967296
    IMU_Temperature := p.floatBits t.Payload.IMU_Temperature % 4294967296
    Timestamp := t.Payload.Timestamp % 4294967296 }

/-- The conversion of `packet_copy` that `SendTelemetryBinary` performs: the ten swaps,
compiled in on a little-endian machine only. -/
def convertPayload (p : Platform) (c : PacketImage) : PacketImage :=
  if p.littleEndian then
    { c with
      BMP_Temperature := swap_float_to_be c.BMP_Temperature
      BMP_Pressure := swap_float_to_be c.BMP_Pressure
      Accel_X := swap_float_to_be c.Accel_X
      Accel_Y := swap_float_to_be c.Accel_Y
      Accel_Z := swap_float_to_be c.Accel_Z
      Gyro_X := swap_float_to_be c.Gyro_X
      Gyro_Y := swap_float_to_be c.Gyro_Y
      Gyro_Z := swap_float_to_be c.Gyro_Z
      IMU_Temperature := swap_float_to_be c.IMU_Temperature
      Timestamp := swap_uint32_to_be c.Timestamp }
  else c

/-- The bytes of `packet_copy` in memory: the header, then the ten members in the order
of their declaration (all of size 4, no padding between them). -/
def PacketImage.bytes (p : Platform) (c : PacketImage) : List Byte :=
  c.TelemetryHeader ++ objectBytes p c.BMP_Temperature ++ objectBytes p c.BMP_Pressure ++
    objectBytes p c.Accel_X ++ objectBytes p c.Accel_Y ++ objectBytes p c.Accel_Z ++
    objectBytes p c.Gyro_X ++ objectBytes p c.Gyro_Y ++ objectBytes p c.Gyro_Z ++
    objectBytes p c.IMU_Temperature ++ objectBytes p c.Timestamp

/-- The file-scope variables of `fswv1_uart_telemetry.c` and the `static uint32
error_count` of `SendTelemetryBinary`. -/
structure TelemetryUartState where
  TelemetryUART_Initialized : Bool
  telemetry_uart_fd : Int
  error_count : Nat
deriving DecidableEq

/-- Result of the serial sink: the return value, the global data, the file's variables,
and the calls made. -/
structure SendTelemetryResult where
  status : Status
  app : FSWV1_APP_Data_t
  state : TelemetryUartState
  effects : List Effect
deriving DecidableEq

/-- `SendTelemetryBinary`: `bytes_written` is what `write` returns. -/
def SendTelemetryBinary (p : Platform) (app : FSWV1_APP_Data_t) (st : TelemetryUartState)
    (bytes_written : Int) : SendTelemetryResult :=
  let packet_copy := convertPayload p (packetImage p app.CombinedTlm)
  let packet_size : Nat := (PacketImage.bytes p packet_copy).length
  if bytes_written ≠ (packet_size : Int) then
    ⟨Status.CFE_STATUS_EXTERNAL_RESOURCE_FAIL, app,
      { st with error_count := (st.error_count + 1) % 4294967296 },
      Effect.write (PacketImage.bytes p packet_copy) ::
        (if st.error_count % 100 = 0 then [Effect.OS_printf PrintSite.telemetryWriteError]
         else [])⟩
  else
    ⟨Status.CFE_SUCCESS, app, st, [Effect.write (PacketImage.bytes p packet_copy)]⟩

/-- `FSWV1_SendTelemetryUART`: the pointer arguments are `none` for a null pointer. -/
def FSWV1_SendTelemetryUART (p : Platform) (app : FSWV1_APP_Data_t) (st : TelemetryUartState)
    (SensorData : Option FSWV1_SensorData_t) (IMUData : Option FSWV1_IMUData_t)
    (bytes_written : Int) : SendTelemetryResult :=
  if ¬ st.TelemetryUART_Initialized ∨ st.telemetry_uart_fd < 0 then
    ⟨Status.CFE_SUCCESS, app, st, []⟩
  else if SensorData.isNone ∨ IMUData.isNone then
    ⟨Status.OS_INVALID_POINTER, app, st, []⟩
  else
    SendTelemetryBinary p app st bytes_written

/-! ## `fswv1_app.c`: the periodic reading -/

/-- All the variables of the program that the periodic reading can reach. -/
structure World where
  app : FSWV1_APP_Data_t
  sensor : SensorState
  uart : UartState
  udp_error_count : Nat
  telemetry : TelemetryUartState
deriving DecidableEq

/-- What the outside delivers during one pass through the timeout branch of
`FSWV1_APP_Main`: the reply of the bus and the time for `FSWV1_ReadSensor`; the bytes
on the serial line, the final `read` result and the time for `FSWV1_ReadUART`; the
seconds that `CFE_TIME_GetTime` returns for the record; what the two cFE calls make of
the header bytes; and the results of `OS_SocketSendTo` and of `write`. -/
structure TickEnv where
  sensorReply : I2CReply
  sensorTime : Nat
  uartInput : List Char
  uartEndRc : Int
  uartTime : Nat
  recordTime : Nat
  setSequenceCount : List Byte → Nat → List Byte
  timeStampMsg : List Byte → List Byte
  udpSendRc : Int
  bytesWritten : Int

/-- The part "Read BMP280 sensor data (if enabled)" of the timeout branch. -/
def Main_readSensor (env : TickEnv) (w : World) : World × List Effect :=
  if w.app.SensorEnabled then
    let r := FSWV1_ReadSensor w.sensor (some w.app.SensorData) env.sensorReply env.sensorTime
    let data := r.Data.getD w.app.SensorData
    if r.status = Status.CFE_SUCCESS then
      ({ w with
         sensor := r.state
         app := { w.app with
           SensorData := data
           CombinedTlm := { w.app.CombinedTlm with
             Payload := { w.app.CombinedTlm.Payload with
               BMP_Temperature := data.Temperature
               BMP_Pressure := data.Pressure } } } },
        r.events.map Effect.CFE_EVS_SendEvent ++ [Effect.OS_printf PrintSite.bmpData])
    else
      ({ w with sensor := r.state, app := { w.app with SensorData := data } },
        r.events.map Effect.CFE_EVS_SendEvent ++
          [Effect.CFE_EVS_SendEvent EventId.FSWV1_APP_SENSOR_ERR_EID])
  else (w, [])

/-- The part "Read IMU data from UART" of the timeout branch. -/
def Main_readIMU (env : TickEnv) (w : World) : World × List Effect :=
  if w.app.IMUEnabled then
    let r := FSWV1_ReadUART w.uart (some w.app.IMUData) env.uartInput env.uartEndRc env.uartTime
    let data := r.data.getD w.app.IMUData
    if r.status = Status.CFE_SUCCESS then
      ({ w with
         uart := r.state
         app := { w.app with
           IMUData := data
           CombinedTlm := { w.app.CombinedTlm with
             Payload := { w.app.CombinedTlm.Payload with
               Accel_X := data.Accel_X
               Accel_Y := data.Accel_Y
               Accel_Z := data.Accel_Z
               Gyro_X := data.Gyro_X
               Gyro_Y := data.Gyro_Y
               Gyro_Z := data.Gyro_Z
               IMU_Temperature := data.Temperature } } } },
        r.events.map Effect.CFE_EVS_SendEvent ++ [Effect.OS_printf PrintSite.imuData])
    else
      ({ w with uart := r.state, app := { w.app with IMUData := data } },
        r.events.map Effect.CFE_EVS_SendEvent)
  else (w, [])

/-- The part "Always transmit telemetry" of the timeout branch, up to the transmission
on the Software Bus: the record's timestamp, the sequence count, the header's time
stamp, `CFE_SB_TransmitMsg`. -/
def Main_stampAndTransmit (env : TickEnv) (w : World) : World × List Effect :=
  let tlm : FSWV1_APP_CombinedTlm_t :=
    { TelemetryHeader :=
        env.timeStampMsg
          (env.setSequenceCount w.app.CombinedTlm.TelemetryHeader w.app.CombinedTlmSeqCnt)
      Payload := { w.app.CombinedTlm.Payload with Timestamp := env.recordTime } }
  ({ w with
     app := { w.app with
       CombinedTlm := tlm
       CombinedTlmSeqCnt := (w.app.CombinedTlmSeqCnt + 1) % 65536 } },
    [Effect.CFE_MSG_SetSequenceCount w.app.CombinedTlmSeqCnt, Effect.CFE_SB_TimeStampMsg,
      Effect.CFE_SB_TransmitMsg tlm])

/-- The two sinks at the end of the timeout branch: `FSWV1_SendUDP`, then
`FSWV1_SendTelemetryUART`, both on the addresses of `SensorData` and `IMUData`. -/
def Main_fanOut (p : Platform) (env : TickEnv) (w : World) : World × List Effect :=
  let u := FSWV1_SendUDP w.app w.udp_error_count (some w.app.SensorData) (some w.app.IMUData)
    env.udpSendRc
  let t := FSWV1_SendTelemetryUART p u.app w.telemetry (some u.app.SensorData)
    (some u.app.IMUData) env.bytesWritten
  ({ w with app := t.app, udp_error_count := u.error_count, telemetry := t.state },
    u.effects ++ t.effects)

/-- One pass through the branch `status == CFE_SB_TIME_OUT` of the main loop of
`FSWV1_APP_Main`: the state afterwards and the calls made, in order. -/
def FSWV1_APP_Main_timeout (p : Platform) (env : TickEnv) (w : World) : World × List Effect :=
  let a := Main_readSensor env w
  let b := Main_readIMU env a.1
  let c := Main_stampAndTransmit env b.1
  let d := Main_fanOut p env c.1
  (d.1, a.2 ++ b.2 ++ c.2 ++ d.2)

/-! ## `fswv1_app.c`: initialisation -/

/-- What a call returns whose code lies outside the application or hangs on the
hardware: `CFE_SUCCESS` or some other value. -/
inductive RetCode where
  | CFE_SUCCESS
  | error (code : Int)
deriving DecidableEq

/-- `CFE_ES_RunStatus_APP_RUN`, a value of cFE's enumeration. -/
def CFE_ES_RunStatus_APP_RUN : Nat := 1

/-- `CFE_ES_RunStatus_APP_ERROR`, a value of cFE's enumeration. -/
def CFE_ES_RunStatus_APP_ERROR : Nat := 3

/-- `FSWV1_DEFAULT_READ_RATE`. -/
def FSWV1_DEFAULT_READ_RATE : Nat := 1

/-- What `FSWV1_APP_Init` calls, in order, as far as it matters here: the system log,
the events with their texts, and the five device initialisations (whose own events and
console output are inside them). -/
inductive InitCall where
  | CFE_ES_WriteToSysLog (text : String)
  | CFE_EVS_SendEvent (id : EventId) (text : String)
  | FSWV1_InitSensor
  | FSWV1_InitUDP
  | FSWV1_InitTelemetryUART
  | FSWV1_InitGPIO
  | FSWV1_InitUART
deriving DecidableEq

/-- What the calls made by `FSWV1_APP_Init` return and leave behind: the four cFE calls,
the header that `CFE_MSG_Init` writes into the combined packet, the five device
initialisations, and the socket identifier that `OS_SocketOpen` (inside `FSWV1_InitUDP`)
stores in the global data. -/
structure InitEnv where
  CFE_EVS_Register : RetCode
  CFE_SB_CreatePipe : RetCode
  CFE_SB_Subscribe_CMD : RetCode
  CFE_SB_Subscribe_SEND_HK : RetCode
  CFE_MSG_Init_Combined : List Byte
  FSWV1_InitSensor : RetCode
  FSWV1_InitUDP : RetCode
  UdpSocket : Option Nat
  FSWV1_InitTelemetryUART : RetCode
  FSWV1_InitGPIO : RetCode
  FSWV1_InitUART : RetCode
deriving DecidableEq

/-- Result of `FSWV1_APP_Init`. -/
structure InitResult where
  status : RetCode
  app : FSWV1_APP_Data_t
  calls : List InitCall
deriving DecidableEq

/-- The assignments at the head of `FSWV1_APP_Init`. -/
def Init_assignments (app : FSWV1_APP_Data_t) : FSWV1_APP_Data_t :=
  { app with
    RunStatus := CFE_ES_RunStatus_APP_RUN
    CmdCounter := 0
    ErrCounter := 0
    SensorEnabled := true
    IMUEnabled := true
    ReadRate := FSWV1_DEFAULT_READ_RATE
    CombinedTlmSeqCnt := 0
    LedState := false }

/-- The event that `FSWV1_APP_Init` sends when `status != CFE_SUCCESS` after a device
initialisation, if any. -/
def Init_report (status : RetCode) (id : EventId) (text : String) : List InitCall :=
  if status ≠ RetCode.CFE_SUCCESS then [InitCall.CFE_EVS_SendEvent id text] else []

/-- `FSWV1_APP_Init`.  After `FSWV1_InitGPIO` the variable `status` is assigned again
by `FSWV1_InitUART` before it is tested; the two tests that follow both see the value
returned by `FSWV1_InitUART`. -/
def FSWV1_APP_Init (env : InitEnv) (app : FSWV1_APP_Data_t) : InitResult :=
  let app1 := Init_assignments app
  if env.CFE_EVS_Register ≠ RetCode.CFE_SUCCESS then
    ⟨env.CFE_EVS_Register, app1,
      [InitCall.CFE_ES_WriteToSysLog "FSWV1: Error registering events, RC = 0x%08X\n"]⟩
  else if env.CFE_SB_CreatePipe ≠ RetCode.CFE_SUCCESS then
    ⟨env.CFE_SB_CreatePipe, app1,
      [InitCall.CFE_EVS_SendEvent EventId.FSWV1_APP_PIPE_ERR_EID
        "FSWV1: Error creating pipe, RC = 0x%08X"]⟩
  else if env.CFE_SB_Subscribe_CMD ≠ RetCode.CFE_SUCCESS then
    ⟨env.CFE_SB_Subscribe_CMD, app1,
      [InitCall.CFE_EVS_SendEvent EventId.FSWV1_APP_PIPE_ERR_EID
        "FSWV1: Error subscribing to CMD, RC = 0x%08X"]⟩
  else if env.CFE_SB_Subscribe_SEND_HK ≠ RetCode.CFE_SUCCESS then
    ⟨env.CFE_SB_Subscribe_SEND_HK, app1,
      [InitCall.CFE_EVS_SendEvent EventId.FSWV1_APP_PIPE_ERR_EID
        "FSWV1: Error subscribing to SEND_HK, RC = 0x%08X"]⟩
  else
    let app2 : FSWV1_APP_Data_t :=
      { app1 with
        CombinedTlm := { app1.CombinedTlm with TelemetryHeader := env.CFE_MSG_Init_Combined }
        UdpSocket := env.UdpSocket }
    -- `status = FSWV1_InitGPIO();` is followed at once by `status = FSWV1_InitUART();`
    let status := env.FSWV1_InitUART
    ⟨RetCode.CFE_SUCCESS, app2,
      [InitCall.FSWV1_InitSensor] ++
      Init_report env.FSWV1_InitSensor EventId.FSWV1_APP_SENSOR_ERR_EID
        "FSWV1: Sensor initialization failed, RC = 0x%08X" ++
      [InitCall.FSWV1_InitUDP] ++
      Init_report env.FSWV1_InitUDP EventId.FSWV1_APP_UDP_ERR_EID
        "FSWV1: UDP initialization failed, RC = 0x%08X" ++
      [InitCall.FSWV1_InitTelemetryUART] ++
      Init_report env.FSWV1_InitTelemetryUART EventId.FSWV1_APP_UART_TELEMETRY_ERR_EID
        "FSWV1: Telemetry UART initialization failed, RC = 0x%08X" ++
      [InitCall.FSWV1_InitGPIO, InitCall.FSWV1_InitUART] ++
      Init_report status EventId.FSWV1_APP_UART_ERR_EID
        "FSWV1: UART initialization failed, RC = 0x%08X" ++
      Init_report status EventId.FSWV1_APP_GPIO_ERR_EID
        "FSWV1: GPIO initialization failed, RC = 0x%08X" ++
      [InitCall.CFE_EVS_SendEvent EventId.FSWV1_APP_INIT_INF_EID
        "FSWV1 App Initialized. Version %d.%d.%d.%d"]⟩

/-- The start of `FSWV1_APP_Main`: the initialisation, and the run status set to
`CFE_ES_RunStatus_APP_ERROR` when it did not return `CFE_SUCCESS`. -/
def FSWV1_APP_Main_start (env : InitEnv) (app : FSWV1_APP_Data_t) :
    FSWV1_APP_Data_t × List InitCall :=
  if (FSWV1_APP_Init env app).status ≠ RetCode.CFE_SUCCESS then
    ({ (FSWV1_APP_Init env app).app with RunStatus := CFE_ES_RunStatus_APP_ERROR },
      (FSWV1_APP_Init env app).calls)
  else ((FSWV1_APP_Init env app).app, (FSWV1_APP_Init env app).calls)

/-! ## `fswv1_gpio.c`: the LED -/

/-- The file-scope variables of `fswv1_gpio.c` that the LED functions read: `request`
is whether the pointer of that name is not null. -/
structure GpioState where
  GPIO_Initialized : Bool
  LED_State : Bool
  request : Bool
deriving DecidableEq

/-- Housekeeping Telemetry Payload. -/
structure FSWV1_APP_HkTlm_Payload_t where
  CommandCounter : Nat
  CommandErrorCounter : Nat
  SensorEnabled : Nat
  IMUEnabled : Nat
  ReadRate : Nat
  LedState : Nat
deriving DecidableEq

/-- What command processing calls, in order: events, the console line of
`FSWV1_SetLED`, and the two cFE calls that send the housekeeping packet. -/
inductive CmdCall where
  | CFE_EVS_SendEvent (id : EventId)
  | OS_printf_LED (state : Bool)
  | CFE_SB_TimeStampMsg
  | CFE_SB_TransmitMsg (hk : FSWV1_APP_HkTlm_Payload_t)
deriving DecidableEq

/-- `GPIOD_LINE_VALUE_ACTIVE`, a value of libgpiod's enumeration. -/
def GPIOD_LINE_VALUE_ACTIVE : Int := 1

/-- Result of an LED function: the return value, the value stored through the pointer
argument if any, the file's variables, the calls made. -/
structure LedResult where
  status : Status
  state : Option Bool
  gpio : GpioState
  calls : List CmdCall
deriving DecidableEq

/-- `FSWV1_SetLED`: `ret` is what `gpiod_line_request_set_value` returns. -/
def FSWV1_SetLED (g : GpioState) (state : Bool) (ret : Int) : LedResult :=
  if ¬ g.GPIO_Initialized ∨ ¬ g.request then
    ⟨Status.CFE_STATUS_EXTERNAL_RESOURCE_FAIL, none, g,
      [CmdCall.CFE_EVS_SendEvent EventId.FSWV1_APP_GPIO_ERR_EID]⟩
  else if ret < 0 then
    ⟨Status.CFE_STATUS_EXTERNAL_RESOURCE_FAIL, none, g,
      [CmdCall.CFE_EVS_SendEvent EventId.FSWV1_APP_GPIO_ERR_EID]⟩
  else
    ⟨Status.CFE_SUCCESS, none, { g with LED_State := state }, [CmdCall.OS_printf_LED state]⟩

/-- `FSWV1_GetLED` with a non-null argument: `ret` is what
`gpiod_line_request_get_value` returns. -/
def FSWV1_GetLED (g : GpioState) (ret : Int) : LedResult :=
  if ¬ g.GPIO_Initialized ∨ ¬ g.request then
    ⟨Status.CFE_STATUS_EXTERNAL_RESOURCE_FAIL, none, g,
      [CmdCall.CFE_EVS_SendEvent EventId.FSWV1_APP_GPIO_ERR_EID]⟩
  else if ret < 0 then
    ⟨Status.CFE_STATUS_EXTERNAL_RESOURCE_FAIL, none, g,
      [CmdCall.CFE_EVS_SendEvent EventId.FSWV1_APP_GPIO_ERR_EID]⟩
  else
    ⟨Status.CFE_SUCCESS, some (decide (ret = GPIOD_LINE_VALUE_ACTIVE)),
      { g with LED_State := decide (ret = GPIOD_LINE_VALUE_ACTIVE) }, []⟩

/-- `FSWV1_ToggleLED`. -/
def FSWV1_ToggleLED (g : GpioState) (retGet retSet : Int) : LedResult :=
  let r := FSWV1_GetLED g retGet
  match r.state with
  | some current_state =>
    if r.status ≠ Status.CFE_SUCCESS then r
    else
      let t := FSWV1_SetLED r.gpio (!current_state) retSet
      ⟨t.status, none, t.gpio, r.calls ++ t.calls⟩
  | none => r

/-! ## `fswv1_app.c`: command processing -/

/-- What command processing can reach: the global data, the payload of the housekeeping
packet inside it, and the variables of `fswv1_gpio.c`. -/
structure CommandState where
  app : FSWV1_APP_Data_t
  HkTlm : FSWV1_APP_HkTlm_Payload_t
  gpio : GpioState
deriving DecidableEq

/-- A message on the command pipe, as cFE reports it: `CFE_MSG_GetMsgId`,
`CFE_MSG_GetFcnCode`, `CFE_MSG_GetSize`. -/
structure CommandPacket where
  MsgId : Nat
  FcnCode : Nat
  Size : Nat
deriving DecidableEq

/-- What the GPIO line delivers while one message is processed: the result of the first
`gpiod_line_request_get_value`, of `gpiod_line_request_set_value`, and of a second
`gpiod_line_request_get_value`. -/
structure CommandEnv where
  getValue : Int
  setValue : Int
  getValueAgain : Int
deriving DecidableEq

/-- `FSWV1_APP_CMD_MID`. -/
def FSWV1_APP_CMD_MID : Nat := 0x1884

/-- `FSWV1_APP_SEND_HK_MID`. -/
def FSWV1_APP_SEND_HK_MID : Nat := 0x1885

/-- `CmdCounter++` and `ErrCounter++` on `uint8`. -/
def incr8 (n : Nat) : Nat := (n + 1) % 256

/-- `FSWV1_APP_VerifyCommandLength`. -/
def FSWV1_APP_VerifyCommandLength (pkt : CommandPacket) (ExpectedLength : Nat)
    (cs : CommandState) : Bool × CommandState × List CmdCall :=
  if ExpectedLength ≠ pkt.Size then
    (false, { cs with app := { cs.app with ErrCounter := incr8 cs.app.ErrCounter } },
      [CmdCall.CFE_EVS_SendEvent EventId.FSWV1_APP_LEN_ERR_EID])
  else (true, cs, [])

/-- `FSWV1_APP_ReportHousekeeping`. -/
def FSWV1_APP_ReportHousekeeping (cenv : CommandEnv) (cs : CommandState) :
    CommandState × List CmdCall :=
  let hk1 : FSWV1_APP_HkTlm_Payload_t :=
    { cs.HkTlm with
      CommandCounter := cs.app.CmdCounter
      CommandErrorCounter := cs.app.ErrCounter
      SensorEnabled := if cs.app.SensorEnabled then 1 else 0
      ReadRate := cs.app.ReadRate }
  let r := FSWV1_GetLED cs.gpio cenv.getValue
  match r.state with
  | some led_state =>
    let hk2 := { hk1 with LedState := if led_state then 1 else 0 }
    ({ app := { cs.app with LedState := led_state }, HkTlm := hk2, gpio := r.gpio },
      r.calls ++ [CmdCall.CFE_SB_TimeStampMsg, CmdCall.CFE_SB_TransmitMsg hk2])
  | none =>
    let hk2 := { hk1 with LedState := 0 }
    ({ cs with HkTlm := hk2, gpio := r.gpio },
      r.calls ++ [CmdCall.CFE_SB_TimeStampMsg, CmdCall.CFE_SB_TransmitMsg hk2])

/-- `FSWV1_APP_Noop`. -/
def FSWV1_APP_Noop (cs : CommandState) : CommandState × List CmdCall :=
  ({ cs with app := { cs.app with CmdCounter := incr8 cs.app.CmdCounter } },
    [CmdCall.CFE_EVS_SendEvent EventId.FSWV1_APP_COMMANDNOP_INF_EID])

/-- `FSWV1_APP_ResetCounters`. -/
def FSWV1_APP_ResetCounters (cs : CommandState) : CommandState × List CmdCall :=
  ({ cs with app := { cs.app with CmdCounter := 0, ErrCounter := 0 } },
    [CmdCall.CFE_EVS_SendEvent EventId.FSWV1_APP_COMMANDRST_INF_EID])

/-- `FSWV1_APP_Enable`. -/
def FSWV1_APP_Enable (cs : CommandState) : CommandState × List CmdCall :=
  ({ cs with
     app := { cs.app with
       SensorEnabled := true
       IMUEnabled := true
       CmdCounter := incr8 cs.app.CmdCounter } },
    [CmdCall.CFE_EVS_SendEvent EventId.FSWV1_APP_ENABLE_INF_EID])

/-- `FSWV1_APP_Disable`. -/
def FSWV1_APP_Disable (cs : CommandState) : CommandState × List CmdCall :=
  ({ cs with
     app := { cs.app with
       SensorEnabled := false
       CmdCounter := incr8 cs.app.CmdCounter } },
    [CmdCall.CFE_EVS_SendEvent EventId.FSWV1_APP_DISABLE_INF_EID])

/-- `FSWV1_APP_LedOn` (`state = true`, event `FSWV1_APP_LED_ON_INF_EID`) and
`FSWV1_APP_LedOff` (`state = false`, event `FSWV1_APP_LED_OFF_INF_EID`), which differ
in nothing else. -/
def LedOnOff (state : Bool) (id : EventId) (cenv : CommandEnv) (cs : CommandState) :
    CommandState × List CmdCall :=
  let r := FSWV1_SetLED cs.gpio state cenv.setValue
  if r.status = Status.CFE_SUCCESS then
    ({ cs with
       gpio := r.gpio
       app := { cs.app with CmdCounter := incr8 cs.app.CmdCounter, LedState := state } },
      r.calls ++ [CmdCall.CFE_EVS_SendEvent id])
  else
    ({ cs with
       gpio := r.gpio
       app := { cs.app with ErrCounter := incr8 cs.app.ErrCounter } },
      r.calls ++ [CmdCall.CFE_EVS_SendEvent EventId.FSWV1_APP_GPIO_ERR_EID])

/-- `FSWV1_APP_LedOn`. -/
def FSWV1_APP_LedOn (cenv : CommandEnv) (cs : CommandState) : CommandState × List CmdCall :=
  LedOnOff true EventId.FSWV1_APP_LED_ON_INF_EID cenv cs

/-- `FSWV1_APP_LedOff`. -/
def FSWV1_APP_LedOff (cenv : CommandEnv) (cs : CommandState) : CommandState × List CmdCall :=
  LedOnOff false EventId.FSWV1_APP_LED_OFF_INF_EID cenv cs

/-- `FSWV1_APP_LedToggle`. -/
def FSWV1_APP_LedToggle (cenv : CommandEnv) (cs : CommandState) :
    CommandState × List CmdCall :=
  let r := FSWV1_ToggleLED cs.gpio cenv.getValue cenv.setValue
  if r.status = Status.CFE_SUCCESS then
    let g := FSWV1_GetLED r.gpio cenv.getValueAgain
    let led : Bool :=
      match g.state with
      | some new_state => if g.status = Status.CFE_SUCCESS then new_state else cs.app.LedState
      | none => cs.app.LedState
    ({ cs with
       gpio := g.gpio
       app := { cs.app with CmdCounter := incr8 cs.app.CmdCounter, LedState := led } },
      r.calls ++ g.calls ++ [CmdCall.CFE_EVS_SendEvent EventId.FSWV1_APP_LED_TOGGLE_INF_EID])
  else
    ({ cs with
       gpio := r.gpio
       app := { cs.app with ErrCounter := incr8 cs.app.ErrCounter } },
      r.calls ++ [CmdCall.CFE_EVS_SendEvent EventId.FSWV1_APP_GPIO_ERR_EID])

/-- `FSWV1_APP_LedStatus`. -/
def FSWV1_APP_LedStatus (cenv : CommandEnv) (cs : CommandState) :
    CommandState × List CmdCall :=
  let r := FSWV1_GetLED cs.gpio cenv.getValue
  match r.state with
  | some led_state =>
    if r.status = Status.CFE_SUCCESS then
      ({ cs with
         gpio := r.gpio
         app := { cs.app with CmdCounter := incr8 cs.app.CmdCounter, LedState := led_state } },
        r.calls ++ [CmdCall.CFE_EVS_SendEvent EventId.FSWV1_APP_LED_STATUS_INF_EID])
    else
      ({ cs with
         gpio := r.gpio
         app := { cs.app with ErrCounter := incr8 cs.app.ErrCounter } },
        r.calls ++ [CmdCall.CFE_EVS_SendEvent EventId.FSWV1_APP_GPIO_ERR_EID])
  | none =>
    ({ cs with
       gpio := r.gpio
       app := { cs.app with ErrCounter := incr8 cs.app.ErrCounter } },
      r.calls ++ [CmdCall.CFE_EVS_SendEvent EventId.FSWV1_APP_GPIO_ERR_EID])

/-- One case of the `switch` in `FSWV1_APP_ProcessGroundCommand`: the length check, then
the handler if the check passed. -/
def verified (pkt : CommandPacket) (ExpectedLength : Nat)
    (handler : CommandState → CommandState × List CmdCall) (cs : CommandState) :
    CommandState × List CmdCall :=
  match FSWV1_APP_VerifyCommandLength pkt ExpectedLength cs with
  | (true, cs1, calls) => ((handler cs1).1, calls ++ (handler cs1).2)
  | (false, cs1, calls) => (cs1, calls)

/-- `FSWV1_APP_ProcessGroundCommand`: `cmdLength` is the size of the command structures,
which all consist of a `CFE_MSG_CommandHeader_t`. -/
def FSWV1_APP_ProcessGroundCommand (cmdLength : Nat) (cenv : CommandEnv)
    (pkt : CommandPacket) (cs : CommandState) : CommandState × List CmdCall :=
  match pkt.FcnCode with
  | 0 => verified pkt cmdLength FSWV1_APP_Noop cs
  | 1 => verified pkt cmdLength FSWV1_APP_ResetCounters cs
  | 2 => verified pkt cmdLength FSWV1_APP_Enable cs
  | 3 => verified pkt cmdLength FSWV1_APP_Disable cs
  | 4 => verified pkt cmdLength (FSWV1_APP_LedOn cenv) cs
  | 5 => verified pkt cmdLength (FSWV1_APP_LedOff cenv) cs
  | 6 => verified pkt cmdLength (FSWV1_APP_LedToggle cenv) cs
  | 7 => verified pkt cmdLength (FSWV1_APP_LedStatus cenv) cs
  | _ =>
    ({ cs with app := { cs.app with ErrCounter := incr8 cs.app.ErrCounter } },
      [CmdCall.CFE_EVS_SendEvent EventId.FSWV1_APP_INVALID_MSGID_ERR_EID])

/-- `FSWV1_APP_ProcessCommandPacket`. -/
def FSWV1_APP_ProcessCommandPacket (cmdLength : Nat) (cenv : CommandEnv)
    (pkt : CommandPacket) (cs : CommandState) : CommandState × List CmdCall :=
  if pkt.MsgId = FSWV1_APP_CMD_MID then
    FSWV1_APP_ProcessGroundCommand cmdLength cenv pkt cs
  else if pkt.MsgId = FSWV1_APP_SEND_HK_MID then
    FSWV1_APP_ReportHousekeeping cenv cs
  else (cs, [CmdCall.CFE_EVS_SendEvent EventId.FSWV1_APP_INVALID_MSGID_ERR_EID])

/-! ## `fswv1_app.c`: the main loop -/

/-- All the variables of the program that one pass through the main loop can reach. -/
structure Machine where
  world : World
  HkTlm : FSWV1_APP_HkTlm_Payload_t
  gpio : GpioState
deriving DecidableEq

/-- What `CFE_SB_ReceiveBuffer` brings in one pass through the main loop, with what the
outside delivers during the pass: a message (`CFE_SUCCESS`), the timeout
(`CFE_SB_TIME_OUT`), or another return value. -/
inductive Received where
  | message (pkt : CommandPacket) (cenv : CommandEnv)
  | timeOut (env : TickEnv)
  | failure

/-- A call made in one pass through the main loop. -/
inductive LoopCall where
  | periodic (e : Effect)
  | command (c : CmdCall)
  | CFE_EVS_SendEvent (id : EventId)
deriving DecidableEq

/-- One pass through the body of the main loop of `FSWV1_APP_Main`. -/
def FSWV1_APP_Main_pass (p : Platform) (cmdLength : Nat) (r : Received) (m : Machine) :
    Machine × List LoopCall :=
  match r with
  | Received.message pkt cenv =>
    let c := FSWV1_APP_ProcessCommandPacket cmdLength cenv pkt
      { app := m.world.app, HkTlm := m.HkTlm, gpio := m.gpio }
    ({ world := { m.world with app := c.1.app }, HkTlm := c.1.HkTlm, gpio := c.1.gpio },
      c.2.map LoopCall.command)
  | Received.timeOut env =>
    ({ m with world := (FSWV1_APP_Main_timeout p env m.world).1 },
      (FSWV1_APP_Main_timeout p env m.world).2.map LoopCall.periodic)
  | Received.failure =>
    (m, [LoopCall.CFE_EVS_SendEvent EventId.FSWV1_APP_PIPE_ERR_EID])

/-! ## cFE's message module, as far as the timeout branch uses it

`CFE_MSG_SetSequenceCount` belongs to cFE (`modules/msg`), not to the application.  Its
description here follows cFE: a telemetry header begins with the CCSDS primary header of
6 bytes (`fswv1_sensor.c`: "CCSDS Primary Header (6 bytes)"), stored as bytes, most
significant first; bytes 2 and 3 are the sequence word, whose two high bits are the
segmentation flags and whose 14 low bits (`CFE_MSG_SEQCNT_MASK`) are the packet sequence
count.  The call checks its argument against the mask before it stores anything. -/

/-- `CFE_MSG_SEQCNT_MASK`: the 14 bits of the CCSDS packet sequence count. -/
def CFE_MSG_SEQCNT_MASK : Nat := 0x3FFF

/-- `CFE_MSG_GetSequenceCount`: the sequence word of the header (bytes 2 and 3, most
significant first) under `CFE_MSG_SEQCNT_MASK`. -/
def CFE_MSG_GetSequenceCount (header : List Byte) : Nat :=
  ((header.getD 2 0).val * 256 + (header.getD 3 0).val) % (CFE_MSG_SEQCNT_MASK + 1)

/-- `CFE_MSG_SetSequenceCount` on a non-null header: a count with a bit outside
`CFE_MSG_SEQCNT_MASK` is refused (`CFE_MSG_BAD_ARGUMENT`) and the header stays as it is;
otherwise the count replaces the 14 low bits of the sequence word and the segmentation
flags stay.  The application does not look at the return value. -/
def CFE_MSG_SetSequenceCount (header : List Byte) (SeqCnt : Nat) : List Byte :=
  if SeqCnt / (CFE_MSG_SEQCNT_MASK + 1) ≠ 0 then header
  else
    (header.set 2 (byteOf ((header.getD 2 0).val / 64 * 64 + SeqCnt / 256))).set 3
      (byteOf (SeqCnt % 256))

/-! ## Reference readings used to state the properties -/

/-- Spec-side reading of a little-endian byte pair. -/
def littleEndian16 (lo hi : Byte) : Int := (lo.val : Int) + 256 * (hi.val : Int)

/-- Spec-side two's-complement reading of a 16-bit pattern. -/
def asSigned16 (w : Int) : Int := if w < 32768 then w else w - 65536

/-- The 20-bit value `msb * 4096 + lsb * 16 + floor(xlsb / 16)`. -/
def twentyBit (msb lsb xlsb : Byte) : Int :=
  (msb.val : Int) * 4096 + (lsb.val : Int) * 16 + (xlsb.val : Int) / 16

/-- The formula of `FSWV1_CompensatePressure` evaluated over unbounded integers. -/
def pressureUnbounded (c : FSWV1_CalibData_t) (t_fine adc_P : Int) : Nat :=
  let var1 : Int := t_fine - 128000
  let var2 : Int := var1 * var1 * c.dig_P6
  let var2 : Int := var2 + (var1 * c.dig_P5) * (2 : Int) ^ 17
  let var2 : Int := var2 + c.dig_P4 * (2 : Int) ^ 35
  let var1 : Int := ((var1 * var1 * c.dig_P3) >>> (8 : Nat)) + (var1 * c.dig_P2) * (2 : Int) ^ 12
  let var1 : Int := (((2 : Int) ^ 47 + var1) * c.dig_P1) >>> (33 : Nat)
  if var1 = 0 then
    0
  else
    let p : Int := 1048576 - adc_P
    let p : Int := Int.tdiv (((p * (2 : Int) ^ 31) - var2) * 3125) var1
    let var1 : Int := (c.dig_P9 * (p >>> (13 : Nat)) * (p >>> (13 : Nat))) >>> (25 : Nat)
    let var2 : Int := (c.dig_P8 * p) >>> (19 : Nat)
    let p : Int := ((p + var1 + var2) >>> (8 : Nat)) + c.dig_P7 * (2 : Int) ^ 4
    toU32 p

/-- Membership in the range of `int32`. -/
def inInt32 (x : Int) : Prop := -2 ^ 31 ≤ x ∧ x < 2 ^ 31

instance (x : Int) : Decidable (inInt32 x) := by unfold inInt32; infer_instance

/-- Membership in the range of `int64`. -/
def inInt64 (x : Int) : Prop := -2 ^ 63 ≤ x ∧ x < 2 ^ 63

instance (x : Int) : Decidable (inInt64 x) := by unfold inInt64; infer_instance

/-- Every operation of `FSWV1_CompensatePressure` up to the comparison of `var1`
with zero has, over unbounded integers, a result in the range of `int64`. -/
def pressureFitsHead (c : FSWV1_CalibData_t) (t_fine : Int) : Prop :=
  let v : Int := t_fine - 128000
  let var2a : Int := v * v * c.dig_P6
  let var2b : Int := var2a + (v * c.dig_P5) * (2 : Int) ^ 17
  let var1a : Int := ((v * v * c.dig_P3) >>> (8 : Nat)) + (v * c.dig_P2) * (2 : Int) ^ 12
  inInt64 v ∧ inInt64 (v * v) ∧ inInt64 var2a ∧ inInt64 (v * c.dig_P5) ∧
  inInt64 ((v * c.dig_P5) * (2 : Int) ^ 17) ∧ inInt64 var2b ∧ inInt64 (c.dig_P4 * (2 : Int) ^ 35) ∧
  inInt64 (var2b + c.dig_P4 * (2 : Int) ^ 35) ∧ inInt64 (v * v * c.dig_P3) ∧ inInt64 (v * c.dig_P2) ∧
  inInt64 ((v * c.dig_P2) * (2 : Int) ^ 12) ∧ inInt64 var1a ∧ inInt64 ((2 : Int) ^ 47 + var1a) ∧
  inInt64 (((2 : Int) ^ 47 + var1a) * c.dig_P1)

instance (c : FSWV1_CalibData_t) (t : Int) : Decidable (pressureFitsHead c t) := by
  unfold pressureFitsHead; infer_instance

/-- Every operation of `FSWV1_CompensatePressure` after the comparison of `var1`
with zero has, over unbounded integers, a result in the range of its type: `int32` for
the difference `1048576 - adc_P`, `int64` for the others. -/
def pressureFitsTail (c : FSWV1_CalibData_t) (t_fine adc_P : Int) : Prop :=
  let v : Int := t_fine - 128000
  let var2 : Int := v * v * c.dig_P6 + (v * c.dig_P5) * (2 : Int) ^ 17 + c.dig_P4 * (2 : Int) ^ 35
  let den : Int :=
    (((2 : Int) ^ 47 + (((v * v * c.dig_P3) >>> (8 : Nat)) + (v * c.dig_P2) * (2 : Int) ^ 12)) * c.dig_P1) >>> (33 : Nat)
  let p0 : Int := 1048576 - adc_P
  let p1 : Int := Int.tdiv (((p0 * (2 : Int) ^ 31) - var2) * 3125) den
  let var1 : Int := (c.dig_P9 * (p1 >>> (13 : Nat)) * (p1 >>> (13 : Nat))) >>> (25 : Nat)
  let var2b : Int := (c.dig_P8 * p1) >>> (19 : Nat)
  inInt32 p0 ∧ inInt64 (p0 * (2 : Int) ^ 31) ∧ inInt64 ((p0 * (2 : Int) ^ 31) - var2) ∧
  inInt64 (((p0 * (2 : Int) ^ 31) - var2) * 3125) ∧ inInt64 p1 ∧ inInt64 (c.dig_P9 * (p1 >>> (13 : Nat))) ∧
  inInt64 (c.dig_P9 * (p1 >>> (13 : Nat)) * (p1 >>> (13 : Nat))) ∧ inInt64 (c.dig_P8 * p1) ∧
  inInt64 (p1 + var1) ∧ inInt64 (p1 + var1 + var2b) ∧ inInt64 (c.dig_P7 * (2 : Int) ^ 4) ∧
  inInt64 (((p1 + var1 + var2b) >>> (8 : Nat)) + c.dig_P7 * (2 : Int) ^ 4)

instance (c : FSWV1_CalibData_t) (t a : Int) : Decidable (pressureFitsTail c t a) := by
  unfold pressureFitsTail; infer_instance

/-- A calibration set whose nine pressure constants are those of the datasheet's
example; the temperature constants are those of `T`. -/
def datasheetPressureCalib (T : FSWV1_CalibData_t) : FSWV1_CalibData_t :=
  { T with dig_P1 := 36477, dig_P2 := -10685, dig_P3 := 3024, dig_P4 := 2855, dig_P5 := 140,
           dig_P6 := -7, dig_P7 := 15500, dig_P8 := -14600, dig_P9 := 6000 }

/-- Every constant of the calibration set lies in the range of its field:
`dig_T1` and `dig_P1` are `uint16_t`, the others `int16_t`. -/
def calibInRange (c : FSWV1_CalibData_t) : Prop :=
  (0 ≤ c.dig_T1 ∧ c.dig_T1 ≤ 65535) ∧ (-32768 ≤ c.dig_T2 ∧ c.dig_T2 ≤ 32767) ∧
  (-32768 ≤ c.dig_T3 ∧ c.dig_T3 ≤ 32767) ∧ (0 ≤ c.dig_P1 ∧ c.dig_P1 ≤ 65535) ∧
  (-32768 ≤ c.dig_P2 ∧ c.dig_P2 ≤ 32767) ∧ (-32768 ≤ c.dig_P3 ∧ c.dig_P3 ≤ 32767) ∧
  (-32768 ≤ c.dig_P4 ∧ c.dig_P4 ≤ 32767) ∧ (-32768 ≤ c.dig_P5 ∧ c.dig_P5 ≤ 32767) ∧
  (-32768 ≤ c.dig_P6 ∧ c.dig_P6 ≤ 32767) ∧ (-32768 ≤ c.dig_P7 ∧ c.dig_P7 ≤ 32767) ∧
  (-32768 ≤ c.dig_P8 ∧ c.dig_P8 ≤ 32767) ∧ (-32768 ≤ c.dig_P9 ∧ c.dig_P9 ≤ 32767)

instance (c : FSWV1_CalibData_t) : Decidable (calibInRange c) := by
  unfold calibInRange; infer_instance

/-- The denominator of the pressure formula evaluated over unbounded integers. -/
def pressureDenominatorUnbounded (c : FSWV1_CalibData_t) (t_fine : Int) : Int :=
  let var1 : Int := t_fine - 128000
  let var1 : Int := ((var1 * var1 * c.dig_P3) >>> (8 : Nat)) + (var1 * c.dig_P2) * (2 : Int) ^ 12
  (((2 : Int) ^ 47 + var1) * c.dig_P1) >>> (33 : Nat)

/-- The bytes `c` that are neither a start nor an end marker. -/
def noMarker (body : List Char) : Prop := ∀ c ∈ body, c ≠ '$' ∧ c ≠ '#'


/-! ## Reference notions for the frame decoder -/

/-- The decoder states that occur: those `FSWV1_InitUART` leaves behind (initialised,
descriptor open, `buffer_pos = 0`, a buffer of `UART_BUFFER_SIZE` characters) and those
any `FSWV1_ReadUART` call leaves behind when started in such a state. -/
inductive Reachable : UartState → Prop where
  | init (s : UartState) : s.UART_Initialized = true → 0 ≤ s.uart_fd →
      s.uart_buffer.length = UART_BUFFER_SIZE → s.buffer_pos = 0 → Reachable s
  | read (s : UartState) (data : Option FSWV1_IMUData_t) (input : List Char) (endRc : Int)
      (now : Nat) : Reachable s → Reachable (FSWV1_ReadUART s data input endRc now).state

/-- The characters `0` to `9`. -/
def isDecDigit (c : Char) : Prop := '0' ≤ c ∧ c ≤ '9'

instance (c : Char) : Decidable (isDecDigit c) := by unfold isDecDigit; infer_instance

/-- A decimal floating-point field of the serial protocol: an optional sign
(`some true` is `-`, `some false` is `+`), digits before the point, an optional point
with digits after it, and an optional exponent (its marker, its optional sign, its
digits). -/
structure DecimalField where
  sign : Option Bool
  whole : List Char
  point : Bool
  frac : List Char
  exponent : Option (Char × Option Bool × List Char)

/-- The sign character, if any. -/
def signText : Option Bool → List Char
  | none => []
  | some true => ['-']
  | some false => ['+']

/-- The characters of the exponent part, if any. -/
def exponentText : Option (Char × Option Bool × List Char) → List Char
  | none => []
  | some (m, sg, ds) => m :: (signText sg ++ ds)

/-- The characters of a field. -/
def DecimalField.text (f : DecimalField) : List Char :=
  signText f.sign ++ (f.whole ++ ((if f.point then '.' :: f.frac else []) ++
    exponentText f.exponent))

/-- The field is a decimal floating-point number: only digits where digits belong,
at least one digit in the mantissa, no digits after an absent point, and an exponent,
when present, introduced by `e` or `E` and holding at least one digit. -/
def DecimalField.WellFormed (f : DecimalField) : Prop :=
  (∀ c ∈ f.whole, isDecDigit c) ∧ (∀ c ∈ f.frac, isDecDigit c) ∧
  (f.point = false → f.frac = []) ∧ 0 < f.whole.length + f.frac.length ∧
  ∀ m sg ds, f.exponent = some (m, sg, ds) →
    (m = 'e' ∨ m = 'E') ∧ ds ≠ [] ∧ ∀ c ∈ ds, isDecDigit c

/-- The number that a run of decimal digits denotes, continuing from `acc`. -/
def digitsValue (ds : List Char) (acc : Nat) : Nat :=
  ds.foldl (fun a c => a * 10 + (c.toNat - 48)) acc

/-- The exponent a field denotes (0 when it has none). -/
def exponentValue : Option (Char × Option Bool × List Char) → Int
  | none => 0
  | some (_, some true, ds) => -(digitsValue ds 0 : Int)
  | some (_, _, ds) => (digitsValue ds 0 : Int)

/-- The number a field denotes: its digits as an integer, scaled by ten to the
exponent minus the number of digits after the point, with its sign. -/
def DecimalField.value (f : DecimalField) : FloatVal :=
  FloatVal.finite
    (scaled (f.sign == some true) (digitsValue (f.whole ++ f.frac) 0) 10
      (exponentValue f.exponent - (f.frac.length : Int)))

/-- The frame `$,f1,f2,...,fn,#` that carries the given fields. -/
def frameOf (fs : List DecimalField) : List Char :=
  '$' :: (',' :: ((fs.map (fun f => f.text ++ [','])).flatten ++ ['#']))

/-- The string handed to the parser is one that it accepts. -/
def frameAccepted (str : List Char) : Prop :=
  (sscanf str "$,%f,%f,%f,%f,%f,%f,%f,#").1 = 7

instance (str : List Char) : Decidable (frameAccepted str) := by
  unfold frameAccepted; infer_instance


/-- A decoder at capacity: a `$` and 254 further bytes stored, `buffer_pos = 255`. -/
def uartFull : UartState :=
  { UART_Initialized := true, uart_fd := 3,
    uart_buffer := '$' :: (List.replicate 254 'a' ++ [NUL]), buffer_pos := 255 }

/-- The decoder states that occur, each with the bytes read from the serial line since
`FSWV1_InitUART`: none at first; a call of `FSWV1_ReadUART` adds the bytes it read, that
is its input without what it left unread. -/
inductive ReachableAfter : List Char → UartState → Prop where
  | init (s : UartState) : s.UART_Initialized = true → 0 ≤ s.uart_fd →
      s.uart_buffer.length = UART_BUFFER_SIZE → s.buffer_pos = 0 → ReachableAfter [] s
  | read (hist : List Char) (s : UartState) (data : Option FSWV1_IMUData_t)
      (input : List Char) (endRc : Int) (now : Nat) (consumed : List Char) :
      ReachableAfter hist s →
      input = consumed ++ (FSWV1_ReadUART s data input endRc now).unread →
      ReachableAfter (hist ++ consumed) (FSWV1_ReadUART s data input endRc now).state

/-- The buffer holds what was read since the last `$`: either `buffer_pos = 0`, or the
bytes read so far end with a `$` followed by bytes that are neither `$` nor `#`, and the
first `buffer_pos` places of the buffer hold exactly that `$` and those bytes. -/
def FramedAt (hist : List Char) (s : UartState) : Prop :=
  s.uart_buffer.length = 256 ∧
  (s.buffer_pos = 0 ∨
    ∃ pre b0, hist = pre ++ '$' :: b0 ∧ noMarker b0 ∧
      s.uart_buffer.take s.buffer_pos = '$' :: b0 ∧ s.buffer_pos = b0.length + 1)

/-- The characters a decimal field is made of. -/
def isFieldChar (c : Char) : Prop :=
  isDecDigit c ∨ c = '.' ∨ c = 'e' ∨ c = 'E' ∨ c = '+' ∨ c = '-'

instance (c : Char) : Decidable (isFieldChar c) := by unfold isFieldChar; infer_instance

/-- The field `-2.5e1`. -/
def sampleField : DecimalField :=
  { sign := some true, whole := ['2'], point := true, frac := ['5'],
    exponent := some ('e', none, ['1']) }
/-! ## Reference notions for the periodic reading and the serial sink -/

/-- The state after the passes through the timeout branch that `envs` describes, in
order. -/
def runTicks (p : Platform) (envs : List TickEnv) (w : World) : World :=
  envs.foldl (fun v env => (FSWV1_APP_Main_timeout p env v).1) w

/-- The ten payload members of a packet image, in the order of their declaration. -/
def PacketImage.payloadWords (c : PacketImage) : List Nat :=
  [c.BMP_Temperature, c.BMP_Pressure, c.Accel_X, c.Accel_Y, c.Accel_Z, c.Gyro_X, c.Gyro_Y,
    c.Gyro_Z, c.IMU_Temperature, c.Timestamp]

/-- Conversion of a 32-bit big-endian field to the order of the host, as a receiver on
the same kind of machine does it: reversal of the bytes on a little-endian machine,
nothing on a big-endian one. -/
def be32ToHost (p : Platform) (v : Nat) : Nat := if p.littleEndian then bswap32 v else v

/-- An all-zero sensor structure. -/
def sensorZero : FSWV1_SensorData_t :=
  { Temperature := FloatVal.finite 0, Pressure := FloatVal.finite 0, Timestamp := 0 }

/-- A state of the program as `FSWV1_APP_Init` leaves it when every device came up:
both sources enabled, the sequence count 0, the record zero with a header of 16 bytes. -/
def worldStart : World :=
  { app :=
      { CmdCounter := 0, ErrCounter := 0
        CombinedTlm :=
          { TelemetryHeader := List.replicate 16 0
            Payload := ⟨FloatVal.finite 0, FloatVal.finite 0, FloatVal.finite 0,
              FloatVal.finite 0, FloatVal.finite 0, FloatVal.finite 0, FloatVal.finite 0,
              FloatVal.finite 0, FloatVal.finite 0, 0⟩ }
        RunStatus := 1, UdpSocket := some 1, SensorData := sensorZero, IMUData := imuZero
        SensorEnabled := true, IMUEnabled := true, ReadRate := 1, CombinedTlmSeqCnt := 0
        LedState := false }
    sensor := { I2C_Fd := 3, CalibData := datasheetCalib, t_fine := 0 }
    uart := uartStart
    udp_error_count := 0
    telemetry := { TelemetryUART_Initialized := true, telemetry_uart_fd := 4, error_count := 0 } }

/-- The same state after a Disable command: the pressure/temperature source is off. -/
def worldSensorOff : World :=
  { worldStart with app := { worldStart.app with SensorEnabled := false } }

/-- A pass in which nothing arrives: the bus does not answer, the serial line is empty,
the clock shows `t` seconds, both transmissions go through; the two cFE calls are taken
to leave the header bytes as they are. -/
def envQuiet (t : Nat) : TickEnv :=
  { sensorReply := none, sensorTime := t, uartInput := [], uartEndRc := 0, uartTime := t
    recordTime := t, setSequenceCount := fun h _ => h, timeStampMsg := fun h => h
    udpSendRc := 0, bytesWritten := 56 }

/-- A pass in which nothing arrives, as `envQuiet`, with the sequence count set as cFE
sets it; `CFE_SB_TimeStampMsg` is taken to leave the header bytes as they are. -/
def envCfe (t : Nat) : TickEnv :=
  { envQuiet t with setSequenceCount := CFE_MSG_SetSequenceCount }

/-- The pass handles the header as cFE does: the sequence count is set by
`CFE_MSG_SetSequenceCount`, and `CFE_SB_TimeStampMsg` keeps the primary header (its
length at four bytes or more, its sequence count). -/
def cfeHeaderCalls (env : TickEnv) : Prop :=
  env.setSequenceCount = CFE_MSG_SetSequenceCount ∧
  ∀ h : List Byte, 4 ≤ h.length →
    4 ≤ (env.timeStampMsg h).length ∧
    CFE_MSG_GetSequenceCount (env.timeStampMsg h) = CFE_MSG_GetSequenceCount h

/-- A platform for examples: little-endian, with a stand-in for the representation of
floats (16 for every finite value), which the properties below do not depend on. -/
def samplePlatform : Platform :=
  { littleEndian := true
    floatBits := fun x => match x with
      | FloatVal.finite _ => 16
      | FloatVal.inf _ => 2139095040
      | FloatVal.nan => 2143289344 }

/-- The call is `CFE_MSG_SetSequenceCount`. -/
def isSetSequenceCount : Effect → Bool
  | Effect.CFE_MSG_SetSequenceCount _ => true
  | _ => false

/-- The record that a call sends off whole: the cases `CFE_SB_TransmitMsg` and
`OS_SocketSendTo`. -/
def transmitted : Effect → Option FSWV1_APP_CombinedTlm_t
  | Effect.CFE_SB_TransmitMsg packet => some packet
  | Effect.OS_SocketSendTo packet => some packet
  | _ => none

/-! ## Reference notions for temperature compensation -/

/-- The formula of `FSWV1_CompensateTemperature` evaluated over unbounded integers: the
temperature and the fine temperature. -/
def temperatureUnbounded (c : FSWV1_CalibData_t) (adc_T : Int) : Int × Int :=
  let var1 : Int := (((adc_T >>> (3 : Nat)) - 2 * c.dig_T1) * c.dig_T2) >>> (11 : Nat)
  let var2 : Int :=
    (((((adc_T >>> (4 : Nat)) - c.dig_T1) * ((adc_T >>> (4 : Nat)) - c.dig_T1)) >>> (12 : Nat)) *
      c.dig_T3) >>> (14 : Nat)
  let t_fine : Int := var1 + var2
  ((5 * t_fine + 128) >>> (8 : Nat), t_fine)

/-- Every operation of `FSWV1_CompensateTemperature` has, over unbounded integers, a
result in the range of `int32`. -/
def temperatureFits (c : FSWV1_CalibData_t) (adc_T : Int) : Prop :=
  let a : Int := (adc_T >>> (3 : Nat)) - c.dig_T1 * 2
  let d : Int := (adc_T >>> (4 : Nat)) - c.dig_T1
  let var1 : Int := (a * c.dig_T2) >>> (11 : Nat)
  let var2 : Int := (((d * d) >>> (12 : Nat)) * c.dig_T3) >>> (14 : Nat)
  inInt32 (c.dig_T1 * 2) ∧ inInt32 a ∧ inInt32 (a * c.dig_T2) ∧ inInt32 d ∧ inInt32 (d * d) ∧
  inInt32 (((d * d) >>> (12 : Nat)) * c.dig_T3) ∧ inInt32 (var1 + var2) ∧
  inInt32 ((var1 + var2) * 5) ∧ inInt32 ((var1 + var2) * 5 + 128)

instance (c : FSWV1_CalibData_t) (a : Int) : Decidable (temperatureFits c a) := by
  unfold temperatureFits; infer_instance

/-- A calibration set whose three temperature constants are those of the datasheet's
example; the pressure constants are those of `P`. -/
def datasheetTemperatureCalib (P : FSWV1_CalibData_t) : FSWV1_CalibData_t :=
  { P with dig_T1 := 27504, dig_T2 := 26435, dig_T3 := -1000 }

/-- An in-range calibration set with the largest `dig_T2`: `dig_T1 = 0`,
`dig_T2 = 32767`, `dig_T3 = 0`, the pressure constants of the datasheet's example. -/
def steepCalib : FSWV1_CalibData_t :=
  { datasheetCalib with dig_T1 := 0, dig_T2 := 32767, dig_T3 := 0 }

/-! ## Reference notions for the frame decoder, continued -/

/-- The texts handed to the parser, in order. -/
def parsedTexts (log : List BufferAccess) : List (List Char) :=
  log.filterMap (fun a => match a with
    | BufferAccess.parse t => some t
    | BufferAccess.store _ _ => none)

/-- What is left in the caller's structure after the parser has rejected each of the
given texts in turn: for each text, the fields that `sscanf` converted before it stopped
are stored, first field first. -/
def failedStores (d : FSWV1_IMUData_t) (texts : List (List Char)) : FSWV1_IMUData_t :=
  texts.foldl (fun e t => storeFields (sscanf t "$,%f,%f,%f,%f,%f,%f,%f,#").2 0 e) d

/-! ## Reference notions for the two sinks -/

/-- The four bytes of a 32-bit pattern `v`, most significant first:
`(v >> 24) & 255`, `(v >> 16) & 255`, `(v >> 8) & 255`, `v & 255`. -/
def bigEndianBytes (v : Nat) : List Byte :=
  [byteOf (v / 16777216), byteOf (v / 65536), byteOf (v / 256), byteOf v]

/-- The records handed to `OS_SocketSendTo`, in order. -/
def socketSends (effects : List Effect) : List FSWV1_APP_CombinedTlm_t :=
  effects.filterMap (fun e => match e with
    | Effect.OS_SocketSendTo packet => some packet
    | _ => none)

/-- The byte strings handed to `write`, in order. -/
def serialWrites (effects : List Effect) : List (List Byte) :=
  effects.filterMap (fun e => match e with
    | Effect.write bytes => some bytes
    | _ => none)

/-- The number of reports made from the given `OS_printf` call. -/
def reports (site : PrintSite) (effects : List Effect) : Nat :=
  effects.countP (fun e => decide (e = Effect.OS_printf site))

/-- The serial sink is open. -/
def serialReady (st : TelemetryUartState) : Prop :=
  st.TelemetryUART_Initialized = true ∧ 0 ≤ st.telemetry_uart_fd

instance (st : TelemetryUartState) : Decidable (serialReady st) := by
  unfold serialReady; infer_instance

/-- The bytes that the serial sink hands to `write` for the record `t`. -/
def serialBytes (p : Platform) (t : FSWV1_APP_CombinedTlm_t) : List Byte :=
  PacketImage.bytes p (convertPayload p (packetImage p t))

/-- A send on the network sink fails: the socket exists and `OS_SocketSendTo` returns a
negative value. -/
def udpSendFails (x : FSWV1_APP_Data_t × Int) : Bool :=
  x.1.UdpSocket.isSome && decide (x.2 < 0)

/-- A send on the open serial sink fails: `write` returns something else than the size
of the packet. -/
def serialSendFails (p : Platform) (x : FSWV1_APP_Data_t × Int) : Bool :=
  decide (x.2 ≠ ((serialBytes p x.1.CombinedTlm).length : Int))

/-- Successive calls of `FSWV1_SendUDP`, each with the global data of its moment and the
result of its `OS_SocketSendTo`: the failure counter at the end and all the calls made. -/
def udpSends : List (FSWV1_APP_Data_t × Int) → Nat → Nat × List Effect
  | [], c => (c, [])
  | x :: rest, c =>
    ((udpSends rest (FSWV1_SendUDP x.1 c (some x.1.SensorData) (some x.1.IMUData)
        x.2).error_count).1,
      (FSWV1_SendUDP x.1 c (some x.1.SensorData) (some x.1.IMUData) x.2).effects ++
        (udpSends rest (FSWV1_SendUDP x.1 c (some x.1.SensorData) (some x.1.IMUData)
          x.2).error_count).2)

/-- Successive calls of `FSWV1_SendTelemetryUART`, each with the global data of its
moment and the result of its `write`: the state at the end and all the calls made. -/
def serialSends (p : Platform) :
    List (FSWV1_APP_Data_t × Int) → TelemetryUartState → TelemetryUartState × List Effect
  | [], st => (st, [])
  | x :: rest, st =>
    ((serialSends p rest (FSWV1_SendTelemetryUART p x.1 st (some x.1.SensorData)
        (some x.1.IMUData) x.2).state).1,
      (FSWV1_SendTelemetryUART p x.1 st (some x.1.SensorData) (some x.1.IMUData) x.2).effects ++
        (serialSends p rest (FSWV1_SendTelemetryUART p x.1 st (some x.1.SensorData)
          (some x.1.IMUData) x.2).state).2)

/-! ## Reference notions for initialisation and the main loop -/

/-- The call is one of the five device initialisations. -/
def isDeviceInit : InitCall → Bool
  | InitCall.FSWV1_InitSensor => true
  | InitCall.FSWV1_InitUDP => true
  | InitCall.FSWV1_InitTelemetryUART => true
  | InitCall.FSWV1_InitGPIO => true
  | InitCall.FSWV1_InitUART => true
  | _ => false

/-- The event "GPIO initialization failed" of `FSWV1_APP_Init`. -/
def gpioInitFailedEvent : InitCall :=
  InitCall.CFE_EVS_SendEvent EventId.FSWV1_APP_GPIO_ERR_EID
    "FSWV1: GPIO initialization failed, RC = 0x%08X"

/-- The event "UART initialization failed" of `FSWV1_APP_Init`. -/
def uartInitFailedEvent : InitCall :=
  InitCall.CFE_EVS_SendEvent EventId.FSWV1_APP_UART_ERR_EID
    "FSWV1: UART initialization failed, RC = 0x%08X"

/-- The four cFE calls of `FSWV1_APP_Init` that can end it return `CFE_SUCCESS`. -/
def cfeCallsSucceed (env : InitEnv) : Prop :=
  env.CFE_EVS_Register = RetCode.CFE_SUCCESS ∧ env.CFE_SB_CreatePipe = RetCode.CFE_SUCCESS ∧
  env.CFE_SB_Subscribe_CMD = RetCode.CFE_SUCCESS ∧
  env.CFE_SB_Subscribe_SEND_HK = RetCode.CFE_SUCCESS

instance (env : InitEnv) : Decidable (cfeCallsSucceed env) := by
  unfold cfeCallsSucceed; infer_instance

/-- An initialisation in which cFE does its part and every device comes up. -/
def initEnvAllUp : InitEnv :=
  { CFE_EVS_Register := RetCode.CFE_SUCCESS, CFE_SB_CreatePipe := RetCode.CFE_SUCCESS
    CFE_SB_Subscribe_CMD := RetCode.CFE_SUCCESS
    CFE_SB_Subscribe_SEND_HK := RetCode.CFE_SUCCESS
    CFE_MSG_Init_Combined := List.replicate 16 0
    FSWV1_InitSensor := RetCode.CFE_SUCCESS, FSWV1_InitUDP := RetCode.CFE_SUCCESS
    UdpSocket := some 1, FSWV1_InitTelemetryUART := RetCode.CFE_SUCCESS
    FSWV1_InitGPIO := RetCode.CFE_SUCCESS, FSWV1_InitUART := RetCode.CFE_SUCCESS }

/-- An initialisation in which cFE does its part and every device fails. -/
def initEnvAllDown : InitEnv :=
  { initEnvAllUp with
    FSWV1_InitSensor := RetCode.error (-1), FSWV1_InitUDP := RetCode.error (-1)
    UdpSocket := none, FSWV1_InitTelemetryUART := RetCode.error (-1)
    FSWV1_InitGPIO := RetCode.error (-1), FSWV1_InitUART := RetCode.error (-1) }

/-- An initialisation in which only `FSWV1_InitGPIO` fails. -/
def initEnvGpioDown : InitEnv := { initEnvAllUp with FSWV1_InitGPIO := RetCode.error (-1) }

/-- An initialisation in which only `FSWV1_InitUART` fails. -/
def initEnvUartDown : InitEnv := { initEnvAllUp with FSWV1_InitUART := RetCode.error (-1) }

/-- The global data before `FSWV1_APP_Init`: all zero. -/
def appZero : FSWV1_APP_Data_t :=
  { CmdCounter := 0, ErrCounter := 0
    CombinedTlm :=
      { TelemetryHeader := List.replicate 16 0
        Payload := ⟨FloatVal.finite 0, FloatVal.finite 0, FloatVal.finite 0,
          FloatVal.finite 0, FloatVal.finite 0, FloatVal.finite 0, FloatVal.finite 0,
          FloatVal.finite 0, FloatVal.finite 0, 0⟩ }
    RunStatus := 0, UdpSocket := none, SensorData := sensorZero, IMUData := imuZero
    SensorEnabled := false, IMUEnabled := false, ReadRate := 0, CombinedTlmSeqCnt := 0
    LedState := false }

/-- The states the program can be in after `FSWV1_APP_Init`: at first the global data is
what `FSWV1_APP_Init` left, or what the start of `FSWV1_APP_Main` made of it, the
variables of the devices being whatever their initialisations left; every pass through
the main loop, on a message, on the timeout or on a failure of the pipe, leads to the
next. -/
inductive Running (p : Platform) (cmdLength : Nat) : Machine → Prop where
  | start (env : InitEnv) (app0 : FSWV1_APP_Data_t) (m : Machine) :
      m.world.app = (FSWV1_APP_Init env app0).app ∨
        m.world.app = (FSWV1_APP_Main_start env app0).1 → Running p cmdLength m
  | pass (r : Received) (m : Machine) :
      Running p cmdLength m → Running p cmdLength (FSWV1_APP_Main_pass p cmdLength r m).1

/-- A machine at the first pass after an initialisation in which every device came
up. -/
def machineStart : Machine :=
  { world := { worldStart with app := (FSWV1_APP_Main_start initEnvAllUp appZero).1 }
    HkTlm := ⟨0, 0, 0, 0, 0, 0⟩
    gpio := { GPIO_Initialized := true, LED_State := false, request := true } }

/-- A pass of the main loop on the timeout in which no device delivers anything. -/
def passQuiet : Received := Received.timeOut (envQuiet 0)

/-- A pass of the main loop on the Disable command of the right length. -/
def passDisable : Received :=
  Received.message ⟨FSWV1_APP_CMD_MID, 3, 8⟩ ⟨0, 0, 0⟩

/-! ## Properties of the compensation engine -/

theorem readSensor_ok (s : SensorState) (d : FSWV1_SensorData_t) (data : List Byte) (now : Nat)
    (hfd : 0 ≤ s.I2C_Fd) (hlen : data.length = 6) :
    FSWV1_ReadSensor s (some d) (some data) now =
      ⟨Status.CFE_SUCCESS,
        some { Temperature :=
                 FloatVal.finite
                   (((FSWV1_CompensateTemperature s (rawTemperature data)).1 : ℚ) / 100)
               Pressure :=
                 FloatVal.finite
                   (((FSWV1_CompensatePressure
                       (FSWV1_CompensateTemperature s (rawTemperature data)).2
                       (rawPressure data) : Nat) : ℚ) / 25600)
               Timestamp := now },
        (FSWV1_CompensateTemperature s (rawTemperature data)).2, []⟩ := by
  have h' : ¬ s.I2C_Fd < 0 := not_lt.mpr hfd
  simp only [FSWV1_ReadSensor, FSWV1_ReadReg, h', hlen, ne_eq, not_true_eq_false, if_false]

/-- C1: with the datasheet's temperature calibration (`dig_T1 = 27504`, `dig_T2 = 26435`,
`dig_T3 = -1000`) and raw `adc_T = 519888`, `FSWV1_CompensateTemperature` returns 2508
centi-degrees, which is 25.08 after the division by 100, and leaves `t_fine = 128422`;
nothing else of the state changes. -/
theorem C1_datasheet_temperature (fd t0 : Int) (P : FSWV1_CalibData_t) :
    FSWV1_CompensateTemperature
        ⟨fd, { P with dig_T1 := 27504, dig_T2 := 26435, dig_T3 := -1000 }, t0⟩ 519888 =
      (2508, ⟨fd, { P with dig_T1 := 27504, dig_T2 := 26435, dig_T3 := -1000 }, 128422⟩) ∧
    ((2508 : Int) : ℚ) / 100 = 25.08 := by
  constructor
  · rfl
  · norm_num

/-- The integer that `FSWV1_CompensatePressure` returns on the datasheet's example. -/
theorem datasheet_pressure_value (fd : Int) (T : FSWV1_CalibData_t) :
    FSWV1_CompensatePressure
        ⟨fd, { T with dig_P1 := 36477, dig_P2 := -10685, dig_P3 := 3024, dig_P4 := 2855,
                      dig_P5 := 140, dig_P6 := -7, dig_P7 := 15500, dig_P8 := -14600,
                      dig_P9 := 6000 }, 128422⟩ 415148 = 25767233 := by
  rfl

/-- C2: with the datasheet's pressure calibration, `t_fine = 128422` and raw
`adc_P = 415148`, the integer returned by `FSWV1_CompensatePressure`, divided by 256, is
within 1 Pa of the published 100653.27 Pa; divided by 25600 it is within 0.01 of
1006.53 hPa. -/
theorem C2_datasheet_pressure (fd : Int) (T : FSWV1_CalibData_t) :
    |((FSWV1_CompensatePressure
        ⟨fd, { T with dig_P1 := 36477, dig_P2 := -10685, dig_P3 := 3024, dig_P4 := 2855,
                      dig_P5 := 140, dig_P6 := -7, dig_P7 := 15500, dig_P8 := -14600,
                      dig_P9 := 6000 }, 128422⟩ 415148 : Nat) : ℚ) / 256 - 100653.27| < 1 ∧
    |((FSWV1_CompensatePressure
        ⟨fd, { T with dig_P1 := 36477, dig_P2 := -10685, dig_P3 := 3024, dig_P4 := 2855,
                      dig_P5 := 140, dig_P6 := -7, dig_P7 := 15500, dig_P8 := -14600,
                      dig_P9 := 6000 }, 128422⟩ 415148 : Nat) : ℚ) / 25600 - 1006.53| < 0.01 := by
  rw [datasheet_pressure_value]
  constructor
  · rw [abs_lt]; norm_num
  · rw [abs_lt]; norm_num

theorem calibWord_eq (calib : List Byte) (hi lo : Nat) :
    calibWord calib hi lo = littleEndian16 (calib.getD lo 0) (calib.getD hi 0) := by
  unfold calibWord littleEndian16
  have hlo : (calib.getD lo 0).val < 2 ^ 8 := (calib.getD lo 0).isLt
  rw [Nat.shiftLeft_eq, Nat.mul_comm, ← Nat.mul_add_lt_is_or hlo]
  push_cast
  ring

theorem littleEndian16_range (lo hi : Byte) :
    0 ≤ littleEndian16 lo hi ∧ littleEndian16 lo hi < 65536 := by
  unfold littleEndian16
  have h1 := lo.isLt
  have h2 := hi.isLt
  constructor <;> omega

theorem toU16_littleEndian16 (lo hi : Byte) : toU16 (littleEndian16 lo hi) = littleEndian16 lo hi := by
  have h := littleEndian16_range lo hi
  unfold toU16
  omega

theorem toS16_littleEndian16 (lo hi : Byte) :
    toS16 (littleEndian16 lo hi) = asSigned16 (littleEndian16 lo hi) := by
  have h := littleEndian16_range lo hi
  unfold toS16 wrapS asSigned16
  norm_num
  split_ifs <;> omega

theorem pressureDenominator_P1_zero (c : FSWV1_CalibData_t) (t : Int) (h : c.dig_P1 = 0) :
    pressureDenominator c t = 0 := by
  unfold pressureDenominator
  rw [h]
  dsimp only
  rw [Int.mul_zero]
  decide

theorem compensatePressure_zero (s : SensorState) (adc_P : Int)
    (h : pressureDenominator s.CalibData s.t_fine = 0) : FSWV1_CompensatePressure s adc_P = 0 := by
  simp only [FSWV1_CompensatePressure, h, if_true]

/-- C3: whenever the intermediate denominator (`var1` after the multiplication by `dig_P1`
and the shift right by 33) is 0, and in particular whenever `dig_P1 = 0`,
`FSWV1_CompensatePressure` returns exactly 0 for every raw `adc_P`, and a
`FSWV1_ReadSensor` call in which this happens still reports success, raises no event and
delivers a pressure of exactly 0. -/
theorem C3_zero_denominator :
    (∀ (s : SensorState) (adc_P : Int),
      pressureDenominator s.CalibData s.t_fine = 0 → FSWV1_CompensatePressure s adc_P = 0) ∧
    (∀ (s : SensorState) (adc_P : Int),
      s.CalibData.dig_P1 = 0 → FSWV1_CompensatePressure s adc_P = 0) ∧
    (∀ (s : SensorState) (d : FSWV1_SensorData_t) (data : List Byte) (now : Nat),
      0 ≤ s.I2C_Fd → data.length = 6 →
      (pressureDenominator s.CalibData
          (FSWV1_CompensateTemperature s (rawTemperature data)).2.t_fine = 0 ∨
        s.CalibData.dig_P1 = 0) →
      (FSWV1_ReadSensor s (some d) (some data) now).status = Status.CFE_SUCCESS ∧
      (FSWV1_ReadSensor s (some d) (some data) now).events = [] ∧
      (FSWV1_ReadSensor s (some d) (some data) now).Data.map (fun r => r.Pressure) =
        some (FloatVal.finite 0)) := by
  refine ⟨compensatePressure_zero, ?_, ?_⟩
  · intro s adc_P h
    exact compensatePressure_zero s adc_P (pressureDenominator_P1_zero _ _ h)
  · intro s d data now hfd hlen h
    have hz : FSWV1_CompensatePressure (FSWV1_CompensateTemperature s (rawTemperature data)).2
        (rawPressure data) = 0 := by
      apply compensatePressure_zero
      rcases h with h | h
      · exact h
      · exact pressureDenominator_P1_zero _ _ h
    rw [readSensor_ok s d data now hfd hlen, hz]
    simp

/-- Witness for C3: the datasheet example with `dig_P1` set to 0. -/
theorem C3_zero_denominator_witness :
    FSWV1_CompensatePressure ⟨3, { datasheetCalib with dig_P1 := 0 }, 128422⟩ 415148 = 0 ∧
    (FSWV1_ReadSensor ⟨3, { datasheetCalib with dig_P1 := 0 }, 0⟩
        (some ⟨FloatVal.finite 1, FloatVal.finite 1, 0⟩)
        (some [0x65, 0x5A, 0xC0, 0x7E, 0xED, 0x00]) 5).Data.map (fun r => r.Pressure) =
      some (FloatVal.finite 0) :=
  ⟨C3_zero_denominator.2.1 ⟨3, { datasheetCalib with dig_P1 := 0 }, 128422⟩ 415148 rfl,
   (C3_zero_denominator.2.2 ⟨3, { datasheetCalib with dig_P1 := 0 }, 0⟩
      ⟨FloatVal.finite 1, FloatVal.finite 1, 0⟩ [0x65, 0x5A, 0xC0, 0x7E, 0xED, 0x00] 5
      (by decide) rfl (Or.inr rfl)).2.2⟩

/-- C5: a calibration load whose two reads deliver 6 bytes `b` and 18 bytes `c` succeeds
and packs the bytes little-endian: `dig_T1` and `dig_P1` are the unsigned 16-bit words
`b[0] + 256 * b[1]` and `c[0] + 256 * c[1]`; the other ten constants are the words at the
following byte pairs read as two's-complement signed 16-bit numbers. -/
theorem C5_calibration_little_endian (s : SensorState) (b c : List Byte)
    (hb : b.length = 6) (hc : c.length = 18) :
    (FSWV1_ReadCalibrationData s (some b) (some c)).1 = Status.CFE_SUCCESS ∧
    (FSWV1_ReadCalibrationData s (some b) (some c)).2.CalibData =
      { dig_T1 := littleEndian16 (b.getD 0 0) (b.getD 1 0)
        dig_T2 := asSigned16 (littleEndian16 (b.getD 2 0) (b.getD 3 0))
        dig_T3 := asSigned16 (littleEndian16 (b.getD 4 0) (b.getD 5 0))
        dig_P1 := littleEndian16 (c.getD 0 0) (c.getD 1 0)
        dig_P2 := asSigned16 (littleEndian16 (c.getD 2 0) (c.getD 3 0))
        dig_P3 := asSigned16 (littleEndian16 (c.getD 4 0) (c.getD 5 0))
        dig_P4 := asSigned16 (littleEndian16 (c.getD 6 0) (c.getD 7 0))
        dig_P5 := asSigned16 (littleEndian16 (c.getD 8 0) (c.getD 9 0))
        dig_P6 := asSigned16 (littleEndian16 (c.getD 10 0) (c.getD 11 0))
        dig_P7 := asSigned16 (littleEndian16 (c.getD 12 0) (c.getD 13 0))
        dig_P8 := asSigned16 (littleEndian16 (c.getD 14 0) (c.getD 15 0))
        dig_P9 := asSigned16 (littleEndian16 (c.getD 16 0) (c.getD 17 0)) } := by
  simp only [FSWV1_ReadCalibrationData, FSWV1_ReadReg, hb, hc, ne_eq, not_true_eq_false,
    if_false, calibWord_eq, toU16_littleEndian16, toS16_littleEndian16, and_self]


/-- Witness for C5: the register contents that encode the datasheet's calibration set. -/
theorem C5_calibration_little_endian_witness :
    (FSWV1_ReadCalibrationData ⟨3, ⟨0, 0, 0, 0, 0, 0, 0, 0, 0, 0, 0, 0⟩, 0⟩
        (some [0x70, 0x6B, 0x43, 0x67, 0x18, 0xFC])
        (some [0x7D, 0x8E, 0x43, 0xD6, 0xD0, 0x0B, 0x27, 0x0B, 0x8C, 0x00, 0xF9, 0xFF,
          0x8C, 0x3C, 0xF8, 0xC6, 0x70, 0x17])).2.CalibData = datasheetCalib :=
  (C5_calibration_little_endian ⟨3, ⟨0, 0, 0, 0, 0, 0, 0, 0, 0, 0, 0, 0⟩, 0⟩
      [0x70, 0x6B, 0x43, 0x67, 0x18, 0xFC]
      [0x7D, 0x8E, 0x43, 0xD6, 0xD0, 0x0B, 0x27, 0x0B, 0x8C, 0x00, 0xF9, 0xFF,
        0x8C, 0x3C, 0xF8, 0xC6, 0x70, 0x17] rfl rfl).2.trans (by decide)

theorem assemble_eq (a b c : Byte) :
    (((a.val <<< 12 ||| b.val <<< 4 ||| c.val >>> 4 : Nat)) : Int) = twentyBit a b c := by
  have hc : c.val / 2 ^ 4 < 2 ^ 4 := by
    have := c.isLt
    omega
  have hb : 2 ^ 4 * b.val + c.val / 2 ^ 4 < 2 ^ 12 := by
    have := b.isLt
    omega
  have e1 : a.val <<< 12 ||| b.val <<< 4 ||| c.val >>> 4 =
      2 ^ 12 * a.val + (2 ^ 4 * b.val + c.val / 2 ^ 4) := by
    rw [Nat.lor_assoc, Nat.shiftLeft_eq, Nat.shiftLeft_eq, Nat.shiftRight_eq_div_pow,
      Nat.mul_comm b.val, Nat.mul_comm a.val, ← Nat.mul_add_lt_is_or hc,
      ← Nat.mul_add_lt_is_or hb]
  rw [e1]
  unfold twentyBit
  push_cast
  ring

theorem rawPressure_eq (d0 d1 d2 d3 d4 d5 : Byte) :
    rawPressure [d0, d1, d2, d3, d4, d5] = twentyBit d0 d1 d2 := by
  simp only [rawPressure, List.getD_cons_succ, List.getD_cons_zero]
  exact assemble_eq d0 d1 d2

theorem rawTemperature_eq (d0 d1 d2 d3 d4 d5 : Byte) :
    rawTemperature [d0, d1, d2, d3, d4, d5] = twentyBit d3 d4 d5 := by
  simp only [rawTemperature, List.getD_cons_succ, List.getD_cons_zero]
  exact assemble_eq d3 d4 d5

theorem twentyBit_range (a b c : Byte) : 0 ≤ twentyBit a b c ∧ twentyBit a b c < 2 ^ 20 := by
  unfold twentyBit
  have := a.isLt
  have := b.isLt
  have := c.isLt
  constructor <;> omega

/-- C6: a call of `FSWV1_ReadSensor` that gets the 6-byte burst `d0 .. d5` (the pointer is
not null and the bus is open) is the call that hands
`adc_T = d3 * 4096 + d4 * 16 + floor(d5 / 16)` to `FSWV1_CompensateTemperature` and then
`adc_P = d0 * 4096 + d1 * 16 + floor(d2 / 16)` to `FSWV1_CompensatePressure`: its return
value, the three members it stores and the state it leaves are those of the two
compensations on exactly these two numbers.  Both numbers lie in `0 .. 2^20 - 1`, and the low
four bits of `d2` and `d5` do not influence anything the call produces, whatever the pointer
is. -/
theorem C6_raw_sample_assembly (s : SensorState) (d : FSWV1_SensorData_t) (now : Nat)
    (d0 d1 d2 d3 d4 d5 : Byte) (hfd : 0 ≤ s.I2C_Fd) :
    FSWV1_ReadSensor s (some d) (some [d0, d1, d2, d3, d4, d5]) now =
      ⟨Status.CFE_SUCCESS,
        some { Temperature :=
                 FloatVal.finite
                   (((FSWV1_CompensateTemperature s
                       ((d3.val : Int) * 4096 + (d4.val : Int) * 16 + (d5.val : Int) / 16)).1 : ℚ)
                     / 100)
               Pressure :=
                 FloatVal.finite
                   (((FSWV1_CompensatePressure
                       (FSWV1_CompensateTemperature s
                         ((d3.val : Int) * 4096 + (d4.val : Int) * 16 + (d5.val : Int) / 16)).2
                       ((d0.val : Int) * 4096 + (d1.val : Int) * 16 + (d2.val : Int) / 16) : Nat) : ℚ)
                     / 25600)
               Timestamp := now },
        (FSWV1_CompensateTemperature s
          ((d3.val : Int) * 4096 + (d4.val : Int) * 16 + (d5.val : Int) / 16)).2, []⟩ ∧
    (0 ≤ (d0.val : Int) * 4096 + (d1.val : Int) * 16 + (d2.val : Int) / 16 ∧
      (d0.val : Int) * 4096 + (d1.val : Int) * 16 + (d2.val : Int) / 16 < 2 ^ 20) ∧
    (0 ≤ (d3.val : Int) * 4096 + (d4.val : Int) * 16 + (d5.val : Int) / 16 ∧
      (d3.val : Int) * 4096 + (d4.val : Int) * 16 + (d5.val : Int) / 16 < 2 ^ 20) ∧
    (∀ (D : Option FSWV1_SensorData_t) (e2 e5 : Byte),
      e2.val / 16 = d2.val / 16 → e5.val / 16 = d5.val / 16 →
      FSWV1_ReadSensor s D (some [d0, d1, e2, d3, d4, e5]) now =
        FSWV1_ReadSensor s D (some [d0, d1, d2, d3, d4, d5]) now) := by
  refine ⟨?_, twentyBit_range d0 d1 d2, twentyBit_range d3 d4 d5, ?_⟩
  · rw [readSensor_ok s d [d0, d1, d2, d3, d4, d5] now hfd rfl, rawPressure_eq,
      rawTemperature_eq]
    rfl
  · intro D e2 e5 h2 h5
    have hP : rawPressure [d0, d1, e2, d3, d4, e5] = rawPressure [d0, d1, d2, d3, d4, d5] := by
      rw [rawPressure_eq, rawPressure_eq]
      unfold twentyBit
      omega
    have hT : rawTemperature [d0, d1, e2, d3, d4, e5] =
        rawTemperature [d0, d1, d2, d3, d4, d5] := by
      rw [rawTemperature_eq, rawTemperature_eq]
      unfold twentyBit
      omega
    cases D with
    | none => rfl
    | some d =>
      rw [readSensor_ok s d [d0, d1, e2, d3, d4, e5] now hfd rfl,
        readSensor_ok s d [d0, d1, d2, d3, d4, d5] now hfd rfl, hP, hT]

/-- Witness for C6: the burst of the datasheet's example with the low four bits of `d2`
and `d5` set, on an open bus, with the datasheet's calibration: the call hands 519888 and
415148 to the compensations and stores 2508 / 100 and 25767233 / 25600. -/
theorem C6_raw_sample_assembly_witness :
    FSWV1_ReadSensor ⟨3, datasheetCalib, 0⟩ (some sensorZero)
        (some [0x65, 0x5A, 0xCF, 0x7E, 0xED, 0x07]) 9 =
      ⟨Status.CFE_SUCCESS,
        some { Temperature := FloatVal.finite (2508 / 100)
               Pressure := FloatVal.finite (25767233 / 25600)
               Timestamp := 9 },
        ⟨3, datasheetCalib, 128422⟩, []⟩ ∧
    (((0x7E : Byte).val : Int) * 4096 + ((0xED : Byte).val : Int) * 16 +
        ((0x07 : Byte).val : Int) / 16 = 519888 ∧
      ((0x65 : Byte).val : Int) * 4096 + ((0x5A : Byte).val : Int) * 16 +
        ((0xCF : Byte).val : Int) / 16 = 415148) :=
  ⟨(C6_raw_sample_assembly ⟨3, datasheetCalib, 0⟩ sensorZero 9 0x65 0x5A 0xCF 0x7E 0xED 0x07
      (by decide)).1.trans (by
        have hT : ((0x7E : Byte).val : Int) * 4096 + ((0xED : Byte).val : Int) * 16 +
            ((0x07 : Byte).val : Int) / 16 = 519888 := by decide
        have hP : ((0x65 : Byte).val : Int) * 4096 + ((0x5A : Byte).val : Int) * 16 +
            ((0xCF : Byte).val : Int) / 16 = 415148 := by decide
        rw [hT, hP]
        rfl),
    by decide, by decide⟩

theorem readSensor_success_inv (s : SensorState) (D : Option FSWV1_SensorData_t)
    (reply : I2CReply) (now : Nat)
    (h : (FSWV1_ReadSensor s D reply now).status = Status.CFE_SUCCESS) :
    ∃ d data, D = some d ∧ reply = some data ∧ data.length = 6 ∧ 0 ≤ s.I2C_Fd := by
  cases D with
  | none => simp [FSWV1_ReadSensor] at h
  | some d =>
    by_cases hfd : s.I2C_Fd < 0
    · simp [FSWV1_ReadSensor, hfd] at h
    · cases reply with
      | none => simp [FSWV1_ReadSensor, FSWV1_ReadReg, hfd] at h
      | some data =>
        by_cases hlen : data.length = 6
        · exact ⟨d, data, rfl, rfl, hlen, not_lt.mp hfd⟩
        · simp [FSWV1_ReadSensor, FSWV1_ReadReg, hfd, hlen] at h

/-- C7: two successful `FSWV1_ReadSensor` calls with the same calibration set and the same
burst reply produce the same temperature and the same pressure (and leave the same state)
whatever the shared `t_fine` held before each call, because
`FSWV1_CompensateTemperature` overwrites `t_fine` without reading it. -/
theorem C7_pressure_independent_of_prior_t_fine (fd : Int) (c : FSWV1_CalibData_t)
    (t1 t2 : Int) (D1 D2 : Option FSWV1_SensorData_t) (reply : I2CReply) (now1 now2 : Nat)
    (h1 : (FSWV1_ReadSensor ⟨fd, c, t1⟩ D1 reply now1).status = Status.CFE_SUCCESS)
    (h2 : (FSWV1_ReadSensor ⟨fd, c, t2⟩ D2 reply now2).status = Status.CFE_SUCCESS) :
    (FSWV1_ReadSensor ⟨fd, c, t1⟩ D1 reply now1).Data.map (fun r => (r.Temperature, r.Pressure)) =
      (FSWV1_ReadSensor ⟨fd, c, t2⟩ D2 reply now2).Data.map
        (fun r => (r.Temperature, r.Pressure)) ∧
    (FSWV1_ReadSensor ⟨fd, c, t1⟩ D1 reply now1).state =
      (FSWV1_ReadSensor ⟨fd, c, t2⟩ D2 reply now2).state ∧
    ∀ adc_T : Int, (FSWV1_CompensateTemperature ⟨fd, c, t1⟩ adc_T).2.t_fine =
      (FSWV1_CompensateTemperature ⟨fd, c, t2⟩ adc_T).2.t_fine := by
  obtain ⟨d1, data, rfl, rfl, hlen, hfd⟩ := readSensor_success_inv _ _ _ _ h1
  obtain ⟨d2, data2, rfl, hd, -, -⟩ := readSensor_success_inv _ _ _ _ h2
  cases hd
  rw [readSensor_ok ⟨fd, c, t1⟩ d1 data now1 hfd hlen,
    readSensor_ok ⟨fd, c, t2⟩ d2 data now2 hfd hlen]
  exact ⟨rfl, rfl, fun _ => rfl⟩

/-- Witness for C7: the datasheet burst read with two different stale `t_fine` values. -/
theorem C7_pressure_independent_of_prior_t_fine_witness :
    (FSWV1_ReadSensor ⟨3, datasheetCalib, 0⟩ (some ⟨FloatVal.nan, FloatVal.nan, 0⟩)
        (some [0x65, 0x5A, 0xC0, 0x7E, 0xED, 0x00]) 10).Data.map
        (fun r => (r.Temperature, r.Pressure)) =
      (FSWV1_ReadSensor ⟨3, datasheetCalib, 999999⟩ (some ⟨FloatVal.finite 1, FloatVal.finite 2, 3⟩)
        (some [0x65, 0x5A, 0xC0, 0x7E, 0xED, 0x00]) 20).Data.map
        (fun r => (r.Temperature, r.Pressure)) :=
  (C7_pressure_independent_of_prior_t_fine 3 datasheetCalib 0 999999
    (some ⟨FloatVal.nan, FloatVal.nan, 0⟩) (some ⟨FloatVal.finite 1, FloatVal.finite 2, 3⟩)
    (some [0x65, 0x5A, 0xC0, 0x7E, 0xED, 0x00]) 10 20 rfl rfl).1

theorem wrap32_range (x : Int) : -2147483648 ≤ wrap32 x ∧ wrap32 x < 2147483648 := by
  unfold wrap32 wrapS
  simp only [Nat.reduceSub]
  have e1 : (2 : Int) ^ 32 = 4294967296 := by norm_num
  have e2 : (2 : Int) ^ 31 = 2147483648 := by norm_num
  rw [e1, e2]
  omega

theorem wrap32_of_range {x : Int} (h1 : -2147483648 ≤ x) (h2 : x < 2147483648) :
    wrap32 x = x := by
  unfold wrap32 wrapS
  simp only [Nat.reduceSub]
  have e1 : (2 : Int) ^ 32 = 4294967296 := by norm_num
  have e2 : (2 : Int) ^ 31 = 2147483648 := by norm_num
  rw [e1, e2]
  omega

theorem wrap32_of_inInt32 {x : Int} (h : inInt32 x) : wrap32 x = x := by
  obtain ⟨h1, h2⟩ := h
  have e2 : (2 : Int) ^ 31 = 2147483648 := by norm_num
  rw [e2] at h1 h2
  exact wrap32_of_range h1 h2

theorem wrap64_of_inInt64 {x : Int} (h : inInt64 x) : wrap64 x = x := by
  obtain ⟨h1, h2⟩ := h
  unfold wrap64 wrapS
  simp only [Nat.reduceSub]
  have e : (2 : Int) ^ 64 = 2 ^ 63 + 2 ^ 63 := by norm_num
  rw [Int.emod_eq_of_lt (by linarith) (by linarith)]
  ring

/-- When every intermediate value of the pressure formula over unbounded integers lies in
the range of its type, the computation never wraps and returns the unbounded value. -/
theorem pressure_no_overflow (fd : Int) (c : FSWV1_CalibData_t) (t adc_P : Int)
    (h1 : pressureFitsHead c t)
    (h2 : pressureDenominatorUnbounded c t ≠ 0 → pressureFitsTail c t adc_P) :
    FSWV1_CompensatePressure ⟨fd, c, t⟩ adc_P = pressureUnbounded c t adc_P := by
  unfold pressureFitsHead at h1
  unfold pressureFitsTail pressureDenominatorUnbounded at h2
  dsimp only at h1 h2
  obtain ⟨a1, a2, a3, a4, a5, a6, a7, a8, a9, a10, a11, a12, a13, a14⟩ := h1
  unfold FSWV1_CompensatePressure pressureDenominator pressureUnbounded
  dsimp only
  rw [wrap64_of_inInt64 a1, wrap64_of_inInt64 a2, wrap64_of_inInt64 a3, wrap64_of_inInt64 a4,
    wrap64_of_inInt64 a5, wrap64_of_inInt64 a6, wrap64_of_inInt64 a7, wrap64_of_inInt64 a8,
    wrap64_of_inInt64 a9, wrap64_of_inInt64 a10, wrap64_of_inInt64 a11, wrap64_of_inInt64 a12,
    wrap64_of_inInt64 a13, wrap64_of_inInt64 a14]
  split_ifs with hz
  · rfl
  · obtain ⟨b1, b2, b3, b4, b5, b6, b7, b8, b9, b10, b11, b12⟩ := h2 hz
    rw [wrap32_of_inInt32 b1, wrap64_of_inInt64 b2, wrap64_of_inInt64 b3, wrap64_of_inInt64 b4,
      wrap64_of_inInt64 b5, wrap64_of_inInt64 b6, wrap64_of_inInt64 b7, wrap64_of_inInt64 b8,
      wrap64_of_inInt64 b9, wrap64_of_inInt64 b10, wrap64_of_inInt64 b11, wrap64_of_inInt64 b12]

theorem shiftRight_eq_ediv (x : Int) (n : Nat) (k : Int) (hk : (2 : Int) ^ n = k) :
    x >>> n = x / k := by
  rw [Int.shiftRight_eq_div_pow, ← hk]
  norm_cast

/-- Whatever the calibration and the raw count, the fine temperature that
`FSWV1_CompensateTemperature` stores lies between `-(2^20 + 2^17)` and `2^20 + 2^17`. -/
theorem t_fine_range (s : SensorState) (adc_T : Int) :
    -1179648 ≤ (FSWV1_CompensateTemperature s adc_T).2.t_fine ∧
    (FSWV1_CompensateTemperature s adc_T).2.t_fine ≤ 1179648 := by
  simp only [FSWV1_CompensateTemperature]
  have ha := wrap32_range
    (wrap32 (adc_T >>> (3 : Nat) - wrap32 (s.CalibData.dig_T1 * 2)) * s.CalibData.dig_T2)
  have hb := wrap32_range
    ((wrap32 (wrap32 (adc_T >>> (4 : Nat) - s.CalibData.dig_T1) *
      wrap32 (adc_T >>> (4 : Nat) - s.CalibData.dig_T1))) >>> (12 : Nat) * s.CalibData.dig_T3)
  generalize wrap32
    (wrap32 (adc_T >>> (3 : Nat) - wrap32 (s.CalibData.dig_T1 * 2)) * s.CalibData.dig_T2) = a at ha ⊢
  generalize wrap32 ((wrap32 (wrap32 (adc_T >>> (4 : Nat) - s.CalibData.dig_T1) *
    wrap32 (adc_T >>> (4 : Nat) - s.CalibData.dig_T1))) >>> (12 : Nat) * s.CalibData.dig_T3) = b at hb ⊢
  rw [shiftRight_eq_ediv a 11 2048 (by norm_num), shiftRight_eq_ediv b 14 16384 (by norm_num)]
  rw [wrap32_of_range (by omega) (by omega)]
  omega

/-- Division by a denominator of at least `D` shrinks an `int64` numerator below `M / D`. -/
theorem tdiv_bound (N den D M : Int) (hD : 0 < D) (hden : D ≤ den) (h1 : -M ≤ N) (h2 : N ≤ M) :
    -(M / D) ≤ Int.tdiv N den ∧ Int.tdiv N den ≤ M / D := by
  have hden0 : 0 < den := lt_of_lt_of_le hD hden
  rcases le_total 0 N with hN | hN
  · rw [Int.tdiv_eq_ediv hN (le_of_lt hden0)]
    have hq0 : 0 ≤ N / den := Int.ediv_nonneg hN (le_of_lt hden0)
    have hq1 : N / den * den ≤ N := Int.ediv_mul_le N (ne_of_gt hden0)
    have hq2 : N / den * D ≤ N / den * den := Int.mul_le_mul_of_nonneg_left hden hq0
    have hM : 0 ≤ M := le_trans hN h2
    have hq3 : N / den ≤ M / D := Int.le_ediv_of_mul_le hD (by linarith)
    have hMD : 0 ≤ M / D := Int.ediv_nonneg hM (le_of_lt hD)
    constructor <;> linarith
  · have hN' : 0 ≤ -N := by linarith
    have e : Int.tdiv N den = -Int.tdiv (-N) den := by
      rw [Int.neg_tdiv, neg_neg]
    rw [e, Int.tdiv_eq_ediv hN' (le_of_lt hden0)]
    have hq0 : 0 ≤ -N / den := Int.ediv_nonneg hN' (le_of_lt hden0)
    have hq1 : -N / den * den ≤ -N := Int.ediv_mul_le (-N) (ne_of_gt hden0)
    have hq2 : -N / den * D ≤ -N / den * den := Int.mul_le_mul_of_nonneg_left hden hq0
    have hM : 0 ≤ M := by linarith
    have hq3 : -N / den ≤ M / D := Int.le_ediv_of_mul_le hD (by linarith)
    have hMD : 0 ≤ M / D := Int.ediv_nonneg hM (le_of_lt hD)
    constructor <;> linarith


theorem sq_bound (v L : Int) (h1 : -L ≤ v) (h2 : v ≤ L) : 0 ≤ v * v ∧ v * v ≤ L * L := by
  constructor
  · exact mul_self_nonneg v
  · nlinarith

theorem inInt32_iff (x : Int) : inInt32 x ↔ -2147483648 ≤ x ∧ x < 2147483648 := by
  unfold inInt32
  norm_num

theorem inInt64_iff (x : Int) :
    inInt64 x ↔ -9223372036854775808 ≤ x ∧ x < 9223372036854775808 := by
  unfold inInt64
  norm_num

/-- With the datasheet's pressure constants the first half of the pressure formula stays
inside `int64` for every fine temperature that temperature compensation can produce. -/
theorem datasheet_fits_head (T : FSWV1_CalibData_t) (t : Int) (h1 : -1179648 ≤ t)
    (h2 : t ≤ 1179648) : pressureFitsHead (datasheetPressureCalib T) t := by
  obtain ⟨hw1, hw2⟩ := sq_bound (t - 128000) 1307648 (by omega) (by omega)
  unfold pressureFitsHead datasheetPressureCalib
  dsimp only
  simp only [inInt64_iff, shiftRight_eq_ediv _ 8 256 (by norm_num)]
  generalize (t - 128000) * (t - 128000) = w at hw1 hw2 ⊢
  norm_num
  omega


theorem datasheet_fits_tail (T : FSWV1_CalibData_t) (t adc_P : Int) (h1 : -1179648 ≤ t)
    (h2 : t ≤ 1179648) (h3 : 0 ≤ adc_P) (h4 : adc_P < 2 ^ 20) :
    pressureFitsTail (datasheetPressureCalib T) t adc_P := by
  obtain ⟨hw1, hw2⟩ := sq_bound (t - 128000) 1307648 (by omega) (by omega)
  unfold pressureFitsTail datasheetPressureCalib
  dsimp only
  simp only [inInt32_iff, inInt64_iff, shiftRight_eq_ediv _ 8 256 (by norm_num),
    shiftRight_eq_ediv _ 33 8589934592 (by norm_num), shiftRight_eq_ediv _ 13 8192 (by norm_num),
    shiftRight_eq_ediv _ 25 33554432 (by norm_num), shiftRight_eq_ediv _ 19 524288 (by norm_num)]
  generalize (t - 128000) * (t - 128000) = w at hw1 hw2 ⊢
  have hden : 400000000 ≤
      (2 ^ 47 + (w * 3024 / 256 + (t - 128000) * -10685 * 2 ^ 12)) * 36477 / 8589934592 := by
    omega
  have hN1 : -9223372036854775808 ≤
      ((1048576 - adc_P) * 2 ^ 31 - (w * -7 + (t - 128000) * 140 * 2 ^ 17 + 2855 * 2 ^ 35)) *
        3125 := by
    omega
  have hN2 : ((1048576 - adc_P) * 2 ^ 31 -
      (w * -7 + (t - 128000) * 140 * 2 ^ 17 + 2855 * 2 ^ 35)) * 3125 ≤ 9223372036854775808 := by
    omega
  obtain ⟨hp1, hp2⟩ := tdiv_bound _ _ 400000000 9223372036854775808 (by norm_num) hden hN1 hN2
  generalize (2 ^ 47 + (w * 3024 / 256 + (t - 128000) * -10685 * 2 ^ 12)) * 36477 /
    8589934592 = den at hden hp1 hp2 ⊢
  generalize (((1048576 - adc_P) * 2 ^ 31 -
    (w * -7 + (t - 128000) * 140 * 2 ^ 17 + 2855 * 2 ^ 35)) * 3125).tdiv den = p at hp1 hp2 ⊢
  norm_num at hp1 hp2
  obtain ⟨hq1, hq2⟩ := sq_bound (p / 8192) 2814750 (by omega) (by omega)
  simp only [mul_assoc (6000 : Int) (p / 8192) (p / 8192)]
  generalize p / 8192 * (p / 8192) = qq at hq1 hq2 ⊢
  refine ⟨?_, ?_, ?_, ?_, ?_, ?_, ?_, ?_, ?_, ?_, ?_, ?_⟩ <;> omega

/-- C4, as stated, fails: with the datasheet's temperature calibration, raw
`adc_T = 519888` (so `t_fine = 128422`), raw `adc_P = 415148` and the in-range pressure
constants `dig_P1 = 65535`, `dig_P2 = 32767`, the product `(2^47 + var1) * dig_P1` exceeds
`2^63 - 1`, and the 64-bit result differs from the formula over unbounded integers. -/
theorem C4_overflow_counterexample :
    ¬ ∀ (c : FSWV1_CalibData_t) (fd t0 adc_T adc_P : Int),
        calibInRange c → 0 ≤ adc_T → adc_T < 2 ^ 20 → 0 ≤ adc_P → adc_P < 2 ^ 20 →
        pressureFitsHead c (FSWV1_CompensateTemperature ⟨fd, c, t0⟩ adc_T).2.t_fine ∧
        FSWV1_CompensatePressure (FSWV1_CompensateTemperature ⟨fd, c, t0⟩ adc_T).2 adc_P =
          pressureUnbounded c (FSWV1_CompensateTemperature ⟨fd, c, t0⟩ adc_T).2.t_fine adc_P := by
  intro h
  have h' := (h { datasheetCalib with dig_P1 := 65535, dig_P2 := 32767 } 3 0 519888 415148
    (by decide) (by decide) (by decide) (by decide) (by decide)).2
  revert h'
  decide

/-- C4, amended: whenever every intermediate value of the pressure formula, evaluated over
unbounded integers, lies in the signed 64-bit range (those after the zero test only when
the denominator is not 0), `FSWV1_CompensatePressure` returns the value of the same formula
over unbounded integers; and these intermediate values do lie in range for every 20-bit
`adc_P` and every fine temperature that temperature compensation produces, whatever the
raw temperature count and the temperature constants, when the nine pressure constants
are those of the datasheet's example. -/
theorem C4_no_overflow_when_intermediates_fit :
    (∀ (fd : Int) (c : FSWV1_CalibData_t) (t adc_P : Int),
      pressureFitsHead c t →
      (pressureDenominatorUnbounded c t ≠ 0 → pressureFitsTail c t adc_P) →
      FSWV1_CompensatePressure ⟨fd, c, t⟩ adc_P = pressureUnbounded c t adc_P) ∧
    (∀ (fd t0 : Int) (T : FSWV1_CalibData_t) (adc_T adc_P : Int),
      0 ≤ adc_P → adc_P < 2 ^ 20 →
      pressureFitsHead (datasheetPressureCalib T)
        (FSWV1_CompensateTemperature ⟨fd, datasheetPressureCalib T, t0⟩ adc_T).2.t_fine ∧
      pressureFitsTail (datasheetPressureCalib T)
        (FSWV1_CompensateTemperature ⟨fd, datasheetPressureCalib T, t0⟩ adc_T).2.t_fine adc_P ∧
      FSWV1_CompensatePressure
          (FSWV1_CompensateTemperature ⟨fd, datasheetPressureCalib T, t0⟩ adc_T).2 adc_P =
        pressureUnbounded (datasheetPressureCalib T)
          (FSWV1_CompensateTemperature ⟨fd, datasheetPressureCalib T, t0⟩ adc_T).2.t_fine
          adc_P) := by
  refine ⟨pressure_no_overflow, ?_⟩
  intro fd t0 T adc_T adc_P h0 h1
  obtain ⟨ht1, ht2⟩ := t_fine_range ⟨fd, datasheetPressureCalib T, t0⟩ adc_T
  have hh := datasheet_fits_head T _ ht1 ht2
  have ht := datasheet_fits_tail T _ adc_P ht1 ht2 h0 h1
  exact ⟨hh, ht, pressure_no_overflow fd _ _ adc_P hh (fun _ => ht)⟩

/-- Witness for C4: the datasheet's example fits and is computed without wrap-around. -/
theorem C4_no_overflow_when_intermediates_fit_witness :
    FSWV1_CompensatePressure ⟨3, datasheetCalib, 128422⟩ 415148 =
      pressureUnbounded datasheetCalib 128422 415148 ∧
    pressureFitsTail (datasheetPressureCalib datasheetCalib)
      (FSWV1_CompensateTemperature ⟨3, datasheetPressureCalib datasheetCalib, 0⟩ 519888).2.t_fine
      415148 :=
  ⟨C4_no_overflow_when_intermediates_fit.1 3 datasheetCalib 128422 415148 (by decide)
      (fun _ => by decide),
    (C4_no_overflow_when_intermediates_fit.2 3 0 datasheetCalib 519888 415148 (by decide)
      (by decide)).2.1⟩
/-! ## Properties of the frame decoder -/

theorem take_succ_set {α : Type} (l : List α) (k : Nat) (a : α) (h : k < l.length) :
    (l.set k a).take (k + 1) = l.take k ++ [a] := by
  induction l generalizing k with
  | nil => simp at h
  | cons x xs ih =>
    cases k with
    | zero => simp
    | succ k =>
      simp only [List.length_cons, Nat.add_lt_add_iff_right] at h
      simp [ih k h]

theorem drop_succ_set {α : Type} (l : List α) (k m : Nat) (a : α) (h : k < m) :
    (l.set k a).drop m = l.drop m := by
  induction l generalizing k m with
  | nil => simp
  | cons x xs ih =>
    cases m with
    | zero => omega
    | succ m =>
      cases k with
      | zero => simp
      | succ k => simp [ih k m (by omega)]

theorem cString_append_nul (xs ys : List Char) : cString (xs ++ NUL :: ys) = cString xs := by
  induction xs with
  | nil => simp [cString, List.takeWhile]
  | cons x xs ih =>
    unfold cString at ih ⊢
    simp only [List.cons_append, List.takeWhile_cons]
    split
    · rw [ih]
    · rfl

theorem readLoop_accumulate (now : Nat) (endRc : Int) (body rest : List Char) (s : UartState)
    (d : FSWV1_IMUData_t) (hb : noMarker body) (hpos : 0 < s.buffer_pos)
    (hfit : s.buffer_pos + body.length ≤ 255) (hlen : s.uart_buffer.length = 256) :
    readLoop now endRc (body ++ rest) s d =
      readLoop now endRc rest
        { s with
          uart_buffer := s.uart_buffer.take s.buffer_pos ++ body ++
            s.uart_buffer.drop (s.buffer_pos + body.length)
          buffer_pos := s.buffer_pos + body.length } d := by
  induction body generalizing s with
  | nil => simp
  | cons c body ih =>
    have hc := hb c (List.mem_cons_self _ _)
    have hb' : noMarker body := fun x hx => hb x (List.mem_cons_of_mem _ hx)
    simp only [List.length_cons] at hfit
    have hlt : s.buffer_pos < 255 := by omega
    have hlt2 : s.buffer_pos < s.uart_buffer.length := by omega
    rw [List.cons_append, readLoop]
    simp only [hc.1, hc.2, if_false, hpos, UART_BUFFER_SIZE, hlt, and_self, if_true,
      Nat.reduceSub]
    rw [ih _ hb' (by simp) (by simp; omega) (by simp [hlen])]
    simp only [take_succ_set _ _ _ hlt2, drop_succ_set _ _ _ _ (show s.buffer_pos <
      s.buffer_pos + 1 + body.length by omega), List.length_cons, List.append_assoc,
      List.singleton_append]
    rw [show s.buffer_pos + 1 + body.length = s.buffer_pos + (body.length + 1) by omega]

theorem readLoop_skip (now : Nat) (endRc : Int) (body rest : List Char) (s : UartState)
    (d : FSWV1_IMUData_t) (hb : noMarker body) (hpos : s.buffer_pos = 0) :
    readLoop now endRc (body ++ rest) s d = readLoop now endRc rest s d := by
  induction body with
  | nil => simp
  | cons c body ih =>
    have hc := hb c (List.mem_cons_self _ _)
    have hb' : noMarker body := fun x hx => hb x (List.mem_cons_of_mem _ hx)
    rw [List.cons_append, readLoop]
    simp only [hc.1, hc.2, if_false, hpos, UART_BUFFER_SIZE, lt_self_iff_false, false_and,
      Nat.reduceSub, ge_iff_le, Nat.le_zero_eq, OfNat.ofNat_ne_zero]
    exact ih hb'


theorem set_set_succ {α : Type} (l : List α) (n : Nat) (a b : α) (h : n + 1 < l.length) :
    (l.set n a).set (n + 1) b = l.take n ++ a :: b :: l.drop (n + 2) := by
  induction l generalizing n with
  | nil => simp at h
  | cons x xs ih =>
    cases n with
    | zero =>
      cases xs with
      | nil => simp at h
      | cons y ys => simp
    | succ n =>
      simp only [List.length_cons, Nat.add_lt_add_iff_right] at h
      simp [ih n h]

theorem frame_buffer (buf body : List Char) (hfit : body.length ≤ 253)
    (hlen : buf.length = 256) :
    (((buf.set 0 '$').take 1 ++ body ++ (buf.set 0 '$').drop (1 + body.length)).set
        (1 + body.length) '#').set (1 + body.length + 1) NUL =
      '$' :: (body ++ '#' :: NUL :: buf.drop (body.length + 3)) := by
  have h0 : (buf.set 0 '$').take 1 = ['$'] := by
    have := take_succ_set buf 0 '$' (by omega)
    simpa using this
  have h1 : (buf.set 0 '$').drop (1 + body.length) = buf.drop (1 + body.length) :=
    drop_succ_set _ _ _ _ (by omega)
  rw [h0, h1, set_set_succ _ _ _ _ (by simp; omega)]
  have e1 : (['$'] ++ body ++ List.drop (1 + body.length) buf).take (1 + body.length) =
      '$' :: body := by
    have : (['$'] ++ body).length = 1 + body.length := by simp; omega
    rw [← this, List.take_left]
    rfl
  have e2 : (['$'] ++ body ++ List.drop (1 + body.length) buf).drop (1 + body.length + 2) =
      buf.drop (body.length + 3) := by
    have : (['$'] ++ body).length = 1 + body.length := by simp; omega
    rw [← this, List.drop_append, List.drop_drop]
    congr 1
  rw [e1, e2]
  simp

theorem readLoop_frame (now : Nat) (endRc : Int) (body rest : List Char) (s : UartState)
    (d : FSWV1_IMUData_t) (hb : noMarker body) (hfit : body.length ≤ 253)
    (hlen : s.uart_buffer.length = 256) :
    readLoop now endRc ('$' :: (body ++ '#' :: rest)) s d =
      if (ParseIMUData (cString ('$' :: (body ++ ['#']))) d now).1 = Status.CFE_SUCCESS then
        ⟨Status.CFE_SUCCESS, some (ParseIMUData (cString ('$' :: (body ++ ['#']))) d now).2,
          { s with
            uart_buffer := '$' :: (body ++ '#' :: NUL :: s.uart_buffer.drop (body.length + 3))
            buffer_pos := 0 }, rest, []⟩
      else
        readLoop now endRc rest
          { s with
            uart_buffer := '$' :: (body ++ '#' :: NUL :: s.uart_buffer.drop (body.length + 3))
            buffer_pos := 0 } (ParseIMUData (cString ('$' :: (body ++ ['#']))) d now).2 := by
  have hcs : cString ('$' :: (body ++ '#' :: NUL :: s.uart_buffer.drop (body.length + 3))) =
      cString ('$' :: (body ++ ['#'])) := by
    have := cString_append_nul ('$' :: (body ++ ['#'])) (s.uart_buffer.drop (body.length + 3))
    simpa using this
  rw [readLoop]
  simp only [if_true]
  rw [readLoop_accumulate now endRc body ('#' :: rest) _ d hb (by simp) (by simp; omega)
    (by simp [hlen])]
  rw [readLoop]
  have hne : ¬ ('#' = '$') := by decide
  simp only [hne, if_false, if_true, UART_BUFFER_SIZE, Nat.reduceSub]
  have hcond : 0 < 1 + body.length ∧ 1 + body.length < 255 := by omega
  simp only [hcond, and_self, if_true]
  rw [frame_buffer _ _ hfit hlen, hcs]
  generalize ParseIMUData (cString ('$' :: (body ++ ['#']))) d now = r
  obtain ⟨st, d1⟩ := r
  cases st <;> simp

theorem sscanf_reference_raw :
    sscanf (cString ('$' :: (",1.0,-2.5,9.8,0.1,-0.2,0.0,25.5,".toList ++ ['#'])))
      "$,%f,%f,%f,%f,%f,%f,%f,#" =
      (7, [FloatVal.finite (scaled false 10 10 (-1)), FloatVal.finite (scaled true 25 10 (-1)),
        FloatVal.finite (scaled false 98 10 (-1)), FloatVal.finite (scaled false 1 10 (-1)),
        FloatVal.finite (scaled true 2 10 (-1)), FloatVal.finite (scaled false 0 10 (-1)),
        FloatVal.finite (scaled false 255 10 (-1))]) := by
  rfl

theorem scaled_neg_one (neg : Bool) (m : Nat) :
    scaled neg m 10 (-1) = (if neg then -((m : ℚ) / 10) else (m : ℚ) / 10) := by
  unfold scaled
  have h : ¬ (0 : Int) ≤ -1 := by decide
  simp only [h, if_false]
  rw [Rat.mkRat_eq_div]
  norm_num

theorem parse_reference (d : FSWV1_IMUData_t) (now : Nat) :
    ParseIMUData (cString ('$' :: (",1.0,-2.5,9.8,0.1,-0.2,0.0,25.5,".toList ++ ['#']))) d now =
      (Status.CFE_SUCCESS,
        ⟨FloatVal.finite 1.0, FloatVal.finite (-2.5), FloatVal.finite 9.8, FloatVal.finite 0.1,
          FloatVal.finite (-0.2), FloatVal.finite 0.0, FloatVal.finite 25.5, now⟩) := by
  unfold ParseIMUData
  rw [sscanf_reference_raw]
  simp only [scaled_neg_one, storeFields, storeField]
  norm_num

theorem readUART_ready (s : UartState) (d : FSWV1_IMUData_t) (input : List Char) (endRc : Int)
    (now : Nat) (hinit : s.UART_Initialized = true) (hfd : 0 ≤ s.uart_fd) :
    FSWV1_ReadUART s (some d) input endRc now = readLoop now endRc input s d := by
  have h : ¬ (¬ s.UART_Initialized = true ∨ s.uart_fd < 0) := by
    rw [hinit]
    simp only [not_true_eq_false, false_or, not_lt]
    exact hfd
  simp only [FSWV1_ReadUART, h, if_false]

/-- C8: on an initialised decoder whatever its state, an idle one in particular, feeding
exactly the bytes `$,1.0,-2.5,9.8,0.1,-0.2,0.0,25.5,#` makes `FSWV1_ReadUART` return
`CFE_SUCCESS` with Accel = (1.0, -2.5, 9.8), Gyro = (0.1, -0.2, 0.0), Temperature = 25.5 and
the current time as timestamp; no byte is left unread, no event is raised, and the
decoder is idle afterwards (`buffer_pos = 0`), the buffer holding the frame and its
terminating zero. -/
theorem C8_reference_frame_decoded (s : UartState) (d : FSWV1_IMUData_t) (endRc : Int)
    (now : Nat) (hinit : s.UART_Initialized = true) (hfd : 0 ≤ s.uart_fd)
    (hlen : s.uart_buffer.length = UART_BUFFER_SIZE) :
    FSWV1_ReadUART s (some d) "$,1.0,-2.5,9.8,0.1,-0.2,0.0,25.5,#".toList endRc now =
      { status := Status.CFE_SUCCESS
        data := some
          { Accel_X := FloatVal.finite 1.0, Accel_Y := FloatVal.finite (-2.5),
            Accel_Z := FloatVal.finite 9.8, Gyro_X := FloatVal.finite 0.1,
            Gyro_Y := FloatVal.finite (-0.2), Gyro_Z := FloatVal.finite 0.0,
            Temperature := FloatVal.finite 25.5, Timestamp := now }
        state :=
          { s with
            uart_buffer := "$,1.0,-2.5,9.8,0.1,-0.2,0.0,25.5,#".toList ++
              NUL :: s.uart_buffer.drop 35
            buffer_pos := 0 }
        unread := []
        events := [] } := by
  have hframe : "$,1.0,-2.5,9.8,0.1,-0.2,0.0,25.5,#".toList =
      '$' :: (",1.0,-2.5,9.8,0.1,-0.2,0.0,25.5,".toList ++ '#' :: []) := by decide
  have hb : noMarker ",1.0,-2.5,9.8,0.1,-0.2,0.0,25.5,".toList := by
    unfold noMarker
    decide
  rw [readUART_ready s d _ endRc now hinit hfd, hframe,
    readLoop_frame now endRc _ [] s d hb (by decide) hlen, parse_reference]
  simp

/-- Witness for C8: the decoder right after initialisation. -/
theorem C8_reference_frame_decoded_witness :
    (FSWV1_ReadUART uartStart (some imuZero) "$,1.0,-2.5,9.8,0.1,-0.2,0.0,25.5,#".toList 0
      100).status = Status.CFE_SUCCESS :=
  congrArg ReadUARTResult.status
    (C8_reference_frame_decoded uartStart imuZero 0 100 rfl (by decide)
      (List.length_replicate _ _))

/-- C9, failing inputs: a frame with eight fields, and a frame whose seventh field is
followed by `#` instead of `,#`, are both turned into a sample: `sscanf` reports the seven
conversions it made, and whether the rest of the format matched is never looked at. -/
theorem C9_surplus_field_accepted :
    (FSWV1_ReadUART uartStart (some imuZero) "$,1,2,3,4,5,6,7,8,#".toList 0 100).status =
      Status.CFE_SUCCESS ∧
    (FSWV1_ReadUART uartStart (some imuZero) "$,1,2,3,4,5,6,7,8,#".toList 0 100).data =
      some ⟨FloatVal.finite 1, FloatVal.finite 2, FloatVal.finite 3, FloatVal.finite 4,
        FloatVal.finite 5, FloatVal.finite 6, FloatVal.finite 7, 100⟩ ∧
    (FSWV1_ReadUART uartStart (some imuZero) "$,1,2,3,4,5,6,7#".toList 0 100).status =
      Status.CFE_SUCCESS ∧
    (FSWV1_ReadUART uartStart (some imuZero) "$,1,2,3,4,5,6,7#".toList 0 100).data =
      some ⟨FloatVal.finite 1, FloatVal.finite 2, FloatVal.finite 3, FloatVal.finite 4,
        FloatVal.finite 5, FloatVal.finite 6, FloatVal.finite 7, 100⟩ := by
  refine ⟨?_, ?_, ?_, ?_⟩
  · rfl
  · rfl
  · rfl
  · rfl

theorem readLoop_nil (now : Nat) (endRc : Int) (s : UartState) (d : FSWV1_IMUData_t) :
    readLoop now endRc [] s d = ⟨Status.OS_ERROR, some d, s, [], []⟩ := by
  rw [readLoop]

theorem readLoop_end_marker_reset (now : Nat) (endRc : Int) (rest : List Char) (s : UartState)
    (d : FSWV1_IMUData_t) (h : s.buffer_pos = 0 ∨ 255 ≤ s.buffer_pos) :
    readLoop now endRc ('#' :: rest) s d = readLoop now endRc rest { s with buffer_pos := 0 } d := by
  have hne : ¬ ('#' = '$') := by decide
  have hc : ¬ (0 < s.buffer_pos ∧ s.buffer_pos < 255) := by omega
  rw [readLoop]
  simp only [hne, if_false, if_true, UART_BUFFER_SIZE, Nat.reduceSub, hc]

theorem readLoop_overflow (now : Nat) (endRc : Int) (c : Char) (rest : List Char) (s : UartState)
    (d : FSWV1_IMUData_t) (hc : c ≠ '$' ∧ c ≠ '#') (h : 255 ≤ s.buffer_pos) :
    readLoop now endRc (c :: rest) s d = readLoop now endRc rest { s with buffer_pos := 0 } d := by
  have hcond : ¬ (0 < s.buffer_pos ∧ s.buffer_pos < 255) := by omega
  rw [readLoop]
  simp only [hc.1, hc.2, if_false, UART_BUFFER_SIZE, Nat.reduceSub, hcond, ge_iff_le, h, if_true]

/-- A frame body too long for the buffer leaves the decoder with `buffer_pos` 0 or 255. -/
theorem readLoop_long_body (now : Nat) (endRc : Int) (body rest : List Char) (s : UartState)
    (d : FSWV1_IMUData_t) (hb : noMarker body) (hpos : 0 < s.buffer_pos)
    (hpos2 : s.buffer_pos ≤ 255)
    (hlong : 255 ≤ s.buffer_pos + body.length) (hlen : s.uart_buffer.length = 256) :
    ∃ s1 : UartState, (s1.buffer_pos = 0 ∨ 255 ≤ s1.buffer_pos) ∧
      readLoop now endRc (body ++ rest) s d = readLoop now endRc rest s1 d := by
  have hsplit : body = body.take (255 - s.buffer_pos) ++ body.drop (255 - s.buffer_pos) :=
    (List.take_append_drop _ _).symm
  have hb1 : noMarker (body.take (255 - s.buffer_pos)) :=
    fun x hx => hb x (List.mem_of_mem_take hx)
  have hb2 : noMarker (body.drop (255 - s.buffer_pos)) :=
    fun x hx => hb x (List.mem_of_mem_drop hx)
  have hl1 : (body.take (255 - s.buffer_pos)).length = 255 - s.buffer_pos := by
    rw [List.length_take]
    omega
  rw [hsplit, List.append_assoc,
    readLoop_accumulate now endRc _ _ s d hb1 hpos (by rw [hl1]; omega) hlen]
  cases hr : body.drop (255 - s.buffer_pos) with
  | nil =>
    refine ⟨_, ?_, rfl⟩
    right
    simp only [hl1]
    omega
  | cons c r =>
    rw [hr] at hb2
    have hc := hb2 c (List.mem_cons_self _ _)
    have hr2 : noMarker r := fun x hx => hb2 x (List.mem_cons_of_mem _ hx)
    rw [List.cons_append, readLoop_overflow now endRc c _ _ d hc (by simp only [hl1]; omega),
      readLoop_skip now endRc r rest _ d hr2 rfl]
    exact ⟨_, Or.inl rfl, rfl⟩

theorem parse_short (d : FSWV1_IMUData_t) (now : Nat) :
    ParseIMUData (cString ('$' :: (",1.0,2.0,".toList ++ ['#']))) d now =
      (Status.CFE_STATUS_EXTERNAL_RESOURCE_FAIL,
        { d with Accel_X := FloatVal.finite 1.0, Accel_Y := FloatVal.finite 2.0 }) := by
  have h : sscanf (cString ('$' :: (",1.0,2.0,".toList ++ ['#']))) "$,%f,%f,%f,%f,%f,%f,%f,#" =
      (2, [FloatVal.finite (scaled false 10 10 (-1)), FloatVal.finite (scaled false 20 10 (-1))]) := by
    rfl
  unfold ParseIMUData
  rw [h]
  simp only [scaled_neg_one, storeFields, storeField]
  norm_num

theorem parse_fail_of_count (str : List Char) (d : FSWV1_IMUData_t) (now : Nat)
    (h : (sscanf str "$,%f,%f,%f,%f,%f,%f,%f,#").1 ≠ 7) :
    (ParseIMUData str d now).1 ≠ Status.CFE_SUCCESS := by
  unfold ParseIMUData
  simp only [h, ne_eq, not_false_eq_true, if_true]
  decide

/-- C10: on an initialised decoder, feeding exactly `$,1.0,2.0,#` makes `FSWV1_ReadUART`
return `OS_ERROR` (the not-ready result) with no event raised and `buffer_pos = 0`
afterwards; the same holds for every frame `$ body #` whose body holds no `$` or `#` and
in which `sscanf` converts fewer than 7 fields.  The two fields converted before the
failure have been stored in the caller's structure. -/
theorem C10_short_frame_not_ready (s : UartState) (d : FSWV1_IMUData_t) (endRc : Int)
    (now : Nat) (hinit : s.UART_Initialized = true) (hfd : 0 ≤ s.uart_fd)
    (hlen : s.uart_buffer.length = UART_BUFFER_SIZE) :
    FSWV1_ReadUART s (some d) "$,1.0,2.0,#".toList endRc now =
      { status := Status.OS_ERROR
        data := some { d with Accel_X := FloatVal.finite 1.0, Accel_Y := FloatVal.finite 2.0 }
        state :=
          { s with
            uart_buffer := "$,1.0,2.0,#".toList ++ NUL :: s.uart_buffer.drop 12
            buffer_pos := 0 }
        unread := []
        events := [] } ∧
    ∀ body : List Char, noMarker body →
      (sscanf (cString ('$' :: (body ++ ['#']))) "$,%f,%f,%f,%f,%f,%f,%f,#").1 < 7 →
      (FSWV1_ReadUART s (some d) ('$' :: (body ++ ['#'])) endRc now).status = Status.OS_ERROR ∧
      (FSWV1_ReadUART s (some d) ('$' :: (body ++ ['#'])) endRc now).state.buffer_pos = 0 ∧
      (FSWV1_ReadUART s (some d) ('$' :: (body ++ ['#'])) endRc now).events = [] ∧
      (FSWV1_ReadUART s (some d) ('$' :: (body ++ ['#'])) endRc now).unread = [] := by
  constructor
  · have hframe : "$,1.0,2.0,#".toList = '$' :: (",1.0,2.0,".toList ++ '#' :: []) := by decide
    have hb : noMarker ",1.0,2.0,".toList := by
      unfold noMarker
      decide
    rw [readUART_ready s d _ endRc now hinit hfd, hframe,
      readLoop_frame now endRc _ [] s d hb (by decide) hlen, parse_short]
    simp [readLoop_nil]
  · intro body hb hcount
    rw [readUART_ready s d _ endRc now hinit hfd]
    by_cases hfit : body.length ≤ 253
    · have hfail := parse_fail_of_count (cString ('$' :: (body ++ ['#']))) d now (by omega)
      rw [readLoop_frame now endRc body [] s d hb hfit hlen, if_neg hfail, readLoop_nil]
      exact ⟨rfl, rfl, rfl, rfl⟩
    · rw [readLoop]
      simp only [if_true]
      obtain ⟨s1, hs1, heq⟩ := readLoop_long_body now endRc body ['#']
        { s with uart_buffer := s.uart_buffer.set 0 '$', buffer_pos := 1 } d hb (by simp)
        (by simp) (by simp; omega) (by simp [hlen, UART_BUFFER_SIZE])
      rw [heq, readLoop_end_marker_reset now endRc [] s1 d hs1, readLoop_nil]
      exact ⟨rfl, rfl, rfl, rfl⟩

/-- Witness for C10: the general statement applied to the frame `$,1.0,2.0,#`. -/
theorem C10_short_frame_not_ready_witness :
    (FSWV1_ReadUART uartStart (some imuZero) ('$' :: (",1.0,2.0,".toList ++ ['#'])) 0
      100).status = Status.OS_ERROR :=
  ((C10_short_frame_not_ready uartStart imuZero 0 100 rfl (by decide)
      (List.length_replicate _ _)).2
    ",1.0,2.0,".toList (by unfold noMarker; decide) (by decide)).1

/-! ## Invariants of the frame decoder -/

/-- The instrumented loop computes what `readLoop` computes. -/
theorem readLoopLog_fst (now : Nat) (endRc : Int) (input : List Char) (s : UartState)
    (d : FSWV1_IMUData_t) : (readLoopLog now endRc input s d).1 = readLoop now endRc input s d := by
  induction input generalizing s d with
  | nil => rw [readLoopLog, readLoop]
  | cons byte rest ih =>
    rw [readLoopLog, readLoop]
    split_ifs
    · rw [← ih]
    · dsimp only
      generalize ParseIMUData (cString ((s.uart_buffer.set s.buffer_pos byte).set
        (s.buffer_pos + 1) NUL)) d now = p
      obtain ⟨st, d1⟩ := p
      cases st <;> simp only [← ih]
    · exact ih _ _
    · rw [← ih]
    · exact ih _ _
    · exact ih _ _

/-- The loop never changes the initialisation flag, the descriptor or the size of the
buffer, and it keeps `buffer_pos` at or below 255. -/
theorem readLoop_invariant (now : Nat) (endRc : Int) (input : List Char) (s : UartState)
    (d : FSWV1_IMUData_t) :
    (readLoop now endRc input s d).state.UART_Initialized = s.UART_Initialized ∧
    (readLoop now endRc input s d).state.uart_fd = s.uart_fd ∧
    (readLoop now endRc input s d).state.uart_buffer.length = s.uart_buffer.length ∧
    (s.buffer_pos ≤ 255 → (readLoop now endRc input s d).state.buffer_pos ≤ 255) := by
  induction input generalizing s d with
  | nil => rw [readLoop]; exact ⟨rfl, rfl, rfl, fun h => h⟩
  | cons byte rest ih =>
    rw [readLoop]
    split_ifs with h1 h2 h3 h4 h5
    · obtain ⟨a, b, c, e⟩ := ih ⟨s.UART_Initialized, s.uart_fd, s.uart_buffer.set 0 byte, 1⟩ d
      refine ⟨a, b, ?_, fun _ => e (by simp)⟩
      rw [c]; simp
    · dsimp only
      generalize ParseIMUData (cString ((s.uart_buffer.set s.buffer_pos byte).set
        (s.buffer_pos + 1) NUL)) d now = p
      obtain ⟨st, d1⟩ := p
      obtain ⟨a, b, c, e⟩ := ih ⟨s.UART_Initialized, s.uart_fd,
        (s.uart_buffer.set s.buffer_pos byte).set (s.buffer_pos + 1) NUL, 0⟩ d1
      cases st
      · simp
      all_goals
        refine ⟨a, b, ?_, fun _ => e (by simp)⟩
        rw [c]; simp
    · obtain ⟨a, b, c, e⟩ := ih ⟨s.UART_Initialized, s.uart_fd, s.uart_buffer, 0⟩ d
      exact ⟨a, b, c, fun _ => e (by simp)⟩
    · obtain ⟨a, b, c, e⟩ := ih ⟨s.UART_Initialized, s.uart_fd,
        s.uart_buffer.set s.buffer_pos byte, s.buffer_pos + 1⟩ d
      refine ⟨a, b, ?_, fun _ => e ?_⟩
      · rw [c]; simp
      · simp only [UART_BUFFER_SIZE] at h4
        simp only
        omega
    · obtain ⟨a, b, c, e⟩ := ih ⟨s.UART_Initialized, s.uart_fd, s.uart_buffer, 0⟩ d
      exact ⟨a, b, c, fun _ => e (by simp)⟩
    · exact ih s d

/-- Every store of the loop hits an index below 256. -/
theorem readLoopLog_store_bound (now : Nat) (endRc : Int) (input : List Char) (s : UartState)
    (d : FSWV1_IMUData_t) (i : Nat) (c : Char)
    (h : BufferAccess.store i c ∈ (readLoopLog now endRc input s d).2) : i < 256 := by
  induction input generalizing s d with
  | nil => rw [readLoopLog] at h; simp at h
  | cons byte rest ih =>
    rw [readLoopLog] at h
    split_ifs at h with h1 h2 h3 h4 h5
    · simp only [List.mem_cons, BufferAccess.store.injEq] at h
      rcases h with h | h
      · omega
      · exact ih _ _ h
    · dsimp only at h
      simp only [UART_BUFFER_SIZE] at h3
      generalize ParseIMUData (cString ((s.uart_buffer.set s.buffer_pos byte).set
        (s.buffer_pos + 1) NUL)) d now = p at h
      obtain ⟨st, d1⟩ := p
      have hhere : ∀ x, x ∈ [BufferAccess.store s.buffer_pos byte,
          BufferAccess.store (s.buffer_pos + 1) NUL,
          BufferAccess.parse (cString ((s.uart_buffer.set s.buffer_pos byte).set
            (s.buffer_pos + 1) NUL))] → x = BufferAccess.store i c → i < 256 := by
        intro x hx hxe
        subst hxe
        simp only [List.mem_cons, BufferAccess.store.injEq, List.mem_singleton,
          List.not_mem_nil, or_false] at hx
        rcases hx with hx | hx | hx
        · omega
        · omega
        · cases hx
      cases st
      · exact hhere _ h rfl
      all_goals
        simp only [List.mem_append] at h
        rcases h with h | h
        · exact hhere _ h rfl
        · exact ih _ _ h
    · exact ih _ _ h
    · simp only [List.mem_cons, BufferAccess.store.injEq] at h
      simp only [UART_BUFFER_SIZE] at h4
      rcases h with h | h
      · omega
      · exact ih _ _ h
    · exact ih _ _ h
    · exact ih _ _ h

/-- Unfolding of `FSWV1_ReadUART`: each call either returns at once, leaving the state as
it is, or runs the loop. -/
theorem readUART_state_cases (s : UartState) (data : Option FSWV1_IMUData_t)
    (input : List Char) (endRc : Int) (now : Nat) :
    (FSWV1_ReadUART s data input endRc now).state = s ∨
    ∃ d, (FSWV1_ReadUART s data input endRc now).state = (readLoop now endRc input s d).state := by
  unfold FSWV1_ReadUART
  split_ifs
  · exact Or.inl rfl
  · cases data with
    | none => exact Or.inl rfl
    | some d => exact Or.inr ⟨d, rfl⟩

/-- Every reachable decoder state is initialised, has an open descriptor, a buffer of
256 characters and `buffer_pos` at most 255. -/
theorem reachable_valid (s : UartState) (h : Reachable s) :
    s.UART_Initialized = true ∧ 0 ≤ s.uart_fd ∧ s.uart_buffer.length = 256 ∧
    s.buffer_pos ≤ 255 := by
  induction h with
  | init s h1 h2 h3 h4 => exact ⟨h1, h2, h3, by omega⟩
  | read s data input endRc now _ ih =>
    rcases readUART_state_cases s data input endRc now with h | ⟨d, h⟩
    · rw [h]; exact ih
    · obtain ⟨a, b, c, e⟩ := readLoop_invariant now endRc input s d
      rw [h, a, b, c]
      exact ⟨ih.1, ih.2.1, ih.2.2.1, e ih.2.2.2⟩

theorem readLoop_endRc (now : Nat) (e1 e2 : Int) (input : List Char) (s : UartState)
    (d : FSWV1_IMUData_t) : readLoop now e1 input s d = readLoop now e2 input s d := by
  induction input generalizing s d with
  | nil => rw [readLoop, readLoop]
  | cons byte rest ih =>
    rw [readLoop, readLoop]
    simp only [ih]

/-- The loop returns `CFE_SUCCESS` or `OS_ERROR`, nothing else. -/
theorem readLoop_status (now : Nat) (endRc : Int) (input : List Char) (s : UartState)
    (d : FSWV1_IMUData_t) :
    (readLoop now endRc input s d).status = Status.CFE_SUCCESS ∨
    (readLoop now endRc input s d).status = Status.OS_ERROR := by
  induction input generalizing s d with
  | nil => rw [readLoop]; exact Or.inr rfl
  | cons byte rest ih =>
    rw [readLoop]
    split_ifs
    · exact ih _ _
    · dsimp only
      generalize ParseIMUData (cString ((s.uart_buffer.set s.buffer_pos byte).set
        (s.buffer_pos + 1) NUL)) d now = p
      obtain ⟨st, d1⟩ := p
      cases st
      · exact Or.inl rfl
      all_goals exact ih _ _
    · exact ih _ _
    · exact ih _ _
    · exact ih _ _
    · exact ih _ _

/-- The loop raises no event. -/
theorem readLoop_events (now : Nat) (endRc : Int) (input : List Char) (s : UartState)
    (d : FSWV1_IMUData_t) : (readLoop now endRc input s d).events = [] := by
  induction input generalizing s d with
  | nil => rw [readLoop]
  | cons byte rest ih =>
    rw [readLoop]
    split_ifs
    · exact ih _ _
    · dsimp only
      generalize ParseIMUData (cString ((s.uart_buffer.set s.buffer_pos byte).set
        (s.buffer_pos + 1) NUL)) d now = p
      obtain ⟨st, d1⟩ := p
      cases st
      · rfl
      all_goals exact ih _ _
    · exact ih _ _
    · exact ih _ _
    · exact ih _ _
    · exact ih _ _

/-- `ParseIMUData` succeeds exactly on the strings in which `sscanf` converts 7 fields. -/
theorem parse_success_iff (str : List Char) (d : FSWV1_IMUData_t) (now : Nat) :
    (ParseIMUData str d now).1 = Status.CFE_SUCCESS ↔ frameAccepted str := by
  unfold ParseIMUData frameAccepted
  by_cases h : (sscanf str "$,%f,%f,%f,%f,%f,%f,%f,#").1 = 7
  · simp [h]
  · simp [h]

/-- What the loop leaves unread: nothing when it returns `OS_ERROR`; when it returns
`CFE_SUCCESS`, what followed the `#` at which it returned. -/
theorem readLoop_unread (now : Nat) (endRc : Int) (input : List Char) (s : UartState)
    (d : FSWV1_IMUData_t) :
    ((readLoop now endRc input s d).status = Status.OS_ERROR →
      (readLoop now endRc input s d).unread = []) ∧
    ((readLoop now endRc input s d).status = Status.CFE_SUCCESS →
      ∃ pre, input = pre ++ '#' :: (readLoop now endRc input s d).unread) := by
  induction input generalizing s d with
  | nil => rw [readLoop]; exact ⟨fun _ => rfl, fun h => (by cases h)⟩
  | cons byte rest ih =>
    have step : ∀ s1 d1, readLoop now endRc (byte :: rest) s d = readLoop now endRc rest s1 d1 →
        ((readLoop now endRc (byte :: rest) s d).status = Status.OS_ERROR →
          (readLoop now endRc (byte :: rest) s d).unread = []) ∧
        ((readLoop now endRc (byte :: rest) s d).status = Status.CFE_SUCCESS →
          ∃ pre, byte :: rest = pre ++ '#' :: (readLoop now endRc (byte :: rest) s d).unread) := by
      intro s1 d1 e
      rw [e]
      refine ⟨(ih s1 d1).1, fun h => ?_⟩
      obtain ⟨pre, hpre⟩ := (ih s1 d1).2 h
      exact ⟨byte :: pre, by rw [List.cons_append, ← hpre]⟩
    by_cases h1 : byte = '$'
    · exact step _ _ (by rw [readLoop, if_pos h1])
    · by_cases h2 : byte = '#'
      · by_cases h3 : 0 < s.buffer_pos ∧ s.buffer_pos < UART_BUFFER_SIZE - 1
        · cases hp : ParseIMUData (cString ((s.uart_buffer.set s.buffer_pos byte).set
            (s.buffer_pos + 1) NUL)) d now with
          | mk st d1 =>
            cases st
            · have e : readLoop now endRc (byte :: rest) s d =
                  ⟨Status.CFE_SUCCESS, some d1,
                    ⟨s.UART_Initialized, s.uart_fd,
                      (s.uart_buffer.set s.buffer_pos byte).set (s.buffer_pos + 1) NUL, 0⟩,
                    rest, []⟩ := by
                rw [readLoop, if_neg h1, if_pos h2, if_pos h3]
                simp only [hp]
              rw [e]
              exact ⟨fun h => (by cases h), fun _ => ⟨[], by rw [h2]; rfl⟩⟩
            all_goals
              apply step (UartState.mk s.UART_Initialized s.uart_fd
                ((s.uart_buffer.set s.buffer_pos byte).set (s.buffer_pos + 1) NUL) 0) d1
              rw [readLoop, if_neg h1, if_pos h2, if_pos h3]
              simp only [hp]
        · exact step _ _ (by rw [readLoop, if_neg h1, if_pos h2, if_neg h3])
      · by_cases h4 : 0 < s.buffer_pos ∧ s.buffer_pos < UART_BUFFER_SIZE - 1
        · exact step _ _ (by rw [readLoop, if_neg h1, if_neg h2, if_pos h4])
        · by_cases h5 : s.buffer_pos ≥ UART_BUFFER_SIZE - 1
          · exact step _ _ (by rw [readLoop, if_neg h1, if_neg h2, if_neg h4, if_pos h5])
          · exact step _ _ (by rw [readLoop, if_neg h1, if_neg h2, if_neg h4, if_neg h5])

/-- The loop returns `CFE_SUCCESS` exactly when one of the strings it handed to the
parser was accepted. -/
theorem readLoop_success_iff (now : Nat) (endRc : Int) (input : List Char) (s : UartState)
    (d : FSWV1_IMUData_t) :
    (readLoop now endRc input s d).status = Status.CFE_SUCCESS ↔
      ∃ t, BufferAccess.parse t ∈ (readLoopLog now endRc input s d).2 ∧ frameAccepted t := by
  induction input generalizing s d with
  | nil =>
    rw [readLoop, readLoopLog]
    constructor
    · intro h; cases h
    · rintro ⟨t, ht, -⟩; simp at ht
  | cons byte rest ih =>
    rw [readLoop, readLoopLog]
    split_ifs with h1 h2 h3 h4 h5
    · rw [ih]
      simp
    · dsimp only
      have hacc := parse_success_iff (cString ((s.uart_buffer.set s.buffer_pos byte).set
        (s.buffer_pos + 1) NUL)) d now
      generalize ParseIMUData (cString ((s.uart_buffer.set s.buffer_pos byte).set
        (s.buffer_pos + 1) NUL)) d now = p at hacc
      obtain ⟨st, d1⟩ := p
      cases st
      · simp only [true_iff]
        exact ⟨_, by simp, hacc.mp rfl⟩
      all_goals
        simp only [ih, List.mem_append, List.mem_cons, List.mem_singleton, List.not_mem_nil,
          or_false, BufferAccess.parse.injEq, false_or]
        constructor
        · rintro ⟨t, ht, ha⟩
          exact ⟨t, Or.inr ht, ha⟩
        · rintro ⟨t, (ht | ht | ht) | ht, ha⟩
          · cases ht
          · cases ht
          · subst ht
            have := hacc.mpr ha
            cases this
          · exact ⟨t, ht, ha⟩
    · exact ih _ _
    · rw [ih]
      simp
    · exact ih _ _
    · exact ih _ _

/-- C12, counterexample: two frames are on the line; the call returns at the `#` of the
first one and the second frame is left unread. -/
theorem C12_second_frame_left_unread :
    (FSWV1_ReadUART uartStart (some imuZero)
      "$,1,2,3,4,5,6,7,#$,1,2,3,4,5,6,7,#".toList 0 100).status = Status.CFE_SUCCESS ∧
    (FSWV1_ReadUART uartStart (some imuZero)
      "$,1,2,3,4,5,6,7,#$,1,2,3,4,5,6,7,#".toList 0 100).unread =
        "$,1,2,3,4,5,6,7,#".toList := by
  constructor
  · rfl
  · rfl

/-- When the loop returns `CFE_SUCCESS`, the `#` at which it returned is the first at
which a text was accepted: the bytes before it, fed alone, end in `OS_ERROR`; with the `#`
added they give the same result with nothing unread; and the text handed to the parser
at that `#` is the last access of the call and was accepted. -/
theorem readLoop_first_accepted (now : Nat) (endRc : Int) (input : List Char) (s : UartState)
    (d : FSWV1_IMUData_t) (h : (readLoop now endRc input s d).status = Status.CFE_SUCCESS) :
    ∃ pre t, input = pre ++ '#' :: (readLoop now endRc input s d).unread ∧
      (readLoop now endRc pre s d).status = Status.OS_ERROR ∧
      readLoop now endRc (pre ++ ['#']) s d =
        { readLoop now endRc input s d with unread := [] } ∧
      (readLoopLog now endRc input s d).2 =
        (readLoopLog now endRc pre s d).2 ++
          [BufferAccess.store (readLoop now endRc pre s d).state.buffer_pos '#',
            BufferAccess.store ((readLoop now endRc pre s d).state.buffer_pos + 1) NUL,
            BufferAccess.parse t] ∧
      frameAccepted t := by
  induction input generalizing s d with
  | nil => rw [readLoop] at h; cases h
  | cons byte rest ih =>
    have step : ∀ (s1 : UartState) (d1 : FSWV1_IMUData_t) (l0 : List BufferAccess),
        (∀ x, readLoop now endRc (byte :: x) s d = readLoop now endRc x s1 d1) →
        (∀ x, (readLoopLog now endRc (byte :: x) s d).2 =
          l0 ++ (readLoopLog now endRc x s1 d1).2) →
        ∃ pre t, byte :: rest = pre ++ '#' :: (readLoop now endRc (byte :: rest) s d).unread ∧
          (readLoop now endRc pre s d).status = Status.OS_ERROR ∧
          readLoop now endRc (pre ++ ['#']) s d =
            { readLoop now endRc (byte :: rest) s d with unread := [] } ∧
          (readLoopLog now endRc (byte :: rest) s d).2 =
            (readLoopLog now endRc pre s d).2 ++
              [BufferAccess.store (readLoop now endRc pre s d).state.buffer_pos '#',
                BufferAccess.store ((readLoop now endRc pre s d).state.buffer_pos + 1) NUL,
                BufferAccess.parse t] ∧
          frameAccepted t := by
      intro s1 d1 l0 e1 e2
      rw [e1 rest] at h
      obtain ⟨pre, t, a1, a2, a3, a4, a5⟩ := ih s1 d1 h
      refine ⟨byte :: pre, t, ?_, ?_, ?_, ?_, a5⟩
      · rw [e1 rest, List.cons_append, ← a1]
      · rw [e1 pre]; exact a2
      · rw [List.cons_append, e1 (pre ++ ['#']), e1 rest]; exact a3
      · rw [e2 rest, e2 pre, e1 pre, a4, List.append_assoc]
    by_cases c1 : byte = '$'
    · apply step (UartState.mk s.UART_Initialized s.uart_fd (s.uart_buffer.set 0 byte) 1) d
        [BufferAccess.store 0 byte]
      · intro x; rw [readLoop]; simp only [c1, if_true]
      · intro x; rw [readLoopLog]; simp only [c1, if_true, List.singleton_append]
    · by_cases c2 : byte = '#'
      · subst c2
        by_cases c3 : 0 < s.buffer_pos ∧ s.buffer_pos < UART_BUFFER_SIZE - 1
        · have hacc := parse_success_iff (cString ((s.uart_buffer.set s.buffer_pos '#').set
            (s.buffer_pos + 1) NUL)) d now
          cases hp : ParseIMUData (cString ((s.uart_buffer.set s.buffer_pos '#').set
            (s.buffer_pos + 1) NUL)) d now with
          | mk st d1 =>
            rw [hp] at hacc
            by_cases hs : st = Status.CFE_SUCCESS
            · subst hs
              have hfull : ∀ x, readLoop now endRc ('#' :: x) s d =
                  ⟨Status.CFE_SUCCESS, some d1,
                    UartState.mk s.UART_Initialized s.uart_fd
                      ((s.uart_buffer.set s.buffer_pos '#').set (s.buffer_pos + 1) NUL) 0,
                    x, []⟩ := by
                intro x
                rw [readLoop]; simp only [c1, c3, if_true, if_false, hp, and_self]
              have hlog : (readLoopLog now endRc ('#' :: rest) s d).2 =
                  [BufferAccess.store s.buffer_pos '#',
                    BufferAccess.store (s.buffer_pos + 1) NUL,
                    BufferAccess.parse (cString ((s.uart_buffer.set s.buffer_pos '#').set
                      (s.buffer_pos + 1) NUL))] := by
                rw [readLoopLog]; simp only [c1, c3, if_true, if_false, hp, and_self]
              have hnil : readLoop now endRc [] s d = ⟨Status.OS_ERROR, some d, s, [], []⟩ := by
                rw [readLoop]
              have hnilLog : (readLoopLog now endRc [] s d).2 = [] := by
                rw [readLoopLog]
              refine ⟨[], cString ((s.uart_buffer.set s.buffer_pos '#').set
                (s.buffer_pos + 1) NUL), ?_, ?_, ?_, ?_, hacc.mp rfl⟩
              · rw [hfull rest]; rfl
              · rw [hnil]
              · rw [List.nil_append, hfull [], hfull rest]
              · rw [hlog, hnilLog, hnil, List.nil_append]
            · apply step (UartState.mk s.UART_Initialized s.uart_fd
                ((s.uart_buffer.set s.buffer_pos '#').set (s.buffer_pos + 1) NUL) 0) d1
                [BufferAccess.store s.buffer_pos '#', BufferAccess.store (s.buffer_pos + 1) NUL,
                  BufferAccess.parse (cString ((s.uart_buffer.set s.buffer_pos '#').set
                    (s.buffer_pos + 1) NUL))]
              · intro x; rw [readLoop]; simp only [c1, c3, if_true, if_false, hp, and_self]
              · intro x; rw [readLoopLog]; simp only [c1, c3, if_true, if_false, hp, and_self]
        · apply step (UartState.mk s.UART_Initialized s.uart_fd s.uart_buffer 0) d []
          · intro x; rw [readLoop]; simp only [c1, c3, if_true, if_false]
          · intro x; rw [readLoopLog]; simp only [c1, c3, if_true, if_false, List.nil_append]
      · by_cases c4 : 0 < s.buffer_pos ∧ s.buffer_pos < UART_BUFFER_SIZE - 1
        · apply step (UartState.mk s.UART_Initialized s.uart_fd
            (s.uart_buffer.set s.buffer_pos byte) (s.buffer_pos + 1)) d
            [BufferAccess.store s.buffer_pos byte]
          · intro x; rw [readLoop]; simp only [c1, c2, c4, if_true, if_false, and_self]
          · intro x; rw [readLoopLog]
            simp only [c1, c2, c4, if_true, if_false, and_self, List.singleton_append]
        · by_cases c5 : s.buffer_pos ≥ UART_BUFFER_SIZE - 1
          · apply step (UartState.mk s.UART_Initialized s.uart_fd s.uart_buffer 0) d []
            · intro x; rw [readLoop]; simp only [c1, c2, c4, c5, if_true, if_false]
            · intro x; rw [readLoopLog]
              simp only [c1, c2, c4, c5, if_true, if_false, List.nil_append]
          · apply step s d []
            · intro x; rw [readLoop]; simp only [c1, c2, c4, c5, if_true, if_false]
            · intro x; rw [readLoopLog]
              simp only [c1, c2, c4, c5, if_true, if_false, List.nil_append]

/-- C12, amended: on an initialised decoder one call of `FSWV1_ReadUART` returns
`CFE_SUCCESS` or `OS_ERROR`; it returns `CFE_SUCCESS` exactly when one of the texts it
handed to the parser during the call was accepted (seven converted fields); with
`OS_ERROR` it has read all the available input; with `CFE_SUCCESS` it has read up to and
including the `#` that completed the first accepted frame and has left what follows
unread: the input is `pre`, that `#`, and the unread bytes, where a call on `pre` alone
returns `OS_ERROR` (no text handed to the parser within `pre` is accepted), a call on
`pre` and the `#` gives the same return value, sample and decoder state with nothing
unread, and the last thing the call did was to store that `#` and the terminating zero
and to hand the parser a text that it accepted. -/
theorem C12_reads_up_to_first_accepted_frame (s : UartState) (d : FSWV1_IMUData_t)
    (input : List Char) (endRc : Int) (now : Nat)
    (hinit : s.UART_Initialized = true) (hfd : 0 ≤ s.uart_fd) :
    ((FSWV1_ReadUART s (some d) input endRc now).status = Status.CFE_SUCCESS ∨
      (FSWV1_ReadUART s (some d) input endRc now).status = Status.OS_ERROR) ∧
    ((FSWV1_ReadUART s (some d) input endRc now).status = Status.CFE_SUCCESS ↔
      ∃ t, BufferAccess.parse t ∈ (readLoopLog now endRc input s d).2 ∧ frameAccepted t) ∧
    ((FSWV1_ReadUART s (some d) input endRc now).status = Status.OS_ERROR →
      (FSWV1_ReadUART s (some d) input endRc now).unread = []) ∧
    ((FSWV1_ReadUART s (some d) input endRc now).status = Status.CFE_SUCCESS →
      ∃ pre t, input = pre ++ '#' :: (FSWV1_ReadUART s (some d) input endRc now).unread ∧
        (FSWV1_ReadUART s (some d) pre endRc now).status = Status.OS_ERROR ∧
        (∀ u, BufferAccess.parse u ∈ (readLoopLog now endRc pre s d).2 → ¬ frameAccepted u) ∧
        FSWV1_ReadUART s (some d) (pre ++ ['#']) endRc now =
          { FSWV1_ReadUART s (some d) input endRc now with unread := [] } ∧
        (readLoopLog now endRc input s d).2 =
          (readLoopLog now endRc pre s d).2 ++
            [BufferAccess.store (FSWV1_ReadUART s (some d) pre endRc now).state.buffer_pos '#',
              BufferAccess.store
                ((FSWV1_ReadUART s (some d) pre endRc now).state.buffer_pos + 1) NUL,
              BufferAccess.parse t] ∧
        frameAccepted t) := by
  rw [readUART_ready s d input endRc now hinit hfd]
  refine ⟨readLoop_status now endRc input s d, readLoop_success_iff now endRc input s d,
    (readLoop_unread now endRc input s d).1, fun h => ?_⟩
  obtain ⟨pre, t, a1, a2, a3, a4, a5⟩ := readLoop_first_accepted now endRc input s d h
  refine ⟨pre, t, a1, ?_, ?_, ?_, ?_, a5⟩
  · rw [readUART_ready s d pre endRc now hinit hfd]; exact a2
  · intro u hu hacc
    have hs := (readLoop_success_iff now endRc pre s d).mpr ⟨u, hu, hacc⟩
    rw [a2] at hs
    cases hs
  · rw [readUART_ready s d (pre ++ ['#']) endRc now hinit hfd]; exact a3
  · rw [readUART_ready s d pre endRc now hinit hfd]; exact a4

/-- Witness for C12, amended: two frames on the line; the call returns `CFE_SUCCESS`
and leaves the second frame unread. -/
theorem C12_reads_up_to_first_accepted_frame_witness :
    (FSWV1_ReadUART uartStart (some imuZero)
      "$,1,2,3,4,5,6,7,#$,1,2,3,4,5,6,7,#".toList 0 100).unread = "$,1,2,3,4,5,6,7,#".toList ∧
    ∃ pre t, "$,1,2,3,4,5,6,7,#$,1,2,3,4,5,6,7,#".toList =
        pre ++ '#' :: (FSWV1_ReadUART uartStart (some imuZero)
          "$,1,2,3,4,5,6,7,#$,1,2,3,4,5,6,7,#".toList 0 100).unread ∧
      (FSWV1_ReadUART uartStart (some imuZero) pre 0 100).status = Status.OS_ERROR ∧
      (∀ u, BufferAccess.parse u ∈ (readLoopLog 100 0 pre uartStart imuZero).2 →
        ¬ frameAccepted u) ∧
      FSWV1_ReadUART uartStart (some imuZero) (pre ++ ['#']) 0 100 =
        { FSWV1_ReadUART uartStart (some imuZero)
            "$,1,2,3,4,5,6,7,#$,1,2,3,4,5,6,7,#".toList 0 100 with unread := [] } ∧
      (readLoopLog 100 0 "$,1,2,3,4,5,6,7,#$,1,2,3,4,5,6,7,#".toList uartStart imuZero).2 =
        (readLoopLog 100 0 pre uartStart imuZero).2 ++
          [BufferAccess.store (FSWV1_ReadUART uartStart (some imuZero) pre 0 100).state.buffer_pos
              '#',
            BufferAccess.store
              ((FSWV1_ReadUART uartStart (some imuZero) pre 0 100).state.buffer_pos + 1) NUL,
            BufferAccess.parse t] ∧
      frameAccepted t :=
  ⟨rfl, (C12_reads_up_to_first_accepted_frame uartStart imuZero
    "$,1,2,3,4,5,6,7,#$,1,2,3,4,5,6,7,#".toList 0 100 rfl (by decide)).2.2.2 rfl⟩

/-- C13, counterexample: with a frame begun but not completed on the line,
`FSWV1_ReadUART` returns `OS_ERROR` when the last `read` reports no more bytes (0) and
the same `OS_ERROR` when it reports a failure (-1); likewise with nothing on the line. -/
theorem C13_read_failure_returns_not_ready_value :
    (FSWV1_ReadUART uartStart (some imuZero) "$,1,2".toList 0 100).status = Status.OS_ERROR ∧
    (FSWV1_ReadUART uartStart (some imuZero) "$,1,2".toList (-1) 100).status =
      Status.OS_ERROR ∧
    (FSWV1_ReadUART uartStart (some imuZero) [] 0 100).status = Status.OS_ERROR ∧
    (FSWV1_ReadUART uartStart (some imuZero) [] (-1) 100).status = Status.OS_ERROR := by
  refine ⟨?_, ?_, ?_, ?_⟩ <;> rfl

/-- C13, amended: what `FSWV1_ReadUART` returns and leaves behind does not depend on the
value with which the last `read` ended the loop, so "no frame yet" and a failed serial
read give the same result; the return value `CFE_STATUS_EXTERNAL_RESOURCE_FAIL` occurs
exactly when the decoder is not initialised or has no open descriptor, and is then
distinct from the `OS_ERROR` of "no frame yet". -/
theorem C13_result_independent_of_read_result (s : UartState)
    (data : Option FSWV1_IMUData_t) (input : List Char) (e1 e2 : Int) (now : Nat) :
    FSWV1_ReadUART s data input e1 now = FSWV1_ReadUART s data input e2 now ∧
    ((FSWV1_ReadUART s data input e1 now).status = Status.CFE_STATUS_EXTERNAL_RESOURCE_FAIL ↔
      (s.UART_Initialized = false ∨ s.uart_fd < 0)) ∧
    Status.CFE_STATUS_EXTERNAL_RESOURCE_FAIL ≠ Status.OS_ERROR := by
  refine ⟨?_, ?_, by decide⟩
  · unfold FSWV1_ReadUART
    split_ifs
    · rfl
    · cases data with
      | none => rfl
      | some d => exact readLoop_endRc now e1 e2 input s d
  · unfold FSWV1_ReadUART
    split_ifs with h
    · simp only [true_iff]
      rcases h with h | h
      · left; simpa using h
      · right; exact h
    · have hn : ¬ (s.UART_Initialized = false ∨ s.uart_fd < 0) := by
        intro h2
        apply h
        rcases h2 with h2 | h2
        · left; simp [h2]
        · right; exact h2
      cases data with
      | none => simp only [hn, iff_false]; decide
      | some d =>
        simp only [hn, iff_false]
        rcases readLoop_status now e1 input s d with h3 | h3 <;> rw [h3] <;> decide

/-- Feeding `$` and 254 letters to the decoder at program start fills the buffer to
capacity. -/
theorem uartFull_eq :
    (FSWV1_ReadUART uartStart (some imuZero) ('$' :: List.replicate 254 'a') 0 0).state =
      uartFull := by
  set_option maxRecDepth 100000 in rfl

/-- The decoder at capacity is a reachable state. -/
theorem uartFull_reachable : Reachable uartFull := by
  rw [← uartFull_eq]
  exact Reachable.read uartStart (some imuZero) _ 0 0
    (Reachable.init uartStart rfl (by decide) (List.length_replicate _ _) rfl)

/-- C15: in every decoder state reachable from initialisation by any number of
`FSWV1_ReadUART` calls on any inputs, `buffer_pos` is at most 255 and the buffer has 256
places; a further call on any input (hence after each byte of it: take the input up to
that byte) again leaves `buffer_pos` at most 255; every store the call makes, the
terminating zero after `#` included, is at an index below 256; and at capacity
(`buffer_pos = 255`) a byte other than `$` is handled by setting `buffer_pos` to 0,
with nothing stored. -/
theorem C15_bounded_buffer (s : UartState) (hs : Reachable s) :
    s.buffer_pos ≤ 255 ∧ s.uart_buffer.length = 256 ∧
    (∀ (data : Option FSWV1_IMUData_t) (input : List Char) (endRc : Int) (now k : Nat),
      (FSWV1_ReadUART s data (input.take k) endRc now).state.buffer_pos ≤ 255 ∧
      (FSWV1_ReadUART s data (input.take k) endRc now).state.uart_buffer.length = 256) ∧
    (∀ (d : FSWV1_IMUData_t) (input : List Char) (endRc : Int) (now i : Nat) (c : Char),
      (readLoopLog now endRc input s d).1 = FSWV1_ReadUART s (some d) input endRc now ∧
      (BufferAccess.store i c ∈ (readLoopLog now endRc input s d).2 → i < 256)) ∧
    (∀ (d : FSWV1_IMUData_t) (byte : Char) (rest : List Char) (endRc : Int) (now : Nat),
      s.buffer_pos = 255 → byte ≠ '$' →
      FSWV1_ReadUART s (some d) (byte :: rest) endRc now =
        FSWV1_ReadUART { s with buffer_pos := 0 } (some d) rest endRc now ∧
      (FSWV1_ReadUART s (some d) [byte] endRc now).state = { s with buffer_pos := 0 } ∧
      (readLoopLog now endRc [byte] s d).2 = []) := by
  obtain ⟨hinit, hfd, hlen, hpos⟩ := reachable_valid s hs
  refine ⟨hpos, hlen, ?_, ?_, ?_⟩
  · intro data input endRc now k
    have h := reachable_valid _ (Reachable.read s data (input.take k) endRc now hs)
    exact ⟨h.2.2.2, h.2.2.1⟩
  · intro d input endRc now i c
    rw [readUART_ready s d input endRc now hinit hfd]
    exact ⟨readLoopLog_fst now endRc input s d, readLoopLog_store_bound now endRc input s d i c⟩
  · intro d byte rest endRc now h255 hbyte
    have hstep : ∀ tail, readLoop now endRc (byte :: tail) s d =
        readLoop now endRc tail { s with buffer_pos := 0 } d := by
      intro tail
      by_cases hh : byte = '#'
      · subst hh
        exact readLoop_end_marker_reset now endRc tail s d (Or.inr (by omega))
      · exact readLoop_overflow now endRc byte tail s d ⟨hbyte, hh⟩ (by omega)
    refine ⟨?_, ?_, ?_⟩
    · rw [readUART_ready s d _ endRc now hinit hfd,
        readUART_ready (UartState.mk s.UART_Initialized s.uart_fd s.uart_buffer 0) d _ endRc now
          hinit hfd]
      exact hstep rest
    · rw [readUART_ready s d _ endRc now hinit hfd, hstep [], readLoop_nil]
    · have hc : ¬ (0 < s.buffer_pos ∧ s.buffer_pos < UART_BUFFER_SIZE - 1) := by
        simp only [UART_BUFFER_SIZE]; omega
      have hge : s.buffer_pos ≥ UART_BUFFER_SIZE - 1 := by
        simp only [UART_BUFFER_SIZE]; omega
      rw [readLoopLog]
      simp only [hbyte, if_false, hc, hge, if_true, ite_self]
      rw [readLoopLog]

theorem C15_bounded_buffer_witness :
    uartFull.buffer_pos ≤ 255 ∧ uartFull.uart_buffer.length = 256 ∧
    (∀ (data : Option FSWV1_IMUData_t) (input : List Char) (endRc : Int) (now k : Nat),
      (FSWV1_ReadUART uartFull data (input.take k) endRc now).state.buffer_pos ≤ 255 ∧
      (FSWV1_ReadUART uartFull data (input.take k) endRc now).state.uart_buffer.length
        = 256) ∧
    (∀ (d : FSWV1_IMUData_t) (input : List Char) (endRc : Int) (now i : Nat) (c : Char),
      (readLoopLog now endRc input uartFull d).1 =
        FSWV1_ReadUART uartFull (some d) input endRc now ∧
      (BufferAccess.store i c ∈ (readLoopLog now endRc input uartFull d).2 → i < 256)) ∧
    (∀ (d : FSWV1_IMUData_t) (byte : Char) (rest : List Char) (endRc : Int) (now : Nat),
      uartFull.buffer_pos = 255 → byte ≠ '$' →
      FSWV1_ReadUART uartFull (some d) (byte :: rest) endRc now =
        FSWV1_ReadUART { uartFull with buffer_pos := 0 } (some d) rest endRc now ∧
      (FSWV1_ReadUART uartFull (some d) [byte] endRc now).state =
        { uartFull with buffer_pos := 0 } ∧
      (readLoopLog now endRc [byte] uartFull d).2 = []) :=
  C15_bounded_buffer uartFull uartFull_reachable

/-- A `$` starts a new frame whatever the state was. -/
theorem framedAt_start (hist : List Char) (s : UartState) (h : s.uart_buffer.length = 256) :
    FramedAt (hist ++ ['$']) ⟨s.UART_Initialized, s.uart_fd, s.uart_buffer.set 0 '$', 1⟩ := by
  refine ⟨by simp [h], Or.inr ⟨hist, [], by simp, ?_, ?_, rfl⟩⟩
  · intro c hc; simp at hc
  · have := take_succ_set s.uart_buffer 0 '$' (by omega)
    simpa using this

/-- With `buffer_pos = 0` the decoder is framed after any bytes. -/
theorem framedAt_idle (hist : List Char) (s : UartState) (h : s.uart_buffer.length = 256)
    (hpos : s.buffer_pos = 0) : FramedAt hist s :=
  ⟨h, Or.inl hpos⟩

/-- Storing a byte that is no marker keeps the decoder framed. -/
theorem framedAt_append (hist : List Char) (s : UartState) (byte : Char)
    (h : FramedAt hist s) (hpos : 0 < s.buffer_pos ∧ s.buffer_pos < 255)
    (h1 : byte ≠ '$') (h2 : byte ≠ '#') :
    FramedAt (hist ++ [byte])
      ⟨s.UART_Initialized, s.uart_fd, s.uart_buffer.set s.buffer_pos byte, s.buffer_pos + 1⟩ := by
  obtain ⟨hlen, hf⟩ := h
  rcases hf with hf | ⟨pre, b0, hh, hb, ht, hp⟩
  · omega
  · refine ⟨by simp [hlen], Or.inr ⟨pre, b0 ++ [byte], by simp [hh], ?_, ?_, ?_⟩⟩
    · intro c hc
      rcases List.mem_append.mp hc with hc | hc
      · exact hb c hc
      · simp only [List.mem_singleton] at hc
        subst hc
        exact ⟨h1, h2⟩
    · show (s.uart_buffer.set s.buffer_pos byte).take (s.buffer_pos + 1) = _
      rw [take_succ_set _ _ _ (by omega), ht]
      simp
    · simp [hp]

/-- The text handed to the parser at a `#`, for a framed decoder. -/
theorem framedAt_parse_text (hist : List Char) (s : UartState)
    (h : FramedAt hist s) (hpos : 0 < s.buffer_pos ∧ s.buffer_pos < 255) :
    ∃ pre b0, hist = pre ++ '$' :: b0 ∧ noMarker b0 ∧
      cString ((s.uart_buffer.set s.buffer_pos '#').set (s.buffer_pos + 1) NUL) =
        cString ('$' :: (b0 ++ ['#'])) := by
  obtain ⟨hlen, hf⟩ := h
  rcases hf with hf | ⟨pre, b0, hh, hb, ht, hp⟩
  · omega
  · refine ⟨pre, b0, hh, hb, ?_⟩
    rw [set_set_succ _ _ _ _ (by omega), ht]
    have : '$' :: b0 ++ '#' :: NUL :: List.drop (s.buffer_pos + 2) s.uart_buffer =
        ('$' :: (b0 ++ ['#'])) ++ NUL :: List.drop (s.buffer_pos + 2) s.uart_buffer := by simp
    rw [this, cString_append_nul]

/-- Every text the loop hands to the parser is the stretch of the byte stream from a `$`
to the next `#` of this input, with no `$` or `#` in between, cut at its first zero
byte. -/
theorem readLoopLog_parse_text (now : Nat) (endRc : Int) (input : List Char) (s : UartState)
    (d : FSWV1_IMUData_t) (hist : List Char) (hs : FramedAt hist s) (t : List Char)
    (h : BufferAccess.parse t ∈ (readLoopLog now endRc input s d).2) :
    ∃ pre body post, hist ++ input = pre ++ '$' :: (body ++ '#' :: post) ∧ noMarker body ∧
      post.length < input.length ∧ t = cString ('$' :: (body ++ ['#'])) := by
  induction input generalizing s d hist with
  | nil => rw [readLoopLog] at h; simp at h
  | cons byte rest ih =>
    have step : ∀ s1 d1, FramedAt (hist ++ [byte]) s1 →
        BufferAccess.parse t ∈ (readLoopLog now endRc rest s1 d1).2 →
        ∃ pre body post, hist ++ byte :: rest = pre ++ '$' :: (body ++ '#' :: post) ∧
          noMarker body ∧ post.length < (byte :: rest).length ∧
          t = cString ('$' :: (body ++ ['#'])) := by
      intro s1 d1 hf hm
      obtain ⟨pre, body, post, e, hb, hl, ht⟩ := ih s1 d1 (hist ++ [byte]) hf hm
      refine ⟨pre, body, post, ?_, hb, ?_, ht⟩
      · rw [← e]; simp
      · simp only [List.length_cons]; omega
    rw [readLoopLog] at h
    split_ifs at h with h1 h2 h3 h4 h5
    · simp only [List.mem_cons, reduceCtorEq, false_or] at h
      subst h1
      exact step _ _ (framedAt_start hist s hs.1) h
    · dsimp only at h
      simp only [UART_BUFFER_SIZE] at h3
      subst h2
      obtain ⟨pre, b0, hh, hb, hc⟩ := framedAt_parse_text hist s hs (by omega)
      have hhere : t = cString ((s.uart_buffer.set s.buffer_pos '#').set
          (s.buffer_pos + 1) NUL) →
          ∃ pre body post, hist ++ '#' :: rest = pre ++ '$' :: (body ++ '#' :: post) ∧
            noMarker body ∧ post.length < ('#' :: rest).length ∧
            t = cString ('$' :: (body ++ ['#'])) := by
        intro ht
        refine ⟨pre, b0, rest, by simp [hh], hb, by simp, ?_⟩
        rw [ht, hc]
      generalize ParseIMUData (cString ((s.uart_buffer.set s.buffer_pos '#').set
        (s.buffer_pos + 1) NUL)) d now = p at h
      obtain ⟨st, d1⟩ := p
      cases st
      · simp only [List.mem_cons, List.mem_singleton, List.not_mem_nil, or_false,
          BufferAccess.parse.injEq, reduceCtorEq, false_or] at h
        exact hhere h
      all_goals
        simp only [List.mem_append, List.mem_cons, List.mem_singleton, List.not_mem_nil,
          or_false, BufferAccess.parse.injEq, reduceCtorEq, false_or] at h
        rcases h with h | h
        · exact hhere h
        · exact step (UartState.mk s.UART_Initialized s.uart_fd
            ((s.uart_buffer.set s.buffer_pos '#').set (s.buffer_pos + 1) NUL) 0) d1
            ⟨by simp [hs.1], Or.inl rfl⟩ h
    · exact step (UartState.mk s.UART_Initialized s.uart_fd s.uart_buffer 0) d
        ⟨hs.1, Or.inl rfl⟩ h
    · simp only [List.mem_cons, reduceCtorEq, false_or] at h
      simp only [UART_BUFFER_SIZE] at h4
      exact step _ _ (framedAt_append hist s byte hs (by omega) h1 h2) h
    · exact step (UartState.mk s.UART_Initialized s.uart_fd s.uart_buffer 0) d
        ⟨hs.1, Or.inl rfl⟩ h
    · simp only [UART_BUFFER_SIZE] at h4 h5
      exact step s d (framedAt_idle _ _ hs.1 (by omega)) h

/-- What the loop leaves unread is an end piece of its input. -/
theorem readLoop_consumed (now : Nat) (endRc : Int) (input : List Char) (s : UartState)
    (d : FSWV1_IMUData_t) : ∃ c, input = c ++ (readLoop now endRc input s d).unread := by
  rcases readLoop_status now endRc input s d with h | h
  · obtain ⟨pre, e⟩ := (readLoop_unread now endRc input s d).2 h
    exact ⟨pre ++ ['#'], by simpa using e⟩
  · rw [(readLoop_unread now endRc input s d).1 h]
    exact ⟨input, by simp⟩

/-- The loop keeps the decoder framed with respect to the bytes it has read. -/
theorem readLoop_framedAt (now : Nat) (endRc : Int) (input : List Char) (s : UartState)
    (d : FSWV1_IMUData_t) (hist consumed : List Char) (hs : FramedAt hist s)
    (hc : input = consumed ++ (readLoop now endRc input s d).unread) :
    FramedAt (hist ++ consumed) (readLoop now endRc input s d).state := by
  induction input generalizing s d hist consumed with
  | nil =>
    rw [readLoop] at hc ⊢
    have : consumed = [] := by
      have := congrArg List.length hc
      simp only [List.length_nil, List.append_nil] at this
      exact List.length_eq_zero.mp this.symm
    subst this
    simpa using hs
  | cons byte rest ih =>
    have step : ∀ s1 d1, FramedAt (hist ++ [byte]) s1 →
        readLoop now endRc (byte :: rest) s d = readLoop now endRc rest s1 d1 →
        FramedAt (hist ++ consumed) (readLoop now endRc (byte :: rest) s d).state := by
      intro s1 d1 hf e
      rw [e] at hc ⊢
      obtain ⟨c, hcr⟩ := readLoop_consumed now endRc rest s1 d1
      have hcons : consumed = byte :: c := by
        have h2 : consumed ++ (readLoop now endRc rest s1 d1).unread =
            (byte :: c) ++ (readLoop now endRc rest s1 d1).unread := by
          rw [← hc, List.cons_append, ← hcr]
        exact List.append_cancel_right h2
      subst hcons
      have := ih s1 d1 (hist ++ [byte]) c hf hcr
      simpa using this
    by_cases h1 : byte = '$'
    · subst h1
      apply step _ d (framedAt_start hist s hs.1)
      rw [readLoop]; simp
    by_cases h2 : byte = '#'
    · subst h2
      by_cases h3 : 0 < s.buffer_pos ∧ s.buffer_pos < 255
      · by_cases hp : (ParseIMUData (cString ((s.uart_buffer.set s.buffer_pos '#').set
            (s.buffer_pos + 1) NUL)) d now).1 = Status.CFE_SUCCESS
        · have e : (readLoop now endRc ('#' :: rest) s d).state =
              UartState.mk s.UART_Initialized s.uart_fd
                ((s.uart_buffer.set s.buffer_pos '#').set (s.buffer_pos + 1) NUL) 0 := by
            rw [readLoop]
            simp only [h1, if_false, if_true, UART_BUFFER_SIZE, Nat.reduceSub, h3, and_self]
            generalize ParseIMUData (cString ((s.uart_buffer.set s.buffer_pos '#').set
              (s.buffer_pos + 1) NUL)) d now = p at hp
            obtain ⟨st, d1⟩ := p
            cases st <;> simp at hp ⊢
          rw [e]
          exact ⟨by simp [hs.1], Or.inl rfl⟩
        · apply step (UartState.mk s.UART_Initialized s.uart_fd
            ((s.uart_buffer.set s.buffer_pos '#').set (s.buffer_pos + 1) NUL) 0)
            (ParseIMUData (cString ((s.uart_buffer.set s.buffer_pos '#').set
              (s.buffer_pos + 1) NUL)) d now).2 ⟨by simp [hs.1], Or.inl rfl⟩
          rw [readLoop]
          simp only [h1, if_false, if_true, UART_BUFFER_SIZE, Nat.reduceSub, h3, and_self]
      · apply step (UartState.mk s.UART_Initialized s.uart_fd s.uart_buffer 0) d
          ⟨hs.1, Or.inl rfl⟩
        rw [readLoop]
        simp only [h1, if_false, if_true, UART_BUFFER_SIZE, Nat.reduceSub, h3]
    by_cases h4 : 0 < s.buffer_pos ∧ s.buffer_pos < 255
    · apply step _ d (framedAt_append hist s byte hs h4 h1 h2)
      rw [readLoop]
      simp only [h1, h2, if_false, if_true, UART_BUFFER_SIZE, Nat.reduceSub, h4, and_self]
    by_cases h5 : s.buffer_pos ≥ 255
    · apply step (UartState.mk s.UART_Initialized s.uart_fd s.uart_buffer 0) d
        ⟨hs.1, Or.inl rfl⟩
      rw [readLoop]
      simp only [h1, h2, if_false, if_true, UART_BUFFER_SIZE, Nat.reduceSub, h4, h5]
    · apply step s d (framedAt_idle _ _ hs.1 (by omega))
      rw [readLoop]
      simp only [h1, h2, if_false, if_true, UART_BUFFER_SIZE, Nat.reduceSub, h4, h5]

/-- Every state that occurs is initialised, has an open descriptor, and is framed with
respect to the bytes read so far. -/
theorem reachableAfter_framedAt (hist : List Char) (s : UartState)
    (h : ReachableAfter hist s) :
    s.UART_Initialized = true ∧ 0 ≤ s.uart_fd ∧ FramedAt hist s := by
  induction h with
  | init s h1 h2 h3 h4 => exact ⟨h1, h2, h3, Or.inl h4⟩
  | read hist s data input endRc now consumed _ hc ih =>
    obtain ⟨hi, hfd, hf⟩ := ih
    cases data with
    | none =>
      have e : FSWV1_ReadUART s none input endRc now =
          ⟨Status.OS_INVALID_POINTER, none, s, input, []⟩ := by
        unfold FSWV1_ReadUART
        simp [hi, hfd]
      rw [e] at hc ⊢
      have : consumed = [] := by
        have := congrArg List.length hc
        simp at this
        exact this
      subst this
      simpa using ⟨hi, hfd, hf⟩
    | some d =>
      rw [readUART_ready s d input endRc now hi hfd] at hc ⊢
      obtain ⟨a, b, -, -⟩ := readLoop_invariant now endRc input s d
      exact ⟨by rw [a]; exact hi, by rw [b]; exact hfd,
        readLoop_framedAt now endRc input s d hist consumed hf hc⟩

/-- The decoder at capacity is the state after reading `$` and 254 letters. -/
theorem uartFull_reachableAfter : ReachableAfter ('$' :: List.replicate 254 'a') uartFull := by
  have h := ReachableAfter.read [] uartStart (some imuZero) ('$' :: List.replicate 254 'a') 0 0
    ('$' :: List.replicate 254 'a')
    (ReachableAfter.init uartStart rfl (by decide) (List.length_replicate _ _) rfl)
    (by set_option maxRecDepth 100000 in rfl)
  rw [uartFull_eq] at h
  exact h

/-- C14: in every decoder state that occurs (idle, accumulating at any length, at
capacity) a `$` byte sets `buffer_pos` to 1 with `$` in the first place of the buffer, so
that the live part of the buffer is the single byte `$`; and every text handed to the
parser is the stretch of the bytes read since initialisation that runs from a `$` to the
`#` at which the parser is called, with no `$` or `#` in between (so the `$` is the most
recent one and nothing read before it is in the text), cut at its first zero byte. -/
theorem C14_start_marker_resets (hist : List Char) (s : UartState)
    (hs : ReachableAfter hist s) :
    (∀ (d : FSWV1_IMUData_t) (rest : List Char) (endRc : Int) (now : Nat),
      FSWV1_ReadUART s (some d) ('$' :: rest) endRc now =
        FSWV1_ReadUART { s with uart_buffer := s.uart_buffer.set 0 '$', buffer_pos := 1 }
          (some d) rest endRc now ∧
      (FSWV1_ReadUART s (some d) ['$'] endRc now).state.buffer_pos = 1 ∧
      (FSWV1_ReadUART s (some d) ['$'] endRc now).state.uart_buffer.take 1 = ['$']) ∧
    (∀ (d : FSWV1_IMUData_t) (input : List Char) (endRc : Int) (now : Nat) (t : List Char),
      (readLoopLog now endRc input s d).1 = FSWV1_ReadUART s (some d) input endRc now ∧
      (BufferAccess.parse t ∈ (readLoopLog now endRc input s d).2 →
        ∃ pre body post, hist ++ input = pre ++ '$' :: (body ++ '#' :: post) ∧
          noMarker body ∧ post.length < input.length ∧
          t = cString ('$' :: (body ++ ['#'])))) := by
  obtain ⟨hinit, hfd, hf⟩ := reachableAfter_framedAt hist s hs
  constructor
  · intro d rest endRc now
    have hstep : ∀ tail, readLoop now endRc ('$' :: tail) s d =
        readLoop now endRc tail
          (UartState.mk s.UART_Initialized s.uart_fd (s.uart_buffer.set 0 '$') 1) d := by
      intro tail
      rw [readLoop]
      simp
    refine ⟨?_, ?_, ?_⟩
    · rw [readUART_ready s d _ endRc now hinit hfd,
        readUART_ready (UartState.mk s.UART_Initialized s.uart_fd (s.uart_buffer.set 0 '$') 1)
          d _ endRc now hinit hfd]
      exact hstep rest
    · rw [readUART_ready s d _ endRc now hinit hfd, hstep [], readLoop_nil]
    · rw [readUART_ready s d _ endRc now hinit hfd, hstep [], readLoop_nil]
      have := take_succ_set s.uart_buffer 0 '$' (by rw [hf.1]; omega)
      simpa using this
  · intro d input endRc now t
    rw [readUART_ready s d _ endRc now hinit hfd]
    exact ⟨readLoopLog_fst now endRc input s d,
      readLoopLog_parse_text now endRc input s d hist hf t⟩

theorem C14_start_marker_resets_witness :
    (∀ (d : FSWV1_IMUData_t) (rest : List Char) (endRc : Int) (now : Nat),
      FSWV1_ReadUART uartFull (some d) ('$' :: rest) endRc now =
        FSWV1_ReadUART
          { uartFull with uart_buffer := uartFull.uart_buffer.set 0 '$', buffer_pos := 1 }
          (some d) rest endRc now ∧
      (FSWV1_ReadUART uartFull (some d) ['$'] endRc now).state.buffer_pos = 1 ∧
      (FSWV1_ReadUART uartFull (some d) ['$'] endRc now).state.uart_buffer.take 1 = ['$']) ∧
    (∀ (d : FSWV1_IMUData_t) (input : List Char) (endRc : Int) (now : Nat) (t : List Char),
      (readLoopLog now endRc input uartFull d).1 =
        FSWV1_ReadUART uartFull (some d) input endRc now ∧
      (BufferAccess.parse t ∈ (readLoopLog now endRc input uartFull d).2 →
        ∃ pre body post,
          ('$' :: List.replicate 254 'a') ++ input = pre ++ '$' :: (body ++ '#' :: post) ∧
          noMarker body ∧ post.length < input.length ∧
          t = cString ('$' :: (body ++ ['#'])))) :=
  C14_start_marker_resets ('$' :: List.replicate 254 'a') uartFull uartFull_reachableAfter

theorem decDigit_of_isDecDigit (c : Char) (h : isDecDigit c) :
    decDigit c = some (c.toNat - 48) := by
  unfold decDigit
  unfold isDecDigit at h
  simp only [h, and_self, if_true]

/-- The digit scanner reads a run of digits up to a character that is not a digit. -/
theorem scanDigits_run (ds rest : List Char) (acc n : Nat) (hd : ∀ c ∈ ds, isDecDigit c)
    (hr : ∀ c r, rest = c :: r → decDigit c = none) :
    scanDigits decDigit 10 (ds ++ rest) acc n = (digitsValue ds acc, n + ds.length, rest) := by
  induction ds generalizing acc n with
  | nil =>
    cases rest with
    | nil => simp [scanDigits, digitsValue]
    | cons c r =>
      simp only [List.nil_append, scanDigits, hr c r rfl, digitsValue, List.foldl_nil,
        List.length_nil, Nat.add_zero]
  | cons x xs ih =>
    have hx := decDigit_of_isDecDigit x (hd x (List.mem_cons_self _ _))
    rw [List.cons_append, scanDigits]
    simp only [hx]
    rw [ih _ _ (fun c hc => hd c (List.mem_cons_of_mem _ hc))]
    simp only [digitsValue, List.foldl_cons, List.length_cons]
    congr 2
    omega

theorem scanSign_signText (sg : Option Bool) (r : List Char)
    (hr : ∀ c t, r = c :: t → c ≠ '-' ∧ c ≠ '+') :
    scanSign (signText sg ++ r) = (sg == some true, r) := by
  cases sg with
  | none =>
    cases r with
    | nil => rfl
    | cons c t =>
      obtain ⟨h1, h2⟩ := hr c t rfl
      simp only [signText, List.nil_append]
      unfold scanSign
      split
      · rename_i heq; cases heq; exact absurd rfl h1
      · rename_i heq; cases heq; exact absurd rfl h2
      · rfl
  | some b =>
    cases b <;> rfl

theorem digitsValue_append (a b : List Char) (acc : Nat) :
    digitsValue (a ++ b) acc = digitsValue b (digitsValue a acc) := by
  simp [digitsValue, List.foldl_append]

/-- The mantissa scanner on the digits and point of a decimal field. -/
theorem scanMantissa_field (whole frac rest : List Char) (point : Bool)
    (hw : ∀ c ∈ whole, isDecDigit c) (hf : ∀ c ∈ frac, isDecDigit c)
    (hp : point = false → frac = [])
    (hr : ∀ c r, rest = c :: r → decDigit c = none ∧ c ≠ '.') :
    scanMantissa decDigit 10 (whole ++ ((if point then '.' :: frac else []) ++ rest)) =
      (digitsValue (whole ++ frac) 0, whole.length + frac.length, frac.length, rest) := by
  unfold scanMantissa
  cases point with
  | true =>
    simp only [if_true, List.cons_append]
    rw [scanDigits_run whole ('.' :: (frac ++ rest)) 0 0 hw
      (fun c r h => by cases h; decide)]
    simp only
    rw [scanDigits_run frac rest _ 0 hf (fun c r h => (hr c r h).1)]
    simp only [digitsValue_append, Nat.zero_add]
  | false =>
    have hfr := hp rfl
    subst hfr
    simp only [Bool.false_eq_true, if_false, List.nil_append, List.append_nil,
      List.length_nil, Nat.add_zero]
    rw [scanDigits_run whole rest 0 0 hw (fun c r h => (hr c r h).1)]
    simp only [Nat.zero_add]
    cases rest with
    | nil => rfl
    | cons c r =>
      have hc := (hr c r rfl).2
      split
      · rename_i heq; cases heq; exact absurd rfl hc
      · rfl

/-- The exponent scanner on the exponent part of a decimal field, followed by a comma. -/
theorem scanExponent_field (ex : Option (Char × Option Bool × List Char)) (tail : List Char)
    (h : ∀ m sg ds, ex = some (m, sg, ds) →
      (m = 'e' ∨ m = 'E') ∧ ds ≠ [] ∧ ∀ c ∈ ds, isDecDigit c) :
    scanExponent 'e' 'E' (exponentText ex ++ ',' :: tail) =
      some (exponentValue ex, ',' :: tail) := by
  cases ex with
  | none =>
    simp only [exponentText, List.nil_append, scanExponent, exponentValue]
    have : ¬ (',' = 'e' ∨ ',' = 'E') := by decide
    simp only [this, if_false]
  | some e =>
    obtain ⟨m, sg, ds⟩ := e
    obtain ⟨hm, hne, hds⟩ := h m sg ds rfl
    simp only [exponentText, List.cons_append, scanExponent, hm, if_true]
    have hsign : scanSign (signText sg ++ (ds ++ ',' :: tail)) =
        (sg == some true, ds ++ ',' :: tail) := by
      apply scanSign_signText
      intro c t hct
      cases ds with
      | nil => exact absurd rfl hne
      | cons x xs =>
        simp only [List.cons_append, List.cons.injEq] at hct
        have hx := hds x (List.mem_cons_self _ _)
        rw [hct.1] at hx
        constructor
        · intro hc; subst hc; revert hx; decide
        · intro hc; subst hc; revert hx; decide
    rw [List.append_assoc, hsign]
    simp only
    rw [scanDigits_run ds (',' :: tail) 0 0 hds (fun c r h => by cases h; decide)]
    have hlen : 0 + ds.length ≠ 0 := by
      cases ds with
      | nil => exact absurd rfl hne
      | cons x xs => simp
    simp only [hlen, if_false]
    cases sg with
    | none => rfl
    | some b => cases b <;> rfl

/-- The `%f` conversion takes the decimal route when the input after the sign does not
start with `0x` and holds at least one mantissa digit. -/
theorem scanFloat_decimal (cs r r2 r3 : List Char) (neg : Bool) (m n k : Nat) (e : Int)
    (hs : scanSign cs = (neg, r)) (hm : scanMantissa decDigit 10 r = (m, n, k, r2))
    (hn : n ≠ 0) (hx : ∀ x r1, r = '0' :: x :: r1 → x ≠ 'x' ∧ x ≠ 'X')
    (he : scanExponent 'e' 'E' r2 = some (e, r3)) :
    scanFloat cs = some (FloatVal.finite (scaled neg m 10 (e - (k : Int))), r3) := by
  unfold scanFloat
  rw [hs]
  dsimp only
  split
  · rename_i x r1
    have hxx := hx x r1 rfl
    have hc : ¬ (x = 'x' ∨ x = 'X') := by
      rintro (h | h)
      · exact hxx.1 h
      · exact hxx.2 h
    simp only [hc, if_false, hm, hn, he]
  · simp only [hm, hn, if_false, he]

theorem isDecDigit_not (c : Char) (h : isDecDigit c) :
    c ≠ '-' ∧ c ≠ '+' ∧ c ≠ 'x' ∧ c ≠ 'X' ∧ c ≠ '$' ∧ c ≠ '#' ∧ c ≠ NUL ∧ c ≠ ',' ∧
    isSpaceC c = false := by
  unfold isDecDigit at h
  obtain ⟨h1, h2⟩ := h
  have h1 : (48 : Nat) ≤ c.toNat := h1
  have h2 : c.toNat ≤ 57 := h2
  have key : ∀ k : Char, (k.toNat < 48 ∨ 57 < k.toNat) → c ≠ k := by
    intro k hk hck
    subst hck
    omega
  refine ⟨key _ (by decide), key _ (by decide), key _ (by decide), key _ (by decide),
    key _ (by decide), key _ (by decide), key _ (by decide), key _ (by decide), ?_⟩
  unfold isSpaceC
  simp only [Bool.or_eq_false_iff, beq_eq_false_iff_ne, ne_eq]
  refine ⟨⟨⟨⟨⟨key _ (by decide), key _ (by decide)⟩, key _ (by decide)⟩,
    key _ (by decide)⟩, by omega⟩, by omega⟩

theorem isFieldChar_not (c : Char) (h : isFieldChar c) :
    c ≠ 'x' ∧ c ≠ 'X' ∧ c ≠ '$' ∧ c ≠ '#' ∧ c ≠ NUL ∧ c ≠ ',' ∧ isSpaceC c = false := by
  rcases h with h | h | h | h | h | h
  · obtain ⟨-, -, a, b, c1, d, e, f, g⟩ := isDecDigit_not c h
    exact ⟨a, b, c1, d, e, f, g⟩
  all_goals
    subst h
    decide

theorem signText_fieldChars (sg : Option Bool) : ∀ c ∈ signText sg, isFieldChar c := by
  cases sg with
  | none => intro c hc; simp [signText] at hc
  | some b =>
    cases b
    · intro c hc
      simp only [signText, List.mem_singleton] at hc
      subst hc
      decide
    · intro c hc
      simp only [signText, List.mem_singleton] at hc
      subst hc
      decide

/-- A well-formed decimal field consists of digits, `.`, `e`, `E`, `+` and `-` only. -/
theorem text_fieldChars (f : DecimalField) (hwf : f.WellFormed) :
    ∀ c ∈ f.text, isFieldChar c := by
  obtain ⟨hw, hf, hp, hlen, hex⟩ := hwf
  intro c hc
  unfold DecimalField.text at hc
  simp only [List.mem_append] at hc
  rcases hc with hc | hc | hc | hc
  · exact signText_fieldChars _ c hc
  · exact Or.inl (hw c hc)
  · split_ifs at hc
    · simp only [List.mem_cons] at hc
      rcases hc with hc | hc
      · subst hc; decide
      · exact Or.inl (hf c hc)
    · simp at hc
  · cases hx : f.exponent with
    | none => rw [hx] at hc; simp [exponentText] at hc
    | some e =>
      obtain ⟨m, sg, ds⟩ := e
      obtain ⟨hm, -, hds⟩ := hex m sg ds hx
      rw [hx] at hc
      simp only [exponentText, List.mem_cons, List.mem_append] at hc
      rcases hc with hc | hc | hc
      · subst hc
        rcases hm with hm | hm <;> subst hm <;> decide
      · exact signText_fieldChars _ c hc
      · exact Or.inl (hds c hc)

theorem second_mem (b tail : List Char) (a x : Char) (r1 : List Char) (hb : b ≠ [])
    (h : b ++ ',' :: tail = a :: x :: r1) : x ∈ b ++ [','] := by
  cases b with
  | nil => exact absurd rfl hb
  | cons y ys =>
    cases ys with
    | nil =>
      simp only [List.cons_append, List.nil_append, List.cons.injEq] at h
      simp [← h.2.1]
    | cons z zs =>
      simp only [List.cons_append, List.cons.injEq] at h
      simp [← h.2.1]

/-- The `%f` conversion on a well-formed decimal field followed by a comma yields the
value of the field and stops before the comma. -/
theorem scanFloat_field (f : DecimalField) (hwf : f.WellFormed) (tail : List Char) :
    scanFloat (f.text ++ ',' :: tail) = some (f.value, ',' :: tail) := by
  have hchars := text_fieldChars f hwf
  obtain ⟨hw, hf, hp, hlen, hex⟩ := hwf
  have hrest : ∀ c r, exponentText f.exponent ++ ',' :: tail = c :: r →
      decDigit c = none ∧ c ≠ '.' := by
    intro c r h
    cases hx : f.exponent with
    | none =>
      rw [hx] at h
      simp only [exponentText, List.nil_append, List.cons.injEq] at h
      rw [← h.1]
      decide
    | some e =>
      obtain ⟨m, sg, ds⟩ := e
      obtain ⟨hm, -, -⟩ := hex m sg ds hx
      rw [hx] at h
      simp only [exponentText, List.cons_append, List.cons.injEq] at h
      rw [← h.1]
      rcases hm with hm | hm <;> subst hm <;> decide
  have hm := scanMantissa_field f.whole f.frac (exponentText f.exponent ++ ',' :: tail)
    f.point hw hf hp hrest
  have hhead : ∀ c t, f.whole ++ ((if f.point then '.' :: f.frac else []) ++
      (exponentText f.exponent ++ ',' :: tail)) = c :: t → isDecDigit c ∨ c = '.' := by
    intro c t h
    cases hwh : f.whole with
    | nil =>
      rw [hwh] at h
      cases hpt : f.point with
      | true =>
        rw [hpt] at h
        simp only [if_true, List.nil_append, List.cons_append, List.cons.injEq] at h
        exact Or.inr h.1.symm
      | false =>
        have := hp hpt
        rw [hwh, this] at hlen
        simp at hlen
    | cons x xs =>
      rw [hwh] at h
      simp only [List.cons_append, List.cons.injEq] at h
      rw [← h.1]
      exact Or.inl (hw x (by rw [hwh]; exact List.mem_cons_self _ _))
  have hs := scanSign_signText f.sign (f.whole ++ ((if f.point then '.' :: f.frac else []) ++
      (exponentText f.exponent ++ ',' :: tail))) (by
    intro c t h
    rcases hhead c t h with hd | hd
    · have := isDecDigit_not c hd
      exact ⟨this.1, this.2.1⟩
    · subst hd; decide)
  have he := scanExponent_field f.exponent tail hex
  have htext : f.text ++ ',' :: tail = signText f.sign ++ (f.whole ++
      ((if f.point then '.' :: f.frac else []) ++ (exponentText f.exponent ++ ',' :: tail))) := by
    unfold DecimalField.text
    simp only [List.append_assoc]
  rw [htext]
  have hn : f.whole.length + f.frac.length ≠ 0 := by omega
  have hx : ∀ x r1, f.whole ++ ((if f.point then '.' :: f.frac else []) ++
      (exponentText f.exponent ++ ',' :: tail)) = '0' :: x :: r1 → x ≠ 'x' ∧ x ≠ 'X' := by
    intro x r1 h
    have h2 : (f.whole ++ ((if f.point then '.' :: f.frac else []) ++
        exponentText f.exponent)) ++ ',' :: tail = '0' :: x :: r1 := by
      rw [← h]
      simp only [List.append_assoc]
    have hne : f.whole ++ ((if f.point then '.' :: f.frac else []) ++
        exponentText f.exponent) ≠ [] := by
      intro hnil
      rw [hnil] at h2
      have hh := hhead _ _ h
      simp only [List.nil_append, List.cons.injEq] at h2
      rw [← h2.1] at hh
      revert hh
      decide
    have hmem := second_mem _ tail '0' x r1 hne h2
    simp only [List.mem_append, List.mem_singleton] at hmem
    rcases hmem with hmem | hmem
    · have hc := isFieldChar_not x (hchars x (by
        unfold DecimalField.text
        exact List.mem_append_right _ (by simpa using hmem)))
      exact ⟨hc.1, hc.2.1⟩
    · subst hmem; decide
  rw [scanFloat_decimal _ _ _ _ _ _ _ _ _ hs hm hn hx he]
  rfl

theorem text_ne_nil (f : DecimalField) (hwf : f.WellFormed) : f.text ≠ [] := by
  obtain ⟨-, -, hp, hlen, -⟩ := hwf
  intro h
  unfold DecimalField.text at h
  simp only [List.append_eq_nil] at h
  obtain ⟨-, hw, hpt, -⟩ := h
  cases hpoint : f.point with
  | true => rw [hpoint] at hpt; simp at hpt
  | false =>
    have := hp hpoint
    rw [hw, this] at hlen
    simp at hlen

/-- One `%f,` of the format consumes one well-formed field and its comma. -/
theorem scanDirectives_field (f : DecimalField) (hwf : f.WellFormed) (ds : List Directive)
    (tail : List Char) (acc : List FloatVal) :
    scanDirectives (Directive.float :: Directive.lit ',' :: ds) (f.text ++ ',' :: tail) acc =
      scanDirectives ds tail (acc ++ [f.value]) := by
  have hsc := scanFloat_field f hwf tail
  have hchars := text_fieldChars f hwf
  cases htext : f.text with
  | nil => exact absurd htext (text_ne_nil f hwf)
  | cons c t =>
    rw [htext] at hsc hchars
    have hsp := (isFieldChar_not c (hchars c (List.mem_cons_self _ _))).2.2.2.2.2.2
    rw [scanDirectives]
    simp only [List.cons_append, List.dropWhile_cons, hsp, Bool.false_eq_true, if_false]
    simp only [List.cons_append] at hsc
    rw [hsc]
    simp only
    rw [scanDirectives]
    simp only [if_true]

/-- The `sscanf` call of `ParseIMUData` converts all seven fields of a frame of seven
well-formed decimal fields. -/
theorem sscanf_frame (f1 f2 f3 f4 f5 f6 f7 : DecimalField)
    (hw : ∀ f ∈ [f1, f2, f3, f4, f5, f6, f7], f.WellFormed) :
    sscanf (frameOf [f1, f2, f3, f4, f5, f6, f7]) "$,%f,%f,%f,%f,%f,%f,%f,#" =
      (7, [f1.value, f2.value, f3.value, f4.value, f5.value, f6.value, f7.value]) := by
  have hfmt : parseFormat "$,%f,%f,%f,%f,%f,%f,%f,#".toList =
      [Directive.lit '$', Directive.lit ',',
        Directive.float, Directive.lit ',', Directive.float, Directive.lit ',',
        Directive.float, Directive.lit ',', Directive.float, Directive.lit ',',
        Directive.float, Directive.lit ',', Directive.float, Directive.lit ',',
        Directive.float, Directive.lit ',', Directive.lit '#'] := by decide
  have hframe : frameOf [f1, f2, f3, f4, f5, f6, f7] =
      '$' :: ',' :: (f1.text ++ ',' :: (f2.text ++ ',' :: (f3.text ++ ',' :: (f4.text ++ ',' ::
        (f5.text ++ ',' :: (f6.text ++ ',' :: (f7.text ++ ',' :: ['#']))))))) := by
    simp [frameOf]
  unfold sscanf
  rw [hfmt, hframe]
  rw [scanDirectives]
  simp only [if_true]
  rw [scanDirectives]
  simp only [if_true]
  rw [scanDirectives_field f1 (hw f1 (by simp)), scanDirectives_field f2 (hw f2 (by simp)),
    scanDirectives_field f3 (hw f3 (by simp)), scanDirectives_field f4 (hw f4 (by simp)),
    scanDirectives_field f5 (hw f5 (by simp)), scanDirectives_field f6 (hw f6 (by simp)),
    scanDirectives_field f7 (hw f7 (by simp))]
  rw [scanDirectives]
  simp only [if_true]
  rw [scanDirectives]
  simp

theorem cString_of_no_nul (l : List Char) (h : ∀ c ∈ l, c ≠ NUL) : cString l = l := by
  unfold cString
  rw [List.takeWhile_eq_self_iff]
  intro c hc
  simpa using h c hc

/-- The characters between `$` and `#` of a frame of well-formed fields. -/
theorem frame_body_chars (fs : List DecimalField) (hw : ∀ f ∈ fs, f.WellFormed) :
    ∀ c ∈ (fs.map (fun f => f.text ++ [','])).flatten, isFieldChar c ∨ c = ',' := by
  intro c hc
  simp only [List.mem_flatten, List.mem_map] at hc
  obtain ⟨l, ⟨f, hf, rfl⟩, hcl⟩ := hc
  simp only [List.mem_append, List.mem_singleton] at hcl
  rcases hcl with hcl | hcl
  · exact Or.inl (text_fieldChars f (hw f hf) c hcl)
  · exact Or.inr hcl

theorem sampleField_wellFormed : sampleField.WellFormed := by
  refine ⟨by decide, by decide, by decide, by decide, ?_⟩
  intro m sg ds h
  simp only [sampleField, Option.some.injEq, Prod.mk.injEq] at h
  obtain ⟨rfl, rfl, rfl⟩ := h
  decide

/-- C11: in every decoder state reachable from initialisation by `FSWV1_ReadUART` calls on
any byte sequences, feeding a frame `$,f1,f2,f3,f4,f5,f6,f7,#` of seven well-formed decimal
fields, at most 255 bytes long, makes `FSWV1_ReadUART` return `CFE_SUCCESS` with the
seven values of the fields and the current time in the caller's structure; the decoder is
idle afterwards, what follows the frame is left unread, no event is raised. -/
theorem C11_no_permanent_lockup (s : UartState) (hs : Reachable s)
    (f1 f2 f3 f4 f5 f6 f7 : DecimalField)
    (hw : ∀ f ∈ [f1, f2, f3, f4, f5, f6, f7], f.WellFormed)
    (hlen : (frameOf [f1, f2, f3, f4, f5, f6, f7]).length ≤ 255)
    (d : FSWV1_IMUData_t) (rest : List Char) (endRc : Int) (now : Nat) :
    (FSWV1_ReadUART s (some d) (frameOf [f1, f2, f3, f4, f5, f6, f7] ++ rest) endRc now).status
      = Status.CFE_SUCCESS ∧
    (FSWV1_ReadUART s (some d) (frameOf [f1, f2, f3, f4, f5, f6, f7] ++ rest) endRc now).data
      = some ⟨f1.value, f2.value, f3.value, f4.value, f5.value, f6.value, f7.value, now⟩ ∧
    (FSWV1_ReadUART s (some d) (frameOf [f1, f2, f3, f4, f5, f6, f7] ++ rest) endRc
      now).state.buffer_pos = 0 ∧
    (FSWV1_ReadUART s (some d) (frameOf [f1, f2, f3, f4, f5, f6, f7] ++ rest) endRc now).unread
      = rest ∧
    (FSWV1_ReadUART s (some d) (frameOf [f1, f2, f3, f4, f5, f6, f7] ++ rest) endRc now).events
      = [] := by
  obtain ⟨hinit, hfd, hbuf, -⟩ := reachable_valid s hs
  have hchars := frame_body_chars [f1, f2, f3, f4, f5, f6, f7] hw
  have hframe : frameOf [f1, f2, f3, f4, f5, f6, f7] ++ rest =
      '$' :: ((',' :: ([f1, f2, f3, f4, f5, f6, f7].map (fun f => f.text ++ [','])).flatten) ++
        '#' :: rest) := by
    simp [frameOf]
  have hframe2 : '$' :: ((',' :: ([f1, f2, f3, f4, f5, f6, f7].map
      (fun f => f.text ++ [','])).flatten) ++ ['#']) = frameOf [f1, f2, f3, f4, f5, f6, f7] := by
    simp [frameOf]
  have hb : noMarker (',' :: ([f1, f2, f3, f4, f5, f6, f7].map
      (fun f => f.text ++ [','])).flatten) := by
    intro c hc
    rcases List.mem_cons.mp hc with hc | hc
    · subst hc; decide
    · rcases hchars c hc with h | h
      · have := isFieldChar_not c h
        exact ⟨this.2.2.1, this.2.2.2.1⟩
      · subst h; decide
  have hfit : (',' :: ([f1, f2, f3, f4, f5, f6, f7].map
      (fun f => f.text ++ [','])).flatten).length ≤ 253 := by
    rw [← hframe2] at hlen
    simp only [List.length_cons, List.length_append, List.length_nil] at hlen ⊢
    omega
  have hnul : ∀ c ∈ frameOf [f1, f2, f3, f4, f5, f6, f7], c ≠ NUL := by
    intro c hc
    rw [← hframe2] at hc
    simp only [List.mem_cons, List.mem_append, List.mem_singleton, List.not_mem_nil,
      or_false] at hc
    rcases hc with hc | (hc | hc) | hc
    · subst hc; decide
    · subst hc; decide
    · rcases hchars c hc with h | h
      · exact (isFieldChar_not c h).2.2.2.2.1
      · subst h; decide
    · subst hc; decide
  have hparse : ParseIMUData (cString ('$' :: ((',' :: ([f1, f2, f3, f4, f5, f6, f7].map
      (fun f => f.text ++ [','])).flatten) ++ ['#']))) d now =
      (Status.CFE_SUCCESS,
        ⟨f1.value, f2.value, f3.value, f4.value, f5.value, f6.value, f7.value, now⟩) := by
    rw [hframe2, cString_of_no_nul _ hnul]
    unfold ParseIMUData
    rw [sscanf_frame f1 f2 f3 f4 f5 f6 f7 hw]
    simp [storeFields, storeField]
  rw [readUART_ready s d _ endRc now hinit hfd, hframe,
    readLoop_frame now endRc _ rest s d hb hfit hbuf, hparse]
  simp

theorem C11_no_permanent_lockup_witness :
    (FSWV1_ReadUART uartFull (some imuZero) (frameOf [sampleField, sampleField, sampleField,
      sampleField, sampleField, sampleField, sampleField] ++ ['$']) 0 100).status
      = Status.CFE_SUCCESS ∧
    (FSWV1_ReadUART uartFull (some imuZero) (frameOf [sampleField, sampleField, sampleField,
      sampleField, sampleField, sampleField, sampleField] ++ ['$']) 0 100).data
      = some ⟨sampleField.value, sampleField.value, sampleField.value, sampleField.value,
          sampleField.value, sampleField.value, sampleField.value, 100⟩ ∧
    (FSWV1_ReadUART uartFull (some imuZero) (frameOf [sampleField, sampleField, sampleField,
      sampleField, sampleField, sampleField, sampleField] ++ ['$']) 0
      100).state.buffer_pos = 0 ∧
    (FSWV1_ReadUART uartFull (some imuZero) (frameOf [sampleField, sampleField, sampleField,
      sampleField, sampleField, sampleField, sampleField] ++ ['$']) 0 100).unread
      = ['$'] ∧
    (FSWV1_ReadUART uartFull (some imuZero) (frameOf [sampleField, sampleField, sampleField,
      sampleField, sampleField, sampleField, sampleField] ++ ['$']) 0 100).events
      = [] :=
  C11_no_permanent_lockup uartFull uartFull_reachable sampleField sampleField sampleField
    sampleField sampleField sampleField sampleField
    (by intro f hf; simp only [List.mem_cons, List.mem_singleton, List.not_mem_nil, or_false,
          or_self] at hf; subst hf; exact sampleField_wellFormed)
    (by decide) imuZero ['$'] 0 100

/-! ## The periodic reading -/

/-- The network sink does not change the global data. -/
theorem sendUDP_app (app : FSWV1_APP_Data_t) (ec : Nat) (a : Option FSWV1_SensorData_t)
    (b : Option FSWV1_IMUData_t) (rc : Int) : (FSWV1_SendUDP app ec a b rc).app = app := by
  unfold FSWV1_SendUDP
  split_ifs <;> rfl

/-- The serial sink does not change the global data. -/
theorem sendTelemetryUART_app (p : Platform) (app : FSWV1_APP_Data_t)
    (st : TelemetryUartState) (a : Option FSWV1_SensorData_t) (b : Option FSWV1_IMUData_t)
    (n : Int) : (FSWV1_SendTelemetryUART p app st a b n).app = app := by
  unfold FSWV1_SendTelemetryUART SendTelemetryBinary
  dsimp only
  split_ifs <;> rfl

/-- The two sinks leave the global data as the stamping left it. -/
theorem fanOut_app (p : Platform) (env : TickEnv) (w : World) :
    (Main_fanOut p env w).1.app = w.app := by
  unfold Main_fanOut
  simp only [sendTelemetryUART_app, sendUDP_app]

/-- What the sensor part does to the global data: nothing but `SensorData` and the two
BMP members of the record is touched, and those two only after a successful read. -/
theorem readSensor_frame (env : TickEnv) (w : World) :
    (Main_readSensor env w).1.app.SensorEnabled = w.app.SensorEnabled ∧
    (Main_readSensor env w).1.app.IMUEnabled = w.app.IMUEnabled ∧
    (Main_readSensor env w).1.app.CombinedTlmSeqCnt = w.app.CombinedTlmSeqCnt ∧
    (Main_readSensor env w).1.app.IMUData = w.app.IMUData ∧
    (Main_readSensor env w).1.uart = w.uart ∧
    (Main_readSensor env w).1.app.CombinedTlm.TelemetryHeader =
      w.app.CombinedTlm.TelemetryHeader ∧
    (Main_readSensor env w).1.app.CombinedTlm.Payload =
      (if w.app.SensorEnabled = true ∧
          (FSWV1_ReadSensor w.sensor (some w.app.SensorData) env.sensorReply
            env.sensorTime).status = Status.CFE_SUCCESS then
        { w.app.CombinedTlm.Payload with
          BMP_Temperature := ((FSWV1_ReadSensor w.sensor (some w.app.SensorData)
            env.sensorReply env.sensorTime).Data.getD w.app.SensorData).Temperature
          BMP_Pressure := ((FSWV1_ReadSensor w.sensor (some w.app.SensorData)
            env.sensorReply env.sensorTime).Data.getD w.app.SensorData).Pressure }
      else w.app.CombinedTlm.Payload) := by
  unfold Main_readSensor
  by_cases h1 : w.app.SensorEnabled = true
  · by_cases h2 : (FSWV1_ReadSensor w.sensor (some w.app.SensorData) env.sensorReply
        env.sensorTime).status = Status.CFE_SUCCESS
    · simp [h1, h2]
    · simp [h1, h2]
  · simp [h1]

/-- What the IMU part does to the global data: nothing but `IMUData` and the seven
inertial members of the record is touched, and those seven only after a successful
read. -/
theorem readIMU_frame (env : TickEnv) (w : World) :
    (Main_readIMU env w).1.app.SensorEnabled = w.app.SensorEnabled ∧
    (Main_readIMU env w).1.app.IMUEnabled = w.app.IMUEnabled ∧
    (Main_readIMU env w).1.app.CombinedTlmSeqCnt = w.app.CombinedTlmSeqCnt ∧
    (Main_readIMU env w).1.app.CombinedTlm.TelemetryHeader =
      w.app.CombinedTlm.TelemetryHeader ∧
    (Main_readIMU env w).1.app.CombinedTlm.Payload =
      (if w.app.IMUEnabled = true ∧
          (FSWV1_ReadUART w.uart (some w.app.IMUData) env.uartInput env.uartEndRc
            env.uartTime).status = Status.CFE_SUCCESS then
        { w.app.CombinedTlm.Payload with
          Accel_X := ((FSWV1_ReadUART w.uart (some w.app.IMUData) env.uartInput env.uartEndRc
            env.uartTime).data.getD w.app.IMUData).Accel_X
          Accel_Y := ((FSWV1_ReadUART w.uart (some w.app.IMUData) env.uartInput env.uartEndRc
            env.uartTime).data.getD w.app.IMUData).Accel_Y
          Accel_Z := ((FSWV1_ReadUART w.uart (some w.app.IMUData) env.uartInput env.uartEndRc
            env.uartTime).data.getD w.app.IMUData).Accel_Z
          Gyro_X := ((FSWV1_ReadUART w.uart (some w.app.IMUData) env.uartInput env.uartEndRc
            env.uartTime).data.getD w.app.IMUData).Gyro_X
          Gyro_Y := ((FSWV1_ReadUART w.uart (some w.app.IMUData) env.uartInput env.uartEndRc
            env.uartTime).data.getD w.app.IMUData).Gyro_Y
          Gyro_Z := ((FSWV1_ReadUART w.uart (some w.app.IMUData) env.uartInput env.uartEndRc
            env.uartTime).data.getD w.app.IMUData).Gyro_Z
          IMU_Temperature := ((FSWV1_ReadUART w.uart (some w.app.IMUData) env.uartInput
            env.uartEndRc env.uartTime).data.getD w.app.IMUData).Temperature }
      else w.app.CombinedTlm.Payload) := by
  unfold Main_readIMU
  by_cases h1 : w.app.IMUEnabled = true
  · by_cases h2 : (FSWV1_ReadUART w.uart (some w.app.IMUData) env.uartInput env.uartEndRc
        env.uartTime).status = Status.CFE_SUCCESS
    · simp [h1, h2]
    · simp [h1, h2]
  · simp [h1]

/-- One pass through the timeout branch, as far as the global data goes: the flags stay,
the sequence count goes up by one modulo 2^16, the record's header is what the two cFE
calls make of it, and the record's payload is that of the two reading parts with the
timestamp set. -/
theorem timeout_app (p : Platform) (env : TickEnv) (w : World) :
    (FSWV1_APP_Main_timeout p env w).1.app.SensorEnabled = w.app.SensorEnabled ∧
    (FSWV1_APP_Main_timeout p env w).1.app.IMUEnabled = w.app.IMUEnabled ∧
    (FSWV1_APP_Main_timeout p env w).1.app.CombinedTlmSeqCnt =
      (w.app.CombinedTlmSeqCnt + 1) % 65536 ∧
    (FSWV1_APP_Main_timeout p env w).1.app.CombinedTlm.TelemetryHeader =
      env.timeStampMsg (env.setSequenceCount w.app.CombinedTlm.TelemetryHeader
        w.app.CombinedTlmSeqCnt) ∧
    (FSWV1_APP_Main_timeout p env w).1.app.CombinedTlm.Payload =
      { (Main_readIMU env (Main_readSensor env w).1).1.app.CombinedTlm.Payload with
        Timestamp := env.recordTime } := by
  obtain ⟨a1, a2, a3, -, -, a4, -⟩ := readSensor_frame env w
  obtain ⟨b1, b2, b3, b4, -⟩ := readIMU_frame env (Main_readSensor env w).1
  unfold FSWV1_APP_Main_timeout
  simp only [fanOut_app]
  unfold Main_stampAndTransmit
  simp only [b1, b2, b3, b4, a1, a2, a3, a4, and_self]

theorem runTicks_nil (p : Platform) (w : World) : runTicks p [] w = w := rfl

theorem runTicks_cons (p : Platform) (env : TickEnv) (envs : List TickEnv) (w : World) :
    runTicks p (env :: envs) w = runTicks p envs (FSWV1_APP_Main_timeout p env w).1 := rfl

theorem runTicks_append (p : Platform) (l1 l2 : List TickEnv) (w : World) :
    runTicks p (l1 ++ l2) w = runTicks p l2 (runTicks p l1 w) := by
  unfold runTicks
  rw [List.foldl_append]

/-- The passes up to and including pass `k` are the passes before it followed by pass
`k`. -/
theorem runTicks_take_succ (p : Platform) (envs : List TickEnv) (w : World) (k : Nat)
    (hk : k < envs.length) :
    runTicks p (envs.take (k + 1)) w =
      (FSWV1_APP_Main_timeout p (envs.get ⟨k, hk⟩) (runTicks p (envs.take k) w)).1 := by
  rw [List.take_succ, runTicks_append]
  simp [List.getElem?_eq_getElem hk, runTicks]

/-- The sequence count after any passes. -/
theorem runTicks_seqCnt (p : Platform) (envs : List TickEnv) (w : World) :
    (runTicks p envs w).app.CombinedTlmSeqCnt =
      if envs.length = 0 then w.app.CombinedTlmSeqCnt
      else (w.app.CombinedTlmSeqCnt + envs.length) % 65536 := by
  induction envs generalizing w with
  | nil => rfl
  | cons env rest ih =>
    rw [runTicks_cons, ih]
    have h := (timeout_app p env w).2.2.1
    rw [h]
    simp only [List.length_cons, Nat.add_one_ne_zero, if_false]
    split_ifs with hr
    · rw [hr]
    · omega

/-- The pressure/temperature flag after any passes. -/
theorem runTicks_sensorEnabled (p : Platform) (envs : List TickEnv) (w : World) :
    (runTicks p envs w).app.SensorEnabled = w.app.SensorEnabled := by
  induction envs generalizing w with
  | nil => rfl
  | cons env rest ih => rw [runTicks_cons, ih, (timeout_app p env w).1]

/-- The two BMP members of the record after one pass. -/
theorem timeout_bmp (p : Platform) (env : TickEnv) (w : World)
    (h : ¬ (w.app.SensorEnabled = true ∧
      (FSWV1_ReadSensor w.sensor (some w.app.SensorData) env.sensorReply
        env.sensorTime).status = Status.CFE_SUCCESS)) :
    (FSWV1_APP_Main_timeout p env w).1.app.CombinedTlm.Payload.BMP_Temperature =
      w.app.CombinedTlm.Payload.BMP_Temperature ∧
    (FSWV1_APP_Main_timeout p env w).1.app.CombinedTlm.Payload.BMP_Pressure =
      w.app.CombinedTlm.Payload.BMP_Pressure := by
  have h1 := (timeout_app p env w).2.2.2.2
  have h2 := (readIMU_frame env (Main_readSensor env w).1).2.2.2.2
  have h3 := (readSensor_frame env w).2.2.2.2.2.2
  rw [if_neg h] at h3
  rw [h1, h2, h3]
  split_ifs <;> exact ⟨rfl, rfl⟩

/-- The seven inertial members of the record after one pass. -/
theorem timeout_imu (p : Platform) (env : TickEnv) (w : World)
    (h : ¬ (w.app.IMUEnabled = true ∧
      (FSWV1_ReadUART w.uart (some w.app.IMUData) env.uartInput env.uartEndRc
        env.uartTime).status = Status.CFE_SUCCESS)) :
    (FSWV1_APP_Main_timeout p env w).1.app.CombinedTlm.Payload.Accel_X =
      w.app.CombinedTlm.Payload.Accel_X ∧
    (FSWV1_APP_Main_timeout p env w).1.app.CombinedTlm.Payload.Accel_Y =
      w.app.CombinedTlm.Payload.Accel_Y ∧
    (FSWV1_APP_Main_timeout p env w).1.app.CombinedTlm.Payload.Accel_Z =
      w.app.CombinedTlm.Payload.Accel_Z ∧
    (FSWV1_APP_Main_timeout p env w).1.app.CombinedTlm.Payload.Gyro_X =
      w.app.CombinedTlm.Payload.Gyro_X ∧
    (FSWV1_APP_Main_timeout p env w).1.app.CombinedTlm.Payload.Gyro_Y =
      w.app.CombinedTlm.Payload.Gyro_Y ∧
    (FSWV1_APP_Main_timeout p env w).1.app.CombinedTlm.Payload.Gyro_Z =
      w.app.CombinedTlm.Payload.Gyro_Z ∧
    (FSWV1_APP_Main_timeout p env w).1.app.CombinedTlm.Payload.IMU_Temperature =
      w.app.CombinedTlm.Payload.IMU_Temperature := by
  have h1 := (timeout_app p env w).2.2.2.2
  have h2 := (readIMU_frame env (Main_readSensor env w).1).2.2.2.2
  obtain ⟨-, a2, -, a4, a5, -, h3⟩ := readSensor_frame env w
  rw [a2, a4, a5, if_neg h] at h2
  rw [h1, h2, h3]
  split_ifs <;> exact ⟨rfl, rfl, rfl, rfl, rfl, rfl, rfl⟩

/-- C16: with the pressure/temperature source disabled (`SensorEnabled = false`), after
any number of passes through the timeout branch, whatever the serial line, the clock,
the cFE calls and the two sinks deliver in each pass, the record's `BMP_Temperature` and
`BMP_Pressure` are what they were before, the source is still disabled, and the
sequence count has gone up by one (modulo 2^16) in every single pass, hence by the number
of passes in all. -/
theorem C16_disabled_source_fields_kept (p : Platform) (envs : List TickEnv) (w : World)
    (h : w.app.SensorEnabled = false) :
    (runTicks p envs w).app.CombinedTlm.Payload.BMP_Temperature =
      w.app.CombinedTlm.Payload.BMP_Temperature ∧
    (runTicks p envs w).app.CombinedTlm.Payload.BMP_Pressure =
      w.app.CombinedTlm.Payload.BMP_Pressure ∧
    (runTicks p envs w).app.SensorEnabled = false ∧
    (∀ k, k < envs.length →
      (runTicks p (envs.take (k + 1)) w).app.CombinedTlmSeqCnt =
        ((runTicks p (envs.take k) w).app.CombinedTlmSeqCnt + 1) % 65536) ∧
    (runTicks p envs w).app.CombinedTlmSeqCnt % 65536 =
      (w.app.CombinedTlmSeqCnt + envs.length) % 65536 := by
  refine ⟨?_, ?_, ?_, ?_, ?_⟩
  · induction envs generalizing w with
    | nil => rfl
    | cons env rest ih =>
      rw [runTicks_cons, ih _ (by rw [(timeout_app p env w).1]; exact h)]
      exact (timeout_bmp p env w (by simp [h])).1
  · induction envs generalizing w with
    | nil => rfl
    | cons env rest ih =>
      rw [runTicks_cons, ih _ (by rw [(timeout_app p env w).1]; exact h)]
      exact (timeout_bmp p env w (by simp [h])).2
  · rw [runTicks_sensorEnabled]; exact h
  · intro k hk
    rw [runTicks_take_succ p envs w k hk]
    exact (timeout_app p _ _).2.2.1
  · rw [runTicks_seqCnt]
    split_ifs with h0
    · rw [h0]; rfl
    · exact Nat.mod_mod _ _

theorem C16_disabled_source_fields_kept_witness :
    (runTicks samplePlatform [envQuiet 10, envQuiet 11, envQuiet 12]
      worldSensorOff).app.CombinedTlm.Payload.BMP_Temperature =
      worldSensorOff.app.CombinedTlm.Payload.BMP_Temperature ∧
    (runTicks samplePlatform [envQuiet 10, envQuiet 11, envQuiet 12]
      worldSensorOff).app.CombinedTlm.Payload.BMP_Pressure =
      worldSensorOff.app.CombinedTlm.Payload.BMP_Pressure ∧
    (runTicks samplePlatform [envQuiet 10, envQuiet 11, envQuiet 12]
      worldSensorOff).app.SensorEnabled = false ∧
    (∀ k, k < [envQuiet 10, envQuiet 11, envQuiet 12].length →
      (runTicks samplePlatform ([envQuiet 10, envQuiet 11, envQuiet 12].take (k + 1))
        worldSensorOff).app.CombinedTlmSeqCnt =
        ((runTicks samplePlatform ([envQuiet 10, envQuiet 11, envQuiet 12].take k)
          worldSensorOff).app.CombinedTlmSeqCnt + 1) % 65536) ∧
    (runTicks samplePlatform [envQuiet 10, envQuiet 11, envQuiet 12]
      worldSensorOff).app.CombinedTlmSeqCnt % 65536 =
      (worldSensorOff.app.CombinedTlmSeqCnt +
        [envQuiet 10, envQuiet 11, envQuiet 12].length) % 65536 :=
  C16_disabled_source_fields_kept samplePlatform [envQuiet 10, envQuiet 11, envQuiet 12]
    worldSensorOff rfl

/-- C17: in a pass through the timeout branch in which the pressure/temperature read is
not made or does not return `CFE_SUCCESS`, the record's `BMP_Temperature` and
`BMP_Pressure` keep the values they had before the pass; in a pass in which
`FSWV1_ReadUART` is not called or does not return `CFE_SUCCESS`, the record's seven
inertial members keep theirs.  Nothing is set to zero. -/
theorem C17_stale_values_kept (p : Platform) (env : TickEnv) (w : World) :
    (¬ (w.app.SensorEnabled = true ∧
        (FSWV1_ReadSensor w.sensor (some w.app.SensorData) env.sensorReply
          env.sensorTime).status = Status.CFE_SUCCESS) →
      (FSWV1_APP_Main_timeout p env w).1.app.CombinedTlm.Payload.BMP_Temperature =
        w.app.CombinedTlm.Payload.BMP_Temperature ∧
      (FSWV1_APP_Main_timeout p env w).1.app.CombinedTlm.Payload.BMP_Pressure =
        w.app.CombinedTlm.Payload.BMP_Pressure) ∧
    (¬ (w.app.IMUEnabled = true ∧
        (FSWV1_ReadUART w.uart (some w.app.IMUData) env.uartInput env.uartEndRc
          env.uartTime).status = Status.CFE_SUCCESS) →
      (FSWV1_APP_Main_timeout p env w).1.app.CombinedTlm.Payload.Accel_X =
        w.app.CombinedTlm.Payload.Accel_X ∧
      (FSWV1_APP_Main_timeout p env w).1.app.CombinedTlm.Payload.Accel_Y =
        w.app.CombinedTlm.Payload.Accel_Y ∧
      (FSWV1_APP_Main_timeout p env w).1.app.CombinedTlm.Payload.Accel_Z =
        w.app.CombinedTlm.Payload.Accel_Z ∧
      (FSWV1_APP_Main_timeout p env w).1.app.CombinedTlm.Payload.Gyro_X =
        w.app.CombinedTlm.Payload.Gyro_X ∧
      (FSWV1_APP_Main_timeout p env w).1.app.CombinedTlm.Payload.Gyro_Y =
        w.app.CombinedTlm.Payload.Gyro_Y ∧
      (FSWV1_APP_Main_timeout p env w).1.app.CombinedTlm.Payload.Gyro_Z =
        w.app.CombinedTlm.Payload.Gyro_Z ∧
      (FSWV1_APP_Main_timeout p env w).1.app.CombinedTlm.Payload.IMU_Temperature =
        w.app.CombinedTlm.Payload.IMU_Temperature) :=
  ⟨timeout_bmp p env w, timeout_imu p env w⟩

/-- C17 at a pass in which both sources are enabled, the bus does not answer and the
serial line holds a frame with two fields only. -/
theorem C17_stale_values_kept_witness :
    ((FSWV1_ReadSensor worldStart.sensor (some worldStart.app.SensorData) none 7).status ≠
        Status.CFE_SUCCESS ∧
      (FSWV1_ReadUART worldStart.uart (some worldStart.app.IMUData) "$,1.0,2.0,#".toList 0
        7).status ≠ Status.CFE_SUCCESS) ∧
    ((FSWV1_APP_Main_timeout samplePlatform
        { envQuiet 7 with uartInput := "$,1.0,2.0,#".toList }
        worldStart).1.app.CombinedTlm.Payload.BMP_Temperature =
        worldStart.app.CombinedTlm.Payload.BMP_Temperature ∧
      (FSWV1_APP_Main_timeout samplePlatform
        { envQuiet 7 with uartInput := "$,1.0,2.0,#".toList }
        worldStart).1.app.CombinedTlm.Payload.BMP_Pressure =
        worldStart.app.CombinedTlm.Payload.BMP_Pressure) ∧
    (FSWV1_APP_Main_timeout samplePlatform
        { envQuiet 7 with uartInput := "$,1.0,2.0,#".toList }
        worldStart).1.app.CombinedTlm.Payload.Accel_X =
        worldStart.app.CombinedTlm.Payload.Accel_X :=
  ⟨⟨by decide, by decide⟩,
    (C17_stale_values_kept samplePlatform
      { envQuiet 7 with uartInput := "$,1.0,2.0,#".toList } worldStart).1
      (fun h => absurd h.2 (by decide)),
    ((C17_stale_values_kept samplePlatform
      { envQuiet 7 with uartInput := "$,1.0,2.0,#".toList } worldStart).2
      (fun h => absurd h.2 (by decide))).1⟩

/-- The calls of the sensor part, in order. -/
theorem readSensor_calls (env : TickEnv) (w : World) :
    (Main_readSensor env w).2 =
      if w.app.SensorEnabled = true then
        (FSWV1_ReadSensor w.sensor (some w.app.SensorData) env.sensorReply
          env.sensorTime).events.map Effect.CFE_EVS_SendEvent ++
        [if (FSWV1_ReadSensor w.sensor (some w.app.SensorData) env.sensorReply
            env.sensorTime).status = Status.CFE_SUCCESS
          then Effect.OS_printf PrintSite.bmpData
          else Effect.CFE_EVS_SendEvent EventId.FSWV1_APP_SENSOR_ERR_EID]
      else [] := by
  unfold Main_readSensor
  by_cases h1 : w.app.SensorEnabled = true
  · by_cases h2 : (FSWV1_ReadSensor w.sensor (some w.app.SensorData) env.sensorReply
        env.sensorTime).status = Status.CFE_SUCCESS
    · simp [h1, h2]
    · simp [h1, h2]
  · simp [h1]

/-- The calls of the IMU part, in order. -/
theorem readIMU_calls (env : TickEnv) (w : World) :
    (Main_readIMU env w).2 =
      if w.app.IMUEnabled = true then
        (FSWV1_ReadUART w.uart (some w.app.IMUData) env.uartInput env.uartEndRc
          env.uartTime).events.map Effect.CFE_EVS_SendEvent ++
        (if (FSWV1_ReadUART w.uart (some w.app.IMUData) env.uartInput env.uartEndRc
            env.uartTime).status = Status.CFE_SUCCESS
          then [Effect.OS_printf PrintSite.imuData] else [])
      else [] := by
  unfold Main_readIMU
  by_cases h1 : w.app.IMUEnabled = true
  · by_cases h2 : (FSWV1_ReadUART w.uart (some w.app.IMUData) env.uartInput env.uartEndRc
        env.uartTime).status = Status.CFE_SUCCESS
    · simp [h1, h2]
    · simp [h1, h2]
  · simp [h1]

/-- The calls of the sensor part are events and console output. -/
theorem readSensor_effects (env : TickEnv) (w : World) :
    (Main_readSensor env w).2.filter isSetSequenceCount = [] ∧
    (Main_readSensor env w).2.filterMap transmitted = [] := by
  rw [readSensor_calls]
  constructor
  · rw [List.filter_eq_nil_iff]
    intro e he
    split_ifs at he
    · simp only [List.mem_append, List.mem_map, List.mem_singleton] at he
      rcases he with ⟨id, -, rfl⟩ | rfl <;> simp [isSetSequenceCount]
    · simp only [List.mem_append, List.mem_map, List.mem_singleton] at he
      rcases he with ⟨id, -, rfl⟩ | rfl <;> simp [isSetSequenceCount]
    · simp at he
  · rw [List.filterMap_eq_nil_iff]
    intro e he
    split_ifs at he
    · simp only [List.mem_append, List.mem_map, List.mem_singleton] at he
      rcases he with ⟨id, -, rfl⟩ | rfl <;> rfl
    · simp only [List.mem_append, List.mem_map, List.mem_singleton] at he
      rcases he with ⟨id, -, rfl⟩ | rfl <;> rfl
    · simp at he

/-- The calls of the IMU part are events and console output. -/
theorem readIMU_effects (env : TickEnv) (w : World) :
    (Main_readIMU env w).2.filter isSetSequenceCount = [] ∧
    (Main_readIMU env w).2.filterMap transmitted = [] := by
  rw [readIMU_calls]
  constructor
  · rw [List.filter_eq_nil_iff]
    intro e he
    split_ifs at he
    · simp only [List.mem_append, List.mem_map, List.mem_singleton] at he
      rcases he with ⟨id, -, rfl⟩ | rfl <;> simp [isSetSequenceCount]
    · simp only [List.mem_append, List.mem_map, List.not_mem_nil, or_false] at he
      rcases he with ⟨id, -, rfl⟩
      simp [isSetSequenceCount]
    · simp at he
  · rw [List.filterMap_eq_nil_iff]
    intro e he
    split_ifs at he
    · simp only [List.mem_append, List.mem_map, List.mem_singleton] at he
      rcases he with ⟨id, -, rfl⟩ | rfl <;> rfl
    · simp only [List.mem_append, List.mem_map, List.not_mem_nil, or_false] at he
      rcases he with ⟨id, -, rfl⟩
      rfl
    · simp at he

/-- The calls of the two sinks: no `CFE_MSG_SetSequenceCount`, and the only structure
sent off whole is the stored record. -/
theorem fanOut_effects (p : Platform) (env : TickEnv) (w : World) :
    (Main_fanOut p env w).2.filter isSetSequenceCount = [] ∧
    ∀ packet ∈ (Main_fanOut p env w).2.filterMap transmitted, packet = w.app.CombinedTlm := by
  have hu : ∀ e ∈ (FSWV1_SendUDP w.app w.udp_error_count (some w.app.SensorData)
      (some w.app.IMUData) env.udpSendRc).effects,
      isSetSequenceCount e = false ∧ ∀ q, transmitted e = some q → q = w.app.CombinedTlm := by
    intro e he
    unfold FSWV1_SendUDP at he
    split_ifs at he
    all_goals
      simp only [List.mem_cons, List.mem_singleton, List.not_mem_nil, or_false] at he
    · rcases he with rfl | rfl
      · exact ⟨rfl, fun q hq => by cases hq; rfl⟩
      · exact ⟨rfl, fun q hq => by cases hq⟩
    · subst he
      exact ⟨rfl, fun q hq => by cases hq; rfl⟩
    · subst he
      exact ⟨rfl, fun q hq => by cases hq; rfl⟩
  have ht : ∀ st a b, ∀ e ∈ (FSWV1_SendTelemetryUART p w.app st a b env.bytesWritten).effects,
      isSetSequenceCount e = false ∧ transmitted e = none := by
    intro st a b e he
    unfold FSWV1_SendTelemetryUART SendTelemetryBinary at he
    dsimp only at he
    split_ifs at he
    all_goals
      simp only [List.mem_cons, List.mem_singleton, List.not_mem_nil, or_false] at he
    · rcases he with rfl | rfl <;> exact ⟨rfl, rfl⟩
    · subst he; exact ⟨rfl, rfl⟩
    · subst he; exact ⟨rfl, rfl⟩
  unfold Main_fanOut
  simp only [sendUDP_app]
  constructor
  · rw [List.filter_eq_nil_iff]
    intro e he
    rcases List.mem_append.mp he with he | he
    · simp [(hu e he).1]
    · simp [(ht _ _ _ e he).1]
  · intro packet hp
    rw [List.mem_filterMap] at hp
    obtain ⟨e, he, hq⟩ := hp
    rcases List.mem_append.mp he with he | he
    · exact (hu e he).2 packet hq
    · rw [(ht _ _ _ e he).2] at hq
      cases hq

/-- The calls of one pass that concern the sequence count and the sending of the whole
record. -/
theorem timeout_effects (p : Platform) (env : TickEnv) (w : World) :
    (FSWV1_APP_Main_timeout p env w).2.filter isSetSequenceCount =
      [Effect.CFE_MSG_SetSequenceCount w.app.CombinedTlmSeqCnt] ∧
    ∀ packet ∈ (FSWV1_APP_Main_timeout p env w).2.filterMap transmitted,
      packet = (FSWV1_APP_Main_timeout p env w).1.app.CombinedTlm := by
  obtain ⟨a1, a2, a3, -, -, a4, -⟩ := readSensor_frame env w
  obtain ⟨b1, b2, b3, b4, -⟩ := readIMU_frame env (Main_readSensor env w).1
  have hs := readSensor_effects env w
  have hi := readIMU_effects env (Main_readSensor env w).1
  have hf := fanOut_effects p env
    (Main_stampAndTransmit env (Main_readIMU env (Main_readSensor env w).1).1).1
  have happ : (FSWV1_APP_Main_timeout p env w).1.app =
      (Main_stampAndTransmit env (Main_readIMU env (Main_readSensor env w).1).1).1.app := by
    unfold FSWV1_APP_Main_timeout
    simp only [fanOut_app]
  rw [happ]
  unfold FSWV1_APP_Main_timeout
  dsimp only
  constructor
  · rw [List.filter_append, List.filter_append, List.filter_append, hs.1, hi.1, hf.1]
    unfold Main_stampAndTransmit
    simp only [List.nil_append, List.append_nil, b3, a3]
    rfl
  · intro packet hp
    rw [List.filterMap_append, List.filterMap_append, List.filterMap_append, hs.2, hi.2] at hp
    simp only [List.nil_append, List.mem_append] at hp
    rcases hp with hp | hp
    · unfold Main_stampAndTransmit at hp ⊢
      simp only [List.filterMap_cons, transmitted, List.filterMap_nil, List.mem_singleton] at hp
      rw [hp]
    · exact hf.2 packet hp

/-! ## The sequence count in the header -/

theorem setSequenceCount_length (h : List Byte) (c : Nat) :
    (CFE_MSG_SetSequenceCount h c).length = h.length := by
  unfold CFE_MSG_SetSequenceCount
  split_ifs
  · rfl
  · simp only [List.length_set]

/-- A count above the mask is refused: the header stays. -/
theorem setSequenceCount_refused (h : List Byte) (c : Nat) (hc : CFE_MSG_SEQCNT_MASK < c) :
    CFE_MSG_SetSequenceCount h c = h := by
  unfold CFE_MSG_SetSequenceCount
  unfold CFE_MSG_SEQCNT_MASK at hc ⊢
  have : c / (16383 + 1) ≠ 0 := by omega
  rw [if_pos this]

/-- A count within the mask is stored. -/
theorem getSequenceCount_set (h : List Byte) (c : Nat) (hl : 4 ≤ h.length)
    (hc : c ≤ CFE_MSG_SEQCNT_MASK) :
    CFE_MSG_GetSequenceCount (CFE_MSG_SetSequenceCount h c) = c := by
  unfold CFE_MSG_SEQCNT_MASK at hc
  match h, hl with
  | b0 :: b1 :: b2 :: b3 :: rest, _ =>
    unfold CFE_MSG_SetSequenceCount CFE_MSG_GetSequenceCount CFE_MSG_SEQCNT_MASK
    have h0 : ¬ c / (16383 + 1) ≠ 0 := by omega
    rw [if_neg h0]
    simp only [List.set_cons_succ, List.set_cons_zero, List.getD_cons_succ, List.getD_cons_zero,
      byteOf]
    have := b2.isLt
    omega

/-- The header after pass `n`, when the passes handle the header as cFE does. -/
theorem runTicks_header (p : Platform) (envs : List TickEnv) (w : World)
    (h0 : w.app.CombinedTlmSeqCnt = 0) (hlen : 4 ≤ w.app.CombinedTlm.TelemetryHeader.length)
    (henv : ∀ env ∈ envs, cfeHeaderCalls env) (n : Nat) (hn : n < envs.length) :
    4 ≤ (runTicks p (envs.take (n + 1)) w).app.CombinedTlm.TelemetryHeader.length ∧
    CFE_MSG_GetSequenceCount (runTicks p (envs.take (n + 1)) w).app.CombinedTlm.TelemetryHeader =
      min (n % 65536) CFE_MSG_SEQCNT_MASK := by
  induction n with
  | zero =>
    have he := henv _ (List.get_mem envs 0 hn)
    rw [runTicks_take_succ p envs w 0 hn, (timeout_app p _ _).2.2.2.1, he.1]
    simp only [List.take_zero, runTicks_nil, h0]
    refine ⟨(he.2 _ ?_).1, ?_⟩
    · rw [setSequenceCount_length]; exact hlen
    · rw [(he.2 _ (by rw [setSequenceCount_length]; exact hlen)).2,
        getSequenceCount_set _ 0 hlen (Nat.zero_le _)]
      rfl
  | succ k ih =>
    have hk : k < envs.length := Nat.lt_of_succ_lt hn
    obtain ⟨il, iv⟩ := ih hk
    have he := henv _ (List.get_mem envs (k + 1) hn)
    have hcount : (runTicks p (envs.take (k + 1)) w).app.CombinedTlmSeqCnt =
        (k + 1) % 65536 := by
      rw [runTicks_seqCnt, h0, List.length_take, Nat.min_eq_left (Nat.le_of_lt hn)]
      simp only [Nat.add_one_ne_zero, if_false, Nat.zero_add]
    rw [runTicks_take_succ p envs w (k + 1) hn, (timeout_app p _ _).2.2.2.1, he.1, hcount]
    have hl2 : 4 ≤ (CFE_MSG_SetSequenceCount
        (runTicks p (envs.take (k + 1)) w).app.CombinedTlm.TelemetryHeader
        ((k + 1) % 65536)).length := by
      rw [setSequenceCount_length]; exact il
    refine ⟨(he.2 _ hl2).1, ?_⟩
    rw [(he.2 _ hl2).2]
    by_cases hc : (k + 1) % 65536 ≤ CFE_MSG_SEQCNT_MASK
    · rw [getSequenceCount_set _ _ il hc, Nat.min_eq_left hc]
    · have hc2 : CFE_MSG_SEQCNT_MASK < (k + 1) % 65536 := Nat.lt_of_not_le hc
      rw [setSequenceCount_refused _ _ hc2, iv]
      unfold CFE_MSG_SEQCNT_MASK at hc2 ⊢
      omega

/-- C18: every pass through the timeout branch, whatever the enable flags and the
outcomes of the two reads, puts `CombinedTlmSeqCnt` up by exactly one modulo 2^16 and
calls `CFE_MSG_SetSequenceCount` exactly once, on the count as it was before the pass; so
pass number `n` (from 0, the count being 0 after initialisation) hands over `n mod 2^16`.
The sequence field of the header is 14 bits wide, and cFE refuses a count that does not
fit it; hence the sequence count in the record's header after pass `n` is
`min (n mod 2^16) 16383`, which is `n mod 2^14` exactly when `n mod 2^16 ≤ 16383` or
`n mod 2^14 = 16383`: from pass 16384 to pass 65535 of every 65536 the header keeps
16383. -/
theorem C18_header_sequence_count (p : Platform) (envs : List TickEnv) (w : World)
    (h0 : w.app.CombinedTlmSeqCnt = 0) (hlen : 4 ≤ w.app.CombinedTlm.TelemetryHeader.length)
    (henv : ∀ env ∈ envs, cfeHeaderCalls env) (n : Nat) (hn : n < envs.length) :
    (∀ (env : TickEnv) (v : World),
      (FSWV1_APP_Main_timeout p env v).1.app.CombinedTlmSeqCnt =
        (v.app.CombinedTlmSeqCnt + 1) % 65536 ∧
      (FSWV1_APP_Main_timeout p env v).2.filter isSetSequenceCount =
        [Effect.CFE_MSG_SetSequenceCount v.app.CombinedTlmSeqCnt]) ∧
    (runTicks p (envs.take n) w).app.CombinedTlmSeqCnt = n % 65536 ∧
    (FSWV1_APP_Main_timeout p (envs.get ⟨n, hn⟩) (runTicks p (envs.take n) w)).2.filter
      isSetSequenceCount = [Effect.CFE_MSG_SetSequenceCount (n % 65536)] ∧
    (runTicks p (envs.take (n + 1)) w).app.CombinedTlmSeqCnt = (n + 1) % 65536 ∧
    CFE_MSG_GetSequenceCount (runTicks p (envs.take (n + 1)) w).app.CombinedTlm.TelemetryHeader =
      min (n % 65536) 16383 ∧
    (CFE_MSG_GetSequenceCount
        (runTicks p (envs.take (n + 1)) w).app.CombinedTlm.TelemetryHeader = n % 2 ^ 14 ↔
      (n % 65536 ≤ 16383 ∨ n % 2 ^ 14 = 16383)) := by
  have hcount : (runTicks p (envs.take n) w).app.CombinedTlmSeqCnt = n % 65536 := by
    rw [runTicks_seqCnt, h0, List.length_take, Nat.min_eq_left (Nat.le_of_lt hn)]
    split_ifs with hz
    · rw [hz]
    · rw [Nat.zero_add]
  have hhead := (runTicks_header p envs w h0 hlen henv n hn).2
  unfold CFE_MSG_SEQCNT_MASK at hhead
  refine ⟨fun env v => ⟨(timeout_app p env v).2.2.1, (timeout_effects p env v).1⟩, hcount,
    ?_, ?_, hhead, ?_⟩
  · rw [(timeout_effects p _ _).1, hcount]
  · rw [runTicks_take_succ p envs w n hn, (timeout_app p _ _).2.2.1, hcount]
    omega
  · rw [hhead]
    omega

/-- Witness for C18: 16385 passes from the state after initialisation; pass 16384 hands
over the count 16384, which does not fit the field, and the header keeps 16383 where
`16384 mod 2^14` is 0.  The third of three passes leaves 2 in the header. -/
theorem C18_header_sequence_count_witness :
    CFE_MSG_GetSequenceCount
        (runTicks samplePlatform ((List.replicate 16385 (envCfe 0)).take (16384 + 1))
          worldStart).app.CombinedTlm.TelemetryHeader = min (16384 % 65536) 16383 ∧
    min (16384 % 65536) 16383 = 16383 ∧ 16384 % 2 ^ 14 = 0 ∧
    CFE_MSG_GetSequenceCount
        (runTicks samplePlatform [envCfe 5, envCfe 6, envCfe 7]
          worldStart).app.CombinedTlm.TelemetryHeader = 2 :=
  ⟨(C18_header_sequence_count samplePlatform (List.replicate 16385 (envCfe 0)) worldStart rfl
      (by decide)
      (fun env he => by
        rw [List.eq_of_mem_replicate he]
        exact ⟨rfl, fun h hl => ⟨hl, rfl⟩⟩)
      16384 (by rw [List.length_replicate]; decide)).2.2.2.2.1,
    by decide, by decide, by decide⟩

/-- C19: after every pass through the timeout branch, whatever the enable flags and the
outcomes of the two reads and of the sinks, the record's payload `Timestamp` is the
seconds that `CFE_TIME_GetTime` returned at the line "Always transmit telemetry" of that
pass, and so is the `Timestamp` of every record sent off during the pass; the times
handed to `FSWV1_ReadSensor` and `FSWV1_ReadUART` in the pass have no influence on it. -/
theorem C19_record_timestamp (p : Platform) (env : TickEnv) (w : World) :
    (FSWV1_APP_Main_timeout p env w).1.app.CombinedTlm.Payload.Timestamp = env.recordTime ∧
    (∀ packet ∈ (FSWV1_APP_Main_timeout p env w).2.filterMap transmitted,
      packet.Payload.Timestamp = env.recordTime) ∧
    (∀ t1 t2 : Nat,
      (FSWV1_APP_Main_timeout p { env with sensorTime := t1, uartTime := t2 }
        w).1.app.CombinedTlm.Payload.Timestamp = env.recordTime) := by
  have h : ∀ e : TickEnv,
      (FSWV1_APP_Main_timeout p e w).1.app.CombinedTlm.Payload.Timestamp = e.recordTime := by
    intro e
    rw [(timeout_app p e w).2.2.2.2]
  refine ⟨h env, ?_, fun t1 t2 => h _⟩
  intro packet hp
  rw [(timeout_effects p env w).2 packet hp]
  exact h env

/-! ## The serial sink -/

/-- Reversing the bytes of a 32-bit value gives a 32-bit value. -/
theorem bswap32_lt (v : Nat) : bswap32 v < 4294967296 := by
  unfold bswap32
  omega

/-- Reversing the bytes of a 32-bit value twice gives the value back. -/
theorem bswap32_bswap32 (v : Nat) (h : v < 4294967296) : bswap32 (bswap32 v) = v := by
  have hv : v = v % 256 + 256 * (v / 256 % 256) + 65536 * (v / 65536 % 256) +
      16777216 * (v / 16777216 % 256) := by omega
  have h0 : v % 256 < 256 := Nat.mod_lt _ (by decide)
  have h1 : v / 256 % 256 < 256 := Nat.mod_lt _ (by decide)
  have h2 : v / 65536 % 256 < 256 := Nat.mod_lt _ (by decide)
  have h3 : v / 16777216 % 256 < 256 := Nat.mod_lt _ (by decide)
  unfold bswap32
  generalize v % 256 = b0 at hv h0 ⊢
  generalize v / 256 % 256 = b1 at hv h1 ⊢
  generalize v / 65536 % 256 = b2 at hv h2 ⊢
  generalize v / 16777216 % 256 = b3 at hv h3 ⊢
  have e0 : (b0 * 16777216 + b1 * 65536 + b2 * 256 + b3) % 256 = b3 := by omega
  have q1 : (b0 * 16777216 + b1 * 65536 + b2 * 256 + b3) / 256 =
      b0 * 65536 + b1 * 256 + b2 := by omega
  have q2 : (b0 * 16777216 + b1 * 65536 + b2 * 256 + b3) / 65536 = b0 * 256 + b1 := by omega
  have q3 : (b0 * 16777216 + b1 * 65536 + b2 * 256 + b3) / 16777216 = b0 := by omega
  have e1 : (b0 * 65536 + b1 * 256 + b2) % 256 = b2 := by omega
  have e2 : (b0 * 256 + b1) % 256 = b1 := by omega
  have e3 : b0 % 256 = b0 := by omega
  rw [e0, q1, q2, q3, e1, e2, e3]
  omega

/-- The members of `packet_copy` are 32-bit values. -/
theorem packetImage_words_lt (p : Platform) (t : FSWV1_APP_CombinedTlm_t) :
    ∀ v ∈ (packetImage p t).payloadWords, v < 4294967296 := by
  intro v hv
  simp only [PacketImage.payloadWords, packetImage, List.mem_cons, List.mem_singleton,
    List.not_mem_nil, or_false] at hv
  rcases hv with h | h | h | h | h | h | h | h | h | h <;>
    (rw [h]; exact Nat.mod_lt _ (by decide))

/-- C20: for every record and on either kind of machine, converting the ten payload
members of the copy as `SendTelemetryBinary` does and then converting each member from
big-endian back to the order of the machine gives the ten 32-bit patterns the record
had, the nine floats and the timestamp alike; the header is not touched; and the swap
used, `__builtin_bswap32`, maps 32-bit values to 32-bit values and is its own inverse. -/
theorem C20_byte_swap_round_trip (p : Platform) (t : FSWV1_APP_CombinedTlm_t) :
    (convertPayload p (packetImage p t)).payloadWords.map (be32ToHost p) =
      (packetImage p t).payloadWords ∧
    (convertPayload p (packetImage p t)).TelemetryHeader = t.TelemetryHeader ∧
    (∀ v : Nat, v < 4294967296 →
      swap_float_to_be (swap_float_to_be v) = v ∧ swap_uint32_to_be (swap_uint32_to_be v) = v ∧
      swap_float_to_be v < 4294967296 ∧ swap_uint32_to_be v < 4294967296) := by
  refine ⟨?_, ?_, ?_⟩
  · have hw := packetImage_words_lt p t
    simp only [PacketImage.payloadWords, List.mem_cons, List.mem_singleton, List.not_mem_nil,
      or_false, forall_eq_or_imp, forall_eq] at hw
    obtain ⟨h1, h2, h3, h4, h5, h6, h7, h8, h9, h10⟩ := hw
    unfold convertPayload be32ToHost
    cases hle : p.littleEndian with
    | true =>
      simp only [if_true, PacketImage.payloadWords, List.map_cons, List.map_nil,
        swap_float_to_be, swap_uint32_to_be, bswap32_bswap32 _ h1, bswap32_bswap32 _ h2,
        bswap32_bswap32 _ h3, bswap32_bswap32 _ h4, bswap32_bswap32 _ h5,
        bswap32_bswap32 _ h6, bswap32_bswap32 _ h7, bswap32_bswap32 _ h8,
        bswap32_bswap32 _ h9, bswap32_bswap32 _ h10]
    | false =>
      simp only [Bool.false_eq_true, if_false, PacketImage.payloadWords, List.map_cons,
        List.map_nil]
  · unfold convertPayload
    split_ifs <;> rfl
  · intro v hv
    exact ⟨bswap32_bswap32 v hv, bswap32_bswap32 v hv, bswap32_lt v, bswap32_lt v⟩

/-! ## Temperature compensation over the whole input range -/

/-- When every intermediate value of the temperature formula over unbounded integers lies
in the range of `int32`, the computation never wraps and yields the unbounded values. -/
theorem temperature_no_overflow (fd t0 : Int) (c : FSWV1_CalibData_t) (adc_T : Int)
    (h : temperatureFits c adc_T) :
    FSWV1_CompensateTemperature ⟨fd, c, t0⟩ adc_T =
      ((temperatureUnbounded c adc_T).1, ⟨fd, c, (temperatureUnbounded c adc_T).2⟩) := by
  unfold temperatureFits at h
  dsimp only at h
  obtain ⟨a1, a2, a3, a4, a5, a6, a7, a8, a9⟩ := h
  unfold FSWV1_CompensateTemperature temperatureUnbounded
  dsimp only
  rw [wrap32_of_inInt32 a1, wrap32_of_inInt32 a2, wrap32_of_inInt32 a3, wrap32_of_inInt32 a4,
    wrap32_of_inInt32 a5, wrap32_of_inInt32 a6, wrap32_of_inInt32 a7, wrap32_of_inInt32 a8,
    wrap32_of_inInt32 a9]
  simp only [mul_comm (2 : Int), mul_comm (5 : Int)]

/-- With the temperature constants of the datasheet's example every 20-bit raw count
keeps all intermediate values in the range of `int32`. -/
theorem datasheet_temperature_fits (P : FSWV1_CalibData_t) (adc_T : Int) (h0 : 0 ≤ adc_T)
    (h1 : adc_T < 2 ^ 20) : temperatureFits (datasheetTemperatureCalib P) adc_T := by
  have e20 : (2 : Int) ^ 20 = 1048576 := by norm_num
  rw [e20] at h1
  unfold temperatureFits datasheetTemperatureCalib
  dsimp only
  simp only [inInt32_iff]
  rw [shiftRight_eq_ediv adc_T 3 8 (by norm_num), shiftRight_eq_ediv adc_T 4 16 (by norm_num),
    shiftRight_eq_ediv _ 11 2048 (by norm_num), shiftRight_eq_ediv _ 12 4096 (by norm_num),
    shiftRight_eq_ediv _ 14 16384 (by norm_num)]
  have hd1 : -38031 ≤ adc_T / 16 - 27504 := by omega
  have hd2 : adc_T / 16 - 27504 ≤ 38031 := by omega
  obtain ⟨q1, q2⟩ := sq_bound (adc_T / 16 - 27504) 38031 hd1 hd2
  generalize (adc_T / 16 - 27504) * (adc_T / 16 - 27504) = q at q1 q2 ⊢
  refine ⟨?_, ?_, ?_, ?_, ?_, ?_, ?_, ?_, ?_⟩ <;> omega

/-- C27, as stated, fails: with the in-range constants `dig_T1 = 0`, `dig_T2 = 32767`,
`dig_T3 = 0` and the 20-bit raw count `adc_T = 1048575` the product
`((adc_T >> 3) - 2 * dig_T1) * dig_T2 = 4294803457` exceeds `2^31 - 1`; the function
returns the temperature -2 and stores the fine temperature -80 where the formula over
unbounded integers gives 40958 and 2097072. -/
theorem C27_temperature_overflow_counterexample :
    calibInRange steepCalib ∧ (0 : Int) ≤ 1048575 ∧ (1048575 : Int) < 2 ^ 20 ∧
    ¬ inInt32 (((1048575 : Int) >>> (3 : Nat) - 2 * steepCalib.dig_T1) * steepCalib.dig_T2) ∧
    ¬ temperatureFits steepCalib 1048575 ∧
    (FSWV1_CompensateTemperature ⟨3, steepCalib, 0⟩ 1048575).1 = -2 ∧
    (FSWV1_CompensateTemperature ⟨3, steepCalib, 0⟩ 1048575).2.t_fine = -80 ∧
    temperatureUnbounded steepCalib 1048575 = (40958, 2097072) := by
  refine ⟨by decide, by decide, by decide, by decide, by decide, by decide, by decide,
    by decide⟩

/-- C27, amended: whenever every intermediate value of the temperature formula, evaluated
over unbounded integers, lies in the signed 32-bit range, `FSWV1_CompensateTemperature`
returns the temperature and stores the fine temperature that the formula gives over
unbounded integers; and the intermediate values do lie in that range for every 20-bit
`adc_T` when the three temperature constants are those of the datasheet's example
(`dig_T1 = 27504`, `dig_T2 = 26435`, `dig_T3 = -1000`). -/
theorem C27_no_overflow_when_intermediates_fit :
    (∀ (fd t0 : Int) (c : FSWV1_CalibData_t) (adc_T : Int), temperatureFits c adc_T →
      FSWV1_CompensateTemperature ⟨fd, c, t0⟩ adc_T =
        ((temperatureUnbounded c adc_T).1, ⟨fd, c, (temperatureUnbounded c adc_T).2⟩)) ∧
    (∀ (fd t0 : Int) (P : FSWV1_CalibData_t) (adc_T : Int), 0 ≤ adc_T → adc_T < 2 ^ 20 →
      temperatureFits (datasheetTemperatureCalib P) adc_T ∧
      FSWV1_CompensateTemperature ⟨fd, datasheetTemperatureCalib P, t0⟩ adc_T =
        ((temperatureUnbounded (datasheetTemperatureCalib P) adc_T).1,
          ⟨fd, datasheetTemperatureCalib P,
            (temperatureUnbounded (datasheetTemperatureCalib P) adc_T).2⟩)) := by
  refine ⟨temperature_no_overflow, ?_⟩
  intro fd t0 P adc_T h0 h1
  have h := datasheet_temperature_fits P adc_T h0 h1
  exact ⟨h, temperature_no_overflow fd t0 _ adc_T h⟩

/-- C27 at the datasheet's example, `adc_T = 519888`: the intermediate values fit and
the result is the unbounded one. -/
theorem C27_no_overflow_when_intermediates_fit_witness :
    FSWV1_CompensateTemperature ⟨3, datasheetCalib, 0⟩ 519888 =
      ((temperatureUnbounded datasheetCalib 519888).1,
        ⟨3, datasheetCalib, (temperatureUnbounded datasheetCalib 519888).2⟩) ∧
    temperatureFits (datasheetTemperatureCalib datasheetCalib) 519888 :=
  ⟨C27_no_overflow_when_intermediates_fit.1 3 0 datasheetCalib 519888 (by decide),
    (C27_no_overflow_when_intermediates_fit.2 3 0 datasheetCalib 519888 (by decide)
      (by decide)).1⟩

/-! ## The frame decoder: failed parses and chunked input -/

/-- Whether the parser accepts a text does not depend on the clock, and neither does
what a rejected text leaves in the structure. -/
theorem parse_clock (t : List Char) (d : FSWV1_IMUData_t) (n1 n2 : Nat) :
    (ParseIMUData t d n1).1 = (ParseIMUData t d n2).1 ∧
    ((ParseIMUData t d n1).1 ≠ Status.CFE_SUCCESS →
      (ParseIMUData t d n1).2 = (ParseIMUData t d n2).2 ∧
      (ParseIMUData t d n1).2 = storeFields (sscanf t "$,%f,%f,%f,%f,%f,%f,%f,#").2 0 d) := by
  unfold ParseIMUData
  by_cases h : (sscanf t "$,%f,%f,%f,%f,%f,%f,%f,#").1 = 7
  · simp [h]
  · simp [h]

/-- Feeding `a` and then `b`, when the call on `a` returns `OS_ERROR`, is feeding `a ++ b`. -/
theorem readLoop_append (now1 now : Nat) (e1 e2 e : Int) (a b : List Char) (s : UartState)
    (d : FSWV1_IMUData_t) (h : (readLoop now1 e1 a s d).status = Status.OS_ERROR) :
    ∃ d1, (readLoop now1 e1 a s d).data = some d1 ∧
      readLoop now e (a ++ b) s d = readLoop now e2 b (readLoop now1 e1 a s d).state d1 := by
  induction a generalizing s d with
  | nil =>
    rw [readLoop]
    exact ⟨d, rfl, by rw [List.nil_append]; exact readLoop_endRc now e e2 b s d⟩
  | cons byte rest ih =>
    have step : ∀ s1 d1,
        readLoop now1 e1 (byte :: rest) s d = readLoop now1 e1 rest s1 d1 →
        readLoop now e (byte :: (rest ++ b)) s d = readLoop now e (rest ++ b) s1 d1 →
        ∃ d2, (readLoop now1 e1 (byte :: rest) s d).data = some d2 ∧
          readLoop now e (byte :: rest ++ b) s d =
            readLoop now e2 b (readLoop now1 e1 (byte :: rest) s d).state d2 := by
      intro s1 d1 h1 h2
      rw [h1] at h ⊢
      rw [List.cons_append, h2]
      exact ih s1 d1 h
    by_cases c1 : byte = '$'
    · apply step (UartState.mk s.UART_Initialized s.uart_fd (s.uart_buffer.set 0 byte) 1) d
      · rw [readLoop]; simp only [c1, if_true]
      · rw [readLoop]; simp only [c1, if_true]
    by_cases c2 : byte = '#'
    · subst c2
      by_cases c3 : 0 < s.buffer_pos ∧ s.buffer_pos < UART_BUFFER_SIZE - 1
      · obtain ⟨p1, p2⟩ := parse_clock (cString ((s.uart_buffer.set s.buffer_pos '#').set
          (s.buffer_pos + 1) NUL)) d now1 now
        have hfail : (ParseIMUData (cString ((s.uart_buffer.set s.buffer_pos '#').set
            (s.buffer_pos + 1) NUL)) d now1).1 ≠ Status.CFE_SUCCESS := by
          intro hs
          rw [readLoop] at h
          simp only [c1, c3, if_true, if_false, and_self] at h
          generalize ParseIMUData (cString ((s.uart_buffer.set s.buffer_pos '#').set
            (s.buffer_pos + 1) NUL)) d now1 = p at h hs
          obtain ⟨st, dd⟩ := p
          simp only at hs
          subst hs
          simp at h
        have hfail2 : (ParseIMUData (cString ((s.uart_buffer.set s.buffer_pos '#').set
            (s.buffer_pos + 1) NUL)) d now).1 ≠ Status.CFE_SUCCESS := by
          rw [← p1]; exact hfail
        apply step (UartState.mk s.UART_Initialized s.uart_fd
          ((s.uart_buffer.set s.buffer_pos '#').set (s.buffer_pos + 1) NUL) 0)
          (ParseIMUData (cString ((s.uart_buffer.set s.buffer_pos '#').set
            (s.buffer_pos + 1) NUL)) d now1).2
        · rw [readLoop]
          simp only [c1, c3, if_true, if_false, and_self]
        · rw [(p2 hfail).1]
          rw [readLoop]
          simp only [c1, c3, if_true, if_false, and_self]
      · apply step (UartState.mk s.UART_Initialized s.uart_fd s.uart_buffer 0) d
        · rw [readLoop]; simp only [c1, c3, if_true, if_false]
        · rw [readLoop]; simp only [c1, c3, if_true, if_false]
    by_cases c4 : 0 < s.buffer_pos ∧ s.buffer_pos < UART_BUFFER_SIZE - 1
    · apply step (UartState.mk s.UART_Initialized s.uart_fd
        (s.uart_buffer.set s.buffer_pos byte) (s.buffer_pos + 1)) d
      · rw [readLoop]; simp only [c1, c2, c4, if_true, if_false, and_self]
      · rw [readLoop]; simp only [c1, c2, c4, if_true, if_false, and_self]
    by_cases c5 : s.buffer_pos ≥ UART_BUFFER_SIZE - 1
    · apply step (UartState.mk s.UART_Initialized s.uart_fd s.uart_buffer 0) d
      · rw [readLoop]; simp only [c1, c2, c4, c5, if_true, if_false]
      · rw [readLoop]; simp only [c1, c2, c4, c5, if_true, if_false]
    · apply step s d
      · rw [readLoop]; simp only [c1, c2, c4, c5, if_true, if_false]
      · rw [readLoop]; simp only [c1, c2, c4, c5, if_true, if_false]

/-- C28: when an invocation of `FSWV1_ReadUART` on the bytes `a` returns the not-ready
result `OS_ERROR`, a following invocation on the bytes `b` gives the same return value,
the same sample in the caller's structure, the same decoder state (buffer contents and
`buffer_pos`) and leaves the same bytes unread as a single invocation on `a ++ b`, the
clock showing the same seconds in the invocation that sees `b`; the clock of the
invocation on `a` and the values that ended the `read` loops play no part. -/
theorem C28_chunking_independent (s : UartState) (data : Option FSWV1_IMUData_t)
    (a b : List Char) (e1 e2 e : Int) (now1 now : Nat)
    (h : (FSWV1_ReadUART s data a e1 now1).status = Status.OS_ERROR) :
    FSWV1_ReadUART (FSWV1_ReadUART s data a e1 now1).state
        (FSWV1_ReadUART s data a e1 now1).data b e2 now =
      FSWV1_ReadUART s data (a ++ b) e now := by
  by_cases hi : s.UART_Initialized = true ∧ 0 ≤ s.uart_fd
  · obtain ⟨hinit, hfd⟩ := hi
    cases data with
    | none =>
      exfalso
      unfold FSWV1_ReadUART at h
      have hc : ¬ (¬ s.UART_Initialized = true ∨ s.uart_fd < 0) := by
        rintro (h1 | h1)
        · exact h1 hinit
        · omega
      simp only [hc, if_false] at h
      cases h
    | some d =>
      rw [readUART_ready s d a e1 now1 hinit hfd] at h ⊢
      obtain ⟨d1, hd1, heq⟩ := readLoop_append now1 now e1 e2 e a b s d h
      obtain ⟨i1, i2, -, -⟩ := readLoop_invariant now1 e1 a s d
      rw [hd1, readUART_ready _ d1 b e2 now (by rw [i1]; exact hinit) (by rw [i2]; exact hfd),
        readUART_ready s d (a ++ b) e now hinit hfd, heq]
  · exfalso
    unfold FSWV1_ReadUART at h
    have hc : ¬ s.UART_Initialized = true ∨ s.uart_fd < 0 := by
      by_cases h1 : s.UART_Initialized = true
      · right
        by_contra h2
        exact hi ⟨h1, by omega⟩
      · left; exact h1
    simp only [hc, if_true] at h
    cases h

theorem C28_chunking_independent_witness :
    FSWV1_ReadUART (FSWV1_ReadUART uartStart (some imuZero) "$,1,2,3".toList 0 50).state
        (FSWV1_ReadUART uartStart (some imuZero) "$,1,2,3".toList 0 50).data
        ",4,5,6,7,#".toList 0 60 =
      FSWV1_ReadUART uartStart (some imuZero) ("$,1,2,3".toList ++ ",4,5,6,7,#".toList) 0 60 :=
  C28_chunking_independent uartStart (some imuZero) "$,1,2,3".toList ",4,5,6,7,#".toList 0 0 0
    50 60 (by decide)

theorem storeFields_timestamp (vals : List FloatVal) (i : Nat) (d : FSWV1_IMUData_t) :
    (storeFields vals i d).Timestamp = d.Timestamp := by
  induction vals generalizing i d with
  | nil => rfl
  | cons v vs ih =>
    rw [storeFields, ih]
    unfold storeField
    split <;> rfl

theorem failedStores_timestamp (d : FSWV1_IMUData_t) (texts : List (List Char)) :
    (failedStores d texts).Timestamp = d.Timestamp := by
  induction texts generalizing d with
  | nil => rfl
  | cons t ts ih =>
    unfold failedStores at ih ⊢
    rw [List.foldl_cons, ih, storeFields_timestamp]

/-- What the loop leaves in the caller's structure when it does not return
`CFE_SUCCESS`: the fields stored by the rejected texts, in order. -/
theorem readLoop_data_of_failure (now : Nat) (endRc : Int) (input : List Char) (s : UartState)
    (d : FSWV1_IMUData_t) (h : (readLoop now endRc input s d).status ≠ Status.CFE_SUCCESS) :
    (readLoop now endRc input s d).data =
      some (failedStores d (parsedTexts (readLoopLog now endRc input s d).2)) := by
  induction input generalizing s d with
  | nil => rw [readLoop, readLoopLog]; rfl
  | cons byte rest ih =>
    rw [readLoop] at h ⊢
    rw [readLoopLog]
    split_ifs at h ⊢ with h1 h2 h3 h4 h5
    · rw [ih _ _ h]
      simp [parsedTexts]
    · dsimp only at h ⊢
      have hp := (parse_clock (cString ((s.uart_buffer.set s.buffer_pos byte).set
        (s.buffer_pos + 1) NUL)) d now now).2
      generalize ParseIMUData (cString ((s.uart_buffer.set s.buffer_pos byte).set
        (s.buffer_pos + 1) NUL)) d now = p at h hp ⊢
      obtain ⟨st, d1⟩ := p
      cases st
      · exact absurd rfl h
      all_goals
        simp only at h ⊢
        have hd1 := (hp (by simp)).2
        simp only at hd1
        rw [ih _ _ h, hd1]
        simp [parsedTexts, failedStores]
    · exact ih _ _ h
    · rw [ih _ _ h]
      simp [parsedTexts]
    · exact ih _ _ h
    · exact ih _ _ h

/-- C26, as stated, fails: the delimited frame `$,1.0,2.0,#` does not parse, and
`FSWV1_ReadUART` returns `OS_ERROR`, yet `Accel_X` and `Accel_Y` of the caller's structure
have been overwritten with 1.0 and 2.0. -/
theorem C26_failed_parse_overwrites_fields :
    (FSWV1_ReadUART uartStart (some imuZero) "$,1.0,2.0,#".toList 0 100).status =
      Status.OS_ERROR ∧
    (FSWV1_ReadUART uartStart (some imuZero) "$,1.0,2.0,#".toList 0 100).data =
      some { imuZero with Accel_X := FloatVal.finite 1.0, Accel_Y := FloatVal.finite 2.0 } ∧
    (FSWV1_ReadUART uartStart (some imuZero) "$,1.0,2.0,#".toList 0 100).data ≠
      some imuZero := by
  have hframe : "$,1.0,2.0,#".toList = '$' :: (",1.0,2.0,".toList ++ '#' :: []) := by decide
  have hb : noMarker ",1.0,2.0,".toList := by
    unfold noMarker
    decide
  have hres : (FSWV1_ReadUART uartStart (some imuZero) "$,1.0,2.0,#".toList 0 100).status =
        Status.OS_ERROR ∧
      (FSWV1_ReadUART uartStart (some imuZero) "$,1.0,2.0,#".toList 0 100).data =
        some { imuZero with Accel_X := FloatVal.finite 1.0, Accel_Y := FloatVal.finite 2.0 } := by
    rw [readUART_ready uartStart imuZero _ 0 100 rfl (by decide), hframe,
      readLoop_frame 100 0 _ [] uartStart imuZero hb (by decide) (List.length_replicate _ _),
      parse_short]
    simp [readLoop_nil]
  refine ⟨hres.1, hres.2, ?_⟩
  rw [hres.2]
  intro h
  have hx := congrArg (fun o => o.map (fun d => d.Accel_X)) h
  simp only [Option.map_some', imuZero, Option.some.injEq, FloatVal.finite.injEq] at hx
  norm_num at hx

/-- C26, amended: when `FSWV1_ReadUART` returns anything other than `CFE_SUCCESS`, the
caller's structure is untouched if the decoder is not initialised, has no open
descriptor or the pointer is null; otherwise the structure holds what the rejected texts
left in it, each having stored the fields that `sscanf` converted before it stopped; it
is unchanged if no text was handed to the parser, and its `Timestamp` is unchanged in
every case. -/
theorem C26_failure_keeps_unconverted_fields (s : UartState) (data : Option FSWV1_IMUData_t)
    (input : List Char) (endRc : Int) (now : Nat)
    (h : (FSWV1_ReadUART s data input endRc now).status ≠ Status.CFE_SUCCESS) :
    ((s.UART_Initialized = false ∨ s.uart_fd < 0 ∨ data = none) →
      (FSWV1_ReadUART s data input endRc now).data = data) ∧
    (∀ d, s.UART_Initialized = true → 0 ≤ s.uart_fd → data = some d →
      (FSWV1_ReadUART s data input endRc now).data =
        some (failedStores d (parsedTexts (readLoopLog now endRc input s d).2)) ∧
      (parsedTexts (readLoopLog now endRc input s d).2 = [] →
        (FSWV1_ReadUART s data input endRc now).data = some d) ∧
      (failedStores d (parsedTexts (readLoopLog now endRc input s d).2)).Timestamp =
        d.Timestamp) := by
  constructor
  · intro hc
    unfold FSWV1_ReadUART
    by_cases hi : ¬ s.UART_Initialized = true ∨ s.uart_fd < 0
    · simp only [hi, if_true]
    · rcases hc with hc | hc | hc
      · exact absurd (Or.inl (by simp [hc])) hi
      · exact absurd (Or.inr hc) hi
      · subst hc
        simp only [hi, if_false]
  · intro d hinit hfd hd
    subst hd
    rw [readUART_ready s d input endRc now hinit hfd] at h ⊢
    have hdata := readLoop_data_of_failure now endRc input s d h
    refine ⟨hdata, ?_, failedStores_timestamp _ _⟩
    intro hnil
    rw [hdata, hnil]
    rfl

theorem C26_failure_keeps_unconverted_fields_witness :
    ((uartStart.UART_Initialized = false ∨ uartStart.uart_fd < 0 ∨ some imuZero = none) →
      (FSWV1_ReadUART uartStart (some imuZero) "$,1.0,2.0,#".toList 0 100).data =
        some imuZero) ∧
    (∀ d, uartStart.UART_Initialized = true → 0 ≤ uartStart.uart_fd → some imuZero = some d →
      (FSWV1_ReadUART uartStart (some imuZero) "$,1.0,2.0,#".toList 0 100).data =
        some (failedStores d
          (parsedTexts (readLoopLog 100 0 "$,1.0,2.0,#".toList uartStart d).2)) ∧
      (parsedTexts (readLoopLog 100 0 "$,1.0,2.0,#".toList uartStart d).2 = [] →
        (FSWV1_ReadUART uartStart (some imuZero) "$,1.0,2.0,#".toList 0 100).data = some d) ∧
      (failedStores d
        (parsedTexts (readLoopLog 100 0 "$,1.0,2.0,#".toList uartStart d).2)).Timestamp =
        d.Timestamp) :=
  C26_failure_keeps_unconverted_fields uartStart (some imuZero) "$,1.0,2.0,#".toList 0 100
    (by decide)

/-! ## The serial sink: what goes on the wire -/

theorem byteOf_eq (a b : Nat) (h : a % 256 = b % 256) : byteOf a = byteOf b := by
  unfold byteOf
  exact Fin.ext h

/-- The four bytes of a swapped value are those of the value in the opposite order. -/
theorem bswap32_bytes (v : Nat) :
    bswap32 v % 256 = v / 16777216 % 256 ∧ bswap32 v / 256 % 256 = v / 65536 % 256 ∧
    bswap32 v / 65536 % 256 = v / 256 % 256 ∧ bswap32 v / 16777216 % 256 = v % 256 := by
  have h0 : v % 256 < 256 := Nat.mod_lt _ (by decide)
  have h1 : v / 256 % 256 < 256 := Nat.mod_lt _ (by decide)
  have h2 : v / 65536 % 256 < 256 := Nat.mod_lt _ (by decide)
  have h3 : v / 16777216 % 256 < 256 := Nat.mod_lt _ (by decide)
  unfold bswap32
  generalize v % 256 = b0 at h0 ⊢
  generalize v / 256 % 256 = b1 at h1 ⊢
  generalize v / 65536 % 256 = b2 at h2 ⊢
  generalize v / 16777216 % 256 = b3 at h3 ⊢
  have e0 : (b0 * 16777216 + b1 * 65536 + b2 * 256 + b3) % 256 = b3 := by omega
  have q1 : (b0 * 16777216 + b1 * 65536 + b2 * 256 + b3) / 256 =
      b0 * 65536 + b1 * 256 + b2 := by omega
  have q2 : (b0 * 16777216 + b1 * 65536 + b2 * 256 + b3) / 65536 = b0 * 256 + b1 := by omega
  have q3 : (b0 * 16777216 + b1 * 65536 + b2 * 256 + b3) / 16777216 = b0 := by omega
  rw [e0, q1, q2, q3]
  refine ⟨rfl, ?_, ?_, ?_⟩ <;> omega

/-- On a little-endian machine the bytes of a swapped 32-bit value, lowest address first,
are the bytes of the value, most significant first. -/
theorem objectBytes_bswap32 (p : Platform) (v : Nat) (hle : p.littleEndian = true) :
    objectBytes p (bswap32 v) = bigEndianBytes v := by
  unfold objectBytes bigEndianBytes
  simp only [hle, if_true]
  obtain ⟨q0, q1, q2, q3⟩ := bswap32_bytes v
  rw [byteOf_eq _ _ q0, byteOf_eq _ _ q1, byteOf_eq _ _ q2, byteOf_eq _ _ q3]

/-- On a big-endian machine the bytes of a 32-bit value, lowest address first, are its
bytes, most significant first. -/
theorem objectBytes_big (p : Platform) (v : Nat) (hbe : p.littleEndian = false) :
    objectBytes p v = bigEndianBytes v := by
  unfold objectBytes bigEndianBytes
  simp only [hbe, Bool.false_eq_true, if_false]

/-- The bytes handed to `write`: the header as it is stored, then the ten payload
members, each most significant byte first, on either kind of machine. -/
theorem serialBytes_eq (p : Platform) (t : FSWV1_APP_CombinedTlm_t) :
    serialBytes p t =
      t.TelemetryHeader ++
        (bigEndianBytes (p.floatBits t.Payload.BMP_Temperature % 4294967296) ++
         bigEndianBytes (p.floatBits t.Payload.BMP_Pressure % 4294967296) ++
         bigEndianBytes (p.floatBits t.Payload.Accel_X % 4294967296) ++
         bigEndianBytes (p.floatBits t.Payload.Accel_Y % 4294967296) ++
         bigEndianBytes (p.floatBits t.Payload.Accel_Z % 4294967296) ++
         bigEndianBytes (p.floatBits t.Payload.Gyro_X % 4294967296) ++
         bigEndianBytes (p.floatBits t.Payload.Gyro_Y % 4294967296) ++
         bigEndianBytes (p.floatBits t.Payload.Gyro_Z % 4294967296) ++
         bigEndianBytes (p.floatBits t.Payload.IMU_Temperature % 4294967296) ++
         bigEndianBytes (t.Payload.Timestamp % 4294967296)) := by
  unfold serialBytes PacketImage.bytes convertPayload packetImage
  cases hle : p.littleEndian with
  | true =>
    simp only [if_true, swap_float_to_be, swap_uint32_to_be,
      objectBytes_bswap32 p _ hle, List.append_assoc]
  | false =>
    simp only [Bool.false_eq_true, if_false, objectBytes_big p _ hle, List.append_assoc]

/-- C21: on either kind of machine and for every record, the bytes that the open serial
sink hands to `write` are the header as stored followed by 40 payload bytes: the 32-bit
patterns of BMP temperature, BMP pressure, accel X, Y, Z, gyro X, Y, Z, IMU temperature
and the timestamp, in this order, each most significant byte first; this is the one
`write` of the call, whatever `write` returns. -/
theorem C21_serial_wire_layout (p : Platform) (app : FSWV1_APP_Data_t)
    (st : TelemetryUartState) (sd : FSWV1_SensorData_t) (imu : FSWV1_IMUData_t)
    (bytes_written : Int) (hinit : st.TelemetryUART_Initialized = true)
    (hfd : 0 ≤ st.telemetry_uart_fd) :
    serialWrites (FSWV1_SendTelemetryUART p app st (some sd) (some imu) bytes_written).effects =
      [app.CombinedTlm.TelemetryHeader ++
        (bigEndianBytes (p.floatBits app.CombinedTlm.Payload.BMP_Temperature % 4294967296) ++
         bigEndianBytes (p.floatBits app.CombinedTlm.Payload.BMP_Pressure % 4294967296) ++
         bigEndianBytes (p.floatBits app.CombinedTlm.Payload.Accel_X % 4294967296) ++
         bigEndianBytes (p.floatBits app.CombinedTlm.Payload.Accel_Y % 4294967296) ++
         bigEndianBytes (p.floatBits app.CombinedTlm.Payload.Accel_Z % 4294967296) ++
         bigEndianBytes (p.floatBits app.CombinedTlm.Payload.Gyro_X % 4294967296) ++
         bigEndianBytes (p.floatBits app.CombinedTlm.Payload.Gyro_Y % 4294967296) ++
         bigEndianBytes (p.floatBits app.CombinedTlm.Payload.Gyro_Z % 4294967296) ++
         bigEndianBytes (p.floatBits app.CombinedTlm.Payload.IMU_Temperature % 4294967296) ++
         bigEndianBytes (app.CombinedTlm.Payload.Timestamp % 4294967296))] ∧
    (serialBytes p app.CombinedTlm).length = app.CombinedTlm.TelemetryHeader.length + 40 ∧
    (∀ v : Nat, bigEndianBytes v =
      [byteOf (v / 2 ^ 24), byteOf (v / 2 ^ 16), byteOf (v / 2 ^ 8), byteOf v]) := by
  have hready : ¬ (¬ st.TelemetryUART_Initialized = true ∨ st.telemetry_uart_fd < 0) := by
    rintro (h | h)
    · exact h hinit
    · omega
  refine ⟨?_, ?_, fun v => rfl⟩
  · rw [← serialBytes_eq]
    unfold FSWV1_SendTelemetryUART SendTelemetryBinary
    simp only [hready, if_false, Option.isNone_some, Bool.false_eq_true, or_self]
    split_ifs <;> simp [serialWrites, serialBytes]
  · rw [serialBytes_eq]
    simp [bigEndianBytes]

theorem C21_serial_wire_layout_witness :
    serialWrites (FSWV1_SendTelemetryUART samplePlatform worldStart.app worldStart.telemetry
      (some sensorZero) (some imuZero) 56).effects =
      [worldStart.app.CombinedTlm.TelemetryHeader ++
        (bigEndianBytes
          (samplePlatform.floatBits worldStart.app.CombinedTlm.Payload.BMP_Temperature %
            4294967296) ++
         bigEndianBytes
          (samplePlatform.floatBits worldStart.app.CombinedTlm.Payload.BMP_Pressure %
            4294967296) ++
         bigEndianBytes
          (samplePlatform.floatBits worldStart.app.CombinedTlm.Payload.Accel_X % 4294967296) ++
         bigEndianBytes
          (samplePlatform.floatBits worldStart.app.CombinedTlm.Payload.Accel_Y % 4294967296) ++
         bigEndianBytes
          (samplePlatform.floatBits worldStart.app.CombinedTlm.Payload.Accel_Z % 4294967296) ++
         bigEndianBytes
          (samplePlatform.floatBits worldStart.app.CombinedTlm.Payload.Gyro_X % 4294967296) ++
         bigEndianBytes
          (samplePlatform.floatBits worldStart.app.CombinedTlm.Payload.Gyro_Y % 4294967296) ++
         bigEndianBytes
          (samplePlatform.floatBits worldStart.app.CombinedTlm.Payload.Gyro_Z % 4294967296) ++
         bigEndianBytes
          (samplePlatform.floatBits worldStart.app.CombinedTlm.Payload.IMU_Temperature %
            4294967296) ++
         bigEndianBytes (worldStart.app.CombinedTlm.Payload.Timestamp % 4294967296))] ∧
    (serialBytes samplePlatform worldStart.app.CombinedTlm).length =
      worldStart.app.CombinedTlm.TelemetryHeader.length + 40 ∧
    (∀ v : Nat, bigEndianBytes v =
      [byteOf (v / 2 ^ 24), byteOf (v / 2 ^ 16), byteOf (v / 2 ^ 8), byteOf v]) :=
  C21_serial_wire_layout samplePlatform worldStart.app worldStart.telemetry sensorZero imuZero
    56 rfl (by decide)

/-! ## The two sinks in the periodic reading -/

/-- C22: for every record, every state of the serial sink and every result of `write`,
`FSWV1_SendTelemetryUART` (and `SendTelemetryBinary` inside it) returns with the global
data, the stored record with its header and payload included, exactly as it was: the
swaps are made on the local copy.  Hence after the two sinks of a pass the global data
is what the stamping left, and every record sent off whole in the pass, to the Software
Bus and to the network, is the record that remains stored after the pass. -/
theorem C22_serial_sink_keeps_record (p : Platform) (app : FSWV1_APP_Data_t)
    (st : TelemetryUartState) (SensorData : Option FSWV1_SensorData_t)
    (IMUData : Option FSWV1_IMUData_t) (bytes_written : Int) (env : TickEnv) (w : World) :
    (FSWV1_SendTelemetryUART p app st SensorData IMUData bytes_written).app = app ∧
    (SendTelemetryBinary p app st bytes_written).app = app ∧
    (Main_fanOut p env w).1.app = w.app ∧
    (∀ packet ∈ (FSWV1_APP_Main_timeout p env w).2.filterMap transmitted,
      packet = (FSWV1_APP_Main_timeout p env w).1.app.CombinedTlm) := by
  refine ⟨sendTelemetryUART_app p app st SensorData IMUData bytes_written, ?_,
    fanOut_app p env w, (timeout_effects p env w).2⟩
  unfold SendTelemetryBinary
  dsimp only
  split_ifs <;> rfl

/-- The calls of the two reading parts and of the stamping include no send on the
network and no `write`. -/
theorem readSensor_no_sends (env : TickEnv) (w : World) :
    socketSends (Main_readSensor env w).2 = [] ∧ serialWrites (Main_readSensor env w).2 = [] := by
  rw [readSensor_calls]
  unfold socketSends serialWrites
  constructor
  · rw [List.filterMap_eq_nil_iff]
    intro e he
    split_ifs at he
    · simp only [List.mem_append, List.mem_map, List.mem_singleton] at he
      rcases he with ⟨id, -, rfl⟩ | rfl <;> rfl
    · simp only [List.mem_append, List.mem_map, List.mem_singleton] at he
      rcases he with ⟨id, -, rfl⟩ | rfl <;> rfl
    · simp at he
  · rw [List.filterMap_eq_nil_iff]
    intro e he
    split_ifs at he
    · simp only [List.mem_append, List.mem_map, List.mem_singleton] at he
      rcases he with ⟨id, -, rfl⟩ | rfl <;> rfl
    · simp only [List.mem_append, List.mem_map, List.mem_singleton] at he
      rcases he with ⟨id, -, rfl⟩ | rfl <;> rfl
    · simp at he

theorem readIMU_no_sends (env : TickEnv) (w : World) :
    socketSends (Main_readIMU env w).2 = [] ∧ serialWrites (Main_readIMU env w).2 = [] := by
  rw [readIMU_calls]
  unfold socketSends serialWrites
  constructor
  · rw [List.filterMap_eq_nil_iff]
    intro e he
    split_ifs at he
    · simp only [List.mem_append, List.mem_map, List.mem_singleton] at he
      rcases he with ⟨id, -, rfl⟩ | rfl <;> rfl
    · simp only [List.mem_append, List.mem_map, List.not_mem_nil, or_false] at he
      rcases he with ⟨id, -, rfl⟩
      rfl
    · simp at he
  · rw [List.filterMap_eq_nil_iff]
    intro e he
    split_ifs at he
    · simp only [List.mem_append, List.mem_map, List.mem_singleton] at he
      rcases he with ⟨id, -, rfl⟩ | rfl <;> rfl
    · simp only [List.mem_append, List.mem_map, List.not_mem_nil, or_false] at he
      rcases he with ⟨id, -, rfl⟩
      rfl
    · simp at he

/-- The sends of `FSWV1_SendUDP`: one, of the stored record, when the socket exists. -/
theorem sendUDP_sends (app : FSWV1_APP_Data_t) (c : Nat) (a : Option FSWV1_SensorData_t)
    (b : Option FSWV1_IMUData_t) (rc : Int) :
    socketSends (FSWV1_SendUDP app c a b rc).effects =
      (if app.UdpSocket.isSome then [app.CombinedTlm] else []) ∧
    serialWrites (FSWV1_SendUDP app c a b rc).effects = [] := by
  unfold FSWV1_SendUDP
  cases hs : app.UdpSocket with
  | none => simp [socketSends, serialWrites]
  | some x =>
    simp only [Option.isNone_some, Bool.false_eq_true, if_false, Option.isSome_some, if_true]
    split_ifs <;> simp [socketSends, serialWrites]

/-- The serial sink when it is not open: nothing happens. -/
theorem sendTelemetryUART_closed (p : Platform) (app : FSWV1_APP_Data_t)
    (st : TelemetryUartState) (a : Option FSWV1_SensorData_t) (b : Option FSWV1_IMUData_t)
    (n : Int) (h : ¬ serialReady st) :
    FSWV1_SendTelemetryUART p app st a b n = ⟨Status.CFE_SUCCESS, app, st, []⟩ := by
  have hc : ¬ st.TelemetryUART_Initialized = true ∨ st.telemetry_uart_fd < 0 := by
    unfold serialReady at h
    by_cases h1 : st.TelemetryUART_Initialized = true
    · right
      by_contra h2
      exact h ⟨h1, by omega⟩
    · left; exact h1
  unfold FSWV1_SendTelemetryUART
  rw [if_pos hc]

/-- The serial sink when it is open and handed two structures. -/
theorem sendTelemetryUART_open (p : Platform) (app : FSWV1_APP_Data_t)
    (st : TelemetryUartState) (sd : FSWV1_SensorData_t) (imu : FSWV1_IMUData_t)
    (n : Int) (h : serialReady st) :
    FSWV1_SendTelemetryUART p app st (some sd) (some imu) n = SendTelemetryBinary p app st n := by
  have hc : ¬ (¬ st.TelemetryUART_Initialized = true ∨ st.telemetry_uart_fd < 0) := by
    unfold serialReady at h
    rintro (h1 | h1)
    · exact h1 h.1
    · omega
  have hn : ¬ ((some sd).isNone = true ∨ (some imu).isNone = true) := by simp
  unfold FSWV1_SendTelemetryUART
  rw [if_neg hc, if_neg hn]

/-- What `SendTelemetryBinary` does, by the result of `write`. -/
theorem sendTelemetryBinary_eq (p : Platform) (app : FSWV1_APP_Data_t)
    (st : TelemetryUartState) (n : Int) :
    SendTelemetryBinary p app st n =
      if n ≠ ((serialBytes p app.CombinedTlm).length : Int) then
        ⟨Status.CFE_STATUS_EXTERNAL_RESOURCE_FAIL, app,
          ⟨st.TelemetryUART_Initialized, st.telemetry_uart_fd,
            (st.error_count + 1) % 4294967296⟩,
          Effect.write (serialBytes p app.CombinedTlm) ::
            (if st.error_count % 100 = 0 then
              [Effect.OS_printf PrintSite.telemetryWriteError] else [])⟩
      else ⟨Status.CFE_SUCCESS, app, st, [Effect.write (serialBytes p app.CombinedTlm)]⟩ := by
  rfl

/-- The writes of `FSWV1_SendTelemetryUART` called on two structures: one, of the bytes
of the stored record, when the serial sink is open. -/
theorem sendTelemetryUART_sends (p : Platform) (app : FSWV1_APP_Data_t)
    (st : TelemetryUartState) (sd : FSWV1_SensorData_t) (imu : FSWV1_IMUData_t) (n : Int) :
    socketSends (FSWV1_SendTelemetryUART p app st (some sd) (some imu) n).effects = [] ∧
    serialWrites (FSWV1_SendTelemetryUART p app st (some sd) (some imu) n).effects =
      (if serialReady st then [serialBytes p app.CombinedTlm] else []) ∧
    (FSWV1_SendTelemetryUART p app st (some sd) (some imu) n).state.TelemetryUART_Initialized =
      st.TelemetryUART_Initialized ∧
    (FSWV1_SendTelemetryUART p app st (some sd) (some imu) n).state.telemetry_uart_fd =
      st.telemetry_uart_fd := by
  by_cases h : serialReady st
  · rw [sendTelemetryUART_open p app st sd imu n h, sendTelemetryBinary_eq, if_pos h]
    split_ifs <;> simp [socketSends, serialWrites]
  · rw [sendTelemetryUART_closed p app st _ _ n h, if_neg h]
    simp [socketSends, serialWrites]

/-- The sensor part leaves the socket and the variables of the two sinks alone. -/
theorem readSensor_sinks (env : TickEnv) (w : World) :
    (Main_readSensor env w).1.app.UdpSocket = w.app.UdpSocket ∧
    (Main_readSensor env w).1.telemetry = w.telemetry ∧
    (Main_readSensor env w).1.udp_error_count = w.udp_error_count := by
  unfold Main_readSensor
  by_cases h1 : w.app.SensorEnabled = true
  · by_cases h2 : (FSWV1_ReadSensor w.sensor (some w.app.SensorData) env.sensorReply
        env.sensorTime).status = Status.CFE_SUCCESS
    · simp [h1, h2]
    · simp [h1, h2]
  · simp [h1]

/-- The IMU part leaves the socket and the variables of the two sinks alone. -/
theorem readIMU_sinks (env : TickEnv) (w : World) :
    (Main_readIMU env w).1.app.UdpSocket = w.app.UdpSocket ∧
    (Main_readIMU env w).1.telemetry = w.telemetry ∧
    (Main_readIMU env w).1.udp_error_count = w.udp_error_count := by
  unfold Main_readIMU
  by_cases h1 : w.app.IMUEnabled = true
  · by_cases h2 : (FSWV1_ReadUART w.uart (some w.app.IMUData) env.uartInput env.uartEndRc
        env.uartTime).status = Status.CFE_SUCCESS
    · simp [h1, h2]
    · simp [h1, h2]
  · simp [h1]

/-- The state in which the two sinks are called in a pass: the socket and the variables
of the sinks are those from before the pass. -/
theorem beforeFanOut_sinks (env : TickEnv) (w : World) :
    (Main_stampAndTransmit env (Main_readIMU env (Main_readSensor env w).1).1).1.app.UdpSocket =
      w.app.UdpSocket ∧
    (Main_stampAndTransmit env (Main_readIMU env (Main_readSensor env w).1).1).1.telemetry =
      w.telemetry ∧
    (Main_stampAndTransmit env (Main_readIMU env (Main_readSensor env w).1).1).1.udp_error_count =
      w.udp_error_count := by
  obtain ⟨a1, a2, a3⟩ := readSensor_sinks env w
  obtain ⟨b1, b2, b3⟩ := readIMU_sinks env (Main_readSensor env w).1
  unfold Main_stampAndTransmit
  exact ⟨by rw [← a1, ← b1], by rw [← a2, ← b2], by rw [← a3, ← b3]⟩

/-- The sends of one pass: the record as stored after the pass goes once to the network
if the socket exists and once to the serial port if that sink is open; the socket and
the openness of the serial sink are the same after the pass. -/
theorem timeout_sends (p : Platform) (env : TickEnv) (w : World) :
    socketSends (FSWV1_APP_Main_timeout p env w).2 =
      (if w.app.UdpSocket.isSome then [(FSWV1_APP_Main_timeout p env w).1.app.CombinedTlm]
       else []) ∧
    serialWrites (FSWV1_APP_Main_timeout p env w).2 =
      (if serialReady w.telemetry then
        [serialBytes p (FSWV1_APP_Main_timeout p env w).1.app.CombinedTlm] else []) ∧
    (FSWV1_APP_Main_timeout p env w).1.app.UdpSocket = w.app.UdpSocket ∧
    (serialReady (FSWV1_APP_Main_timeout p env w).1.telemetry ↔ serialReady w.telemetry) := by
  obtain ⟨c1, c2, c3⟩ := beforeFanOut_sinks env w
  have hs := readSensor_no_sends env w
  have hi := readIMU_no_sends env (Main_readSensor env w).1
  have happ : (FSWV1_APP_Main_timeout p env w).1.app =
      (Main_stampAndTransmit env (Main_readIMU env (Main_readSensor env w).1).1).1.app := by
    unfold FSWV1_APP_Main_timeout
    simp only [fanOut_app]
  generalize hv : (Main_stampAndTransmit env (Main_readIMU env (Main_readSensor env w).1).1).1
    = v at c1 c2 c3 happ
  have hstamp : socketSends
      (Main_stampAndTransmit env (Main_readIMU env (Main_readSensor env w).1).1).2 = [] ∧
      serialWrites
        (Main_stampAndTransmit env (Main_readIMU env (Main_readSensor env w).1).1).2 = [] := by
    unfold Main_stampAndTransmit
    exact ⟨rfl, rfl⟩
  have hu := sendUDP_sends v.app v.udp_error_count (some v.app.SensorData)
    (some v.app.IMUData) env.udpSendRc
  have ht := sendTelemetryUART_sends p v.app v.telemetry v.app.SensorData v.app.IMUData
    env.bytesWritten
  have heff : (FSWV1_APP_Main_timeout p env w).2 =
      (Main_readSensor env w).2 ++ (Main_readIMU env (Main_readSensor env w).1).2 ++
        (Main_stampAndTransmit env (Main_readIMU env (Main_readSensor env w).1).1).2 ++
        ((FSWV1_SendUDP v.app v.udp_error_count (some v.app.SensorData) (some v.app.IMUData)
            env.udpSendRc).effects ++
          (FSWV1_SendTelemetryUART p v.app v.telemetry (some v.app.SensorData)
            (some v.app.IMUData) env.bytesWritten).effects) := by
    unfold FSWV1_APP_Main_timeout Main_fanOut
    simp only [hv, sendUDP_app]
  have htel : (FSWV1_APP_Main_timeout p env w).1.telemetry =
      (FSWV1_SendTelemetryUART p v.app v.telemetry (some v.app.SensorData)
        (some v.app.IMUData) env.bytesWritten).state := by
    unfold FSWV1_APP_Main_timeout Main_fanOut
    simp only [hv, sendUDP_app]
  rw [c2] at ht heff htel
  rw [c1] at hu
  refine ⟨?_, ?_, ?_, ?_⟩
  · rw [heff, happ]
    unfold socketSends at hs hi hstamp hu ht ⊢
    simp only [List.filterMap_append, hs.1, hi.1, hstamp.1, hu.1, ht.1, List.nil_append,
      List.append_nil]
  · rw [heff, happ]
    unfold serialWrites at hs hi hstamp hu ht ⊢
    simp only [List.filterMap_append, hs.2, hi.2, hstamp.2, hu.2, ht.2.1, List.nil_append,
      List.append_nil]
  · rw [happ, c1]
  · rw [htel]
    unfold serialReady
    rw [ht.2.2.1, ht.2.2.2]

/-- The socket and the openness of the serial sink after any passes. -/
theorem runTicks_sinks (p : Platform) (envs : List TickEnv) (w : World) :
    (runTicks p envs w).app.UdpSocket = w.app.UdpSocket ∧
    (serialReady (runTicks p envs w).telemetry ↔ serialReady w.telemetry) := by
  induction envs generalizing w with
  | nil => exact ⟨rfl, Iff.rfl⟩
  | cons env rest ih =>
    rw [runTicks_cons]
    obtain ⟨a, b⟩ := ih (FSWV1_APP_Main_timeout p env w).1
    obtain ⟨-, -, c, d⟩ := timeout_sends p env w
    exact ⟨by rw [a, c], b.trans d⟩

/-- C23: in pass number `n` of any sequence of passes through the timeout branch, with
any results of `OS_SocketSendTo` and `write` in that pass and in the passes before it,
the record of the pass is handed to `OS_SocketSendTo` exactly once if the socket was
created at initialisation (and not at all otherwise), and its bytes are handed to
`write` exactly once if the serial sink was opened at initialisation (and not at all
otherwise).  Neither depends on the other sink: the results of the sends are arbitrary
here, and so is the state of the other sink. -/
theorem C23_sink_isolation (p : Platform) (envs : List TickEnv) (w : World) (n : Nat)
    (hn : n < envs.length) :
    socketSends
        (FSWV1_APP_Main_timeout p (envs.get ⟨n, hn⟩) (runTicks p (envs.take n) w)).2 =
      (if w.app.UdpSocket.isSome then [(runTicks p (envs.take (n + 1)) w).app.CombinedTlm]
       else []) ∧
    serialWrites
        (FSWV1_APP_Main_timeout p (envs.get ⟨n, hn⟩) (runTicks p (envs.take n) w)).2 =
      (if serialReady w.telemetry then
        [serialBytes p (runTicks p (envs.take (n + 1)) w).app.CombinedTlm] else []) := by
  obtain ⟨a, b⟩ := runTicks_sinks p (envs.take n) w
  obtain ⟨c, d, -, -⟩ := timeout_sends p (envs.get ⟨n, hn⟩) (runTicks p (envs.take n) w)
  rw [runTicks_take_succ p envs w n hn, c, d, a]
  refine ⟨rfl, ?_⟩
  by_cases hr : serialReady w.telemetry
  · rw [if_pos hr, if_pos (b.mpr hr)]
  · rw [if_neg hr, if_neg (fun h => hr (b.mp h))]

/-- C23 at the third of three passes in which every send on the network fails and every
`write` falls short. -/
theorem C23_sink_isolation_witness :
    socketSends
        (FSWV1_APP_Main_timeout samplePlatform
          ([{ envQuiet 5 with udpSendRc := -1, bytesWritten := 0 },
            { envQuiet 6 with udpSendRc := -1, bytesWritten := 0 },
            { envQuiet 7 with udpSendRc := -1, bytesWritten := 0 }].get ⟨2, by decide⟩)
          (runTicks samplePlatform
            ([{ envQuiet 5 with udpSendRc := -1, bytesWritten := 0 },
              { envQuiet 6 with udpSendRc := -1, bytesWritten := 0 },
              { envQuiet 7 with udpSendRc := -1, bytesWritten := 0 }].take 2) worldStart)).2 =
      (if worldStart.app.UdpSocket.isSome then
        [(runTicks samplePlatform
          ([{ envQuiet 5 with udpSendRc := -1, bytesWritten := 0 },
            { envQuiet 6 with udpSendRc := -1, bytesWritten := 0 },
            { envQuiet 7 with udpSendRc := -1, bytesWritten := 0 }].take (2 + 1))
          worldStart).app.CombinedTlm]
       else []) ∧
    serialWrites
        (FSWV1_APP_Main_timeout samplePlatform
          ([{ envQuiet 5 with udpSendRc := -1, bytesWritten := 0 },
            { envQuiet 6 with udpSendRc := -1, bytesWritten := 0 },
            { envQuiet 7 with udpSendRc := -1, bytesWritten := 0 }].get ⟨2, by decide⟩)
          (runTicks samplePlatform
            ([{ envQuiet 5 with udpSendRc := -1, bytesWritten := 0 },
              { envQuiet 6 with udpSendRc := -1, bytesWritten := 0 },
              { envQuiet 7 with udpSendRc := -1, bytesWritten := 0 }].take 2) worldStart)).2 =
      (if serialReady worldStart.telemetry then
        [serialBytes samplePlatform (runTicks samplePlatform
          ([{ envQuiet 5 with udpSendRc := -1, bytesWritten := 0 },
            { envQuiet 6 with udpSendRc := -1, bytesWritten := 0 },
            { envQuiet 7 with udpSendRc := -1, bytesWritten := 0 }].take (2 + 1))
          worldStart).app.CombinedTlm]
       else []) :=
  C23_sink_isolation samplePlatform
    [{ envQuiet 5 with udpSendRc := -1, bytesWritten := 0 },
      { envQuiet 6 with udpSendRc := -1, bytesWritten := 0 },
      { envQuiet 7 with udpSendRc := -1, bytesWritten := 0 }] worldStart 2 (by decide)

/-! ## The failure counters of the two sinks -/

/-- One call of `FSWV1_SendUDP`: the counter and the report. -/
theorem sendUDP_count (app : FSWV1_APP_Data_t) (c : Nat) (a : Option FSWV1_SensorData_t)
    (b : Option FSWV1_IMUData_t) (rc : Int) :
    (FSWV1_SendUDP app c a b rc).error_count =
      (if udpSendFails (app, rc) = true then (c + 1) % 4294967296 else c) ∧
    reports PrintSite.udpSendError (FSWV1_SendUDP app c a b rc).effects =
      (if udpSendFails (app, rc) = true ∧ c % 100 = 0 then 1 else 0) := by
  unfold FSWV1_SendUDP udpSendFails reports
  cases hs : app.UdpSocket with
  | none => simp
  | some x =>
    by_cases hrc : rc < 0
    · by_cases hm : c % 100 = 0
      · simp [hrc, hm]
      · simp [hrc, hm]
    · simp [hrc]

/-- One call of `FSWV1_SendTelemetryUART` on the open sink: the counter and the report. -/
theorem sendTelemetryUART_count (p : Platform) (app : FSWV1_APP_Data_t)
    (st : TelemetryUartState) (sd : FSWV1_SensorData_t) (imu : FSWV1_IMUData_t) (n : Int)
    (h : serialReady st) :
    (FSWV1_SendTelemetryUART p app st (some sd) (some imu) n).state.error_count =
      (if serialSendFails p (app, n) = true then (st.error_count + 1) % 4294967296
       else st.error_count) ∧
    reports PrintSite.telemetryWriteError
        (FSWV1_SendTelemetryUART p app st (some sd) (some imu) n).effects =
      (if serialSendFails p (app, n) = true ∧ st.error_count % 100 = 0 then 1 else 0) ∧
    serialReady (FSWV1_SendTelemetryUART p app st (some sd) (some imu) n).state := by
  rw [sendTelemetryUART_open p app st sd imu n h, sendTelemetryBinary_eq]
  unfold serialSendFails reports
  by_cases hn : n ≠ ((serialBytes p app.CombinedTlm).length : Int)
  · rw [if_pos hn]
    by_cases hm : st.error_count % 100 = 0
    · refine ⟨by simp [hn], by simp [hn, hm], h⟩
    · refine ⟨by simp [hn], by simp [hn, hm], h⟩
  · rw [if_neg hn]
    refine ⟨by simp [hn], by simp [hn], h⟩

/-- The multiples of 100 among `c, ..., c + f`: one more if `c` is one. -/
theorem multiples_step (c f : Nat) :
    (if c % 100 = 0 then 1 else 0) + ((c + 1 + f + 99) / 100 - (c + 1 + 99) / 100) =
      (c + (f + 1) + 99) / 100 - (c + 99) / 100 := by
  split_ifs <;> omega

theorem reports_append (site : PrintSite) (l1 l2 : List Effect) :
    reports site (l1 ++ l2) = reports site l1 + reports site l2 := by
  unfold reports
  rw [List.countP_append]

/-- A run of sends on the network sink: the counter goes up by the number of failed
sends, and the reports are those at the multiples of 100. -/
theorem udpSends_count (xs : List (FSWV1_APP_Data_t × Int)) (c : Nat)
    (h : c + xs.countP udpSendFails < 4294967296) :
    (udpSends xs c).1 = c + xs.countP udpSendFails ∧
    reports PrintSite.udpSendError (udpSends xs c).2 =
      (c + xs.countP udpSendFails + 99) / 100 - (c + 99) / 100 := by
  induction xs generalizing c with
  | nil => simp [udpSends, reports]
  | cons x rest ih =>
    obtain ⟨a, b⟩ := sendUDP_count x.1 c (some x.1.SensorData) (some x.1.IMUData) x.2
    rw [udpSends, reports_append, b, a]
    rw [List.countP_cons] at h ⊢
    by_cases hf : udpSendFails x = true
    · have hx : udpSendFails (x.1, x.2) = true := hf
      simp only [hx, hf, if_true, true_and] at h ⊢
      have hc : (c + 1) % 4294967296 = c + 1 := Nat.mod_eq_of_lt (by omega)
      rw [hc]
      obtain ⟨i1, i2⟩ := ih (c + 1) (by omega)
      rw [i1, i2]
      constructor
      · omega
      · exact multiples_step c (List.countP udpSendFails rest)
    · have hx : ¬ udpSendFails (x.1, x.2) = true := hf
      simp only [hx, hf, if_false, false_and, Nat.add_zero, Bool.false_eq_true] at h ⊢
      obtain ⟨i1, i2⟩ := ih c h
      rw [i1, i2]
      exact ⟨rfl, by omega⟩

/-- A run of sends on the open serial sink: the counter goes up by the number of failed
sends, and the reports are those at the multiples of 100. -/
theorem serialSends_count (p : Platform) (ys : List (FSWV1_APP_Data_t × Int))
    (st : TelemetryUartState) (hr : serialReady st)
    (h : st.error_count + ys.countP (serialSendFails p) < 4294967296) :
    (serialSends p ys st).1.error_count = st.error_count + ys.countP (serialSendFails p) ∧
    reports PrintSite.telemetryWriteError (serialSends p ys st).2 =
      (st.error_count + ys.countP (serialSendFails p) + 99) / 100 -
        (st.error_count + 99) / 100 := by
  induction ys generalizing st with
  | nil => simp [serialSends, reports]
  | cons x rest ih =>
    obtain ⟨a, b, r⟩ := sendTelemetryUART_count p x.1 st x.1.SensorData x.1.IMUData x.2 hr
    rw [serialSends, reports_append, b]
    rw [List.countP_cons] at h ⊢
    by_cases hf : serialSendFails p x = true
    · have hx : serialSendFails p (x.1, x.2) = true := hf
      simp only [hx, hf, if_true, true_and] at h a ⊢
      have hc : (st.error_count + 1) % 4294967296 = st.error_count + 1 :=
        Nat.mod_eq_of_lt (by omega)
      rw [hc] at a
      obtain ⟨i1, i2⟩ := ih _ r (by rw [a]; omega)
      rw [i1, i2, a]
      constructor
      · omega
      · exact multiples_step st.error_count (List.countP (serialSendFails p) rest)
    · have hx : ¬ serialSendFails p (x.1, x.2) = true := hf
      simp only [hx, hf, if_false, false_and, Nat.add_zero, Bool.false_eq_true] at h a ⊢
      obtain ⟨i1, i2⟩ := ih _ r (by rw [a]; exact h)
      rw [i1, i2, a]
      exact ⟨rfl, by omega⟩

/-- C24: for each sink, a failed send puts the sink's failure counter up by exactly one
(modulo 2^32), reported or not, and any other send leaves it as it is; the failure is
reported exactly when the counter before it is a multiple of 100.  Hence, over any run
of sends during which the counter stays below 2^32, the counter goes up by the number of
failed sends (from 0: it equals that number), the reports number the multiples of 100
passed, and a run with exactly 100 failed sends, wherever it starts, has exactly one
report. -/
theorem C24_rate_limited_reporting (p : Platform) (xs ys : List (FSWV1_APP_Data_t × Int))
    (c : Nat) (st : TelemetryUartState) (hready : serialReady st)
    (hc : c + xs.countP udpSendFails < 4294967296)
    (hs : st.error_count + ys.countP (serialSendFails p) < 4294967296) :
    (∀ (app : FSWV1_APP_Data_t) (k : Nat) (rc : Int),
      (FSWV1_SendUDP app k (some app.SensorData) (some app.IMUData) rc).error_count =
        (if udpSendFails (app, rc) = true then (k + 1) % 4294967296 else k) ∧
      reports PrintSite.udpSendError
          (FSWV1_SendUDP app k (some app.SensorData) (some app.IMUData) rc).effects =
        (if udpSendFails (app, rc) = true ∧ k % 100 = 0 then 1 else 0)) ∧
    (∀ (app : FSWV1_APP_Data_t) (n : Int),
      (FSWV1_SendTelemetryUART p app st (some app.SensorData) (some app.IMUData)
          n).state.error_count =
        (if serialSendFails p (app, n) = true then (st.error_count + 1) % 4294967296
         else st.error_count) ∧
      reports PrintSite.telemetryWriteError
          (FSWV1_SendTelemetryUART p app st (some app.SensorData) (some app.IMUData)
            n).effects =
        (if serialSendFails p (app, n) = true ∧ st.error_count % 100 = 0 then 1 else 0)) ∧
    (udpSends xs c).1 = c + xs.countP udpSendFails ∧
    (serialSends p ys st).1.error_count = st.error_count + ys.countP (serialSendFails p) ∧
    reports PrintSite.udpSendError (udpSends xs c).2 =
      (c + xs.countP udpSendFails + 99) / 100 - (c + 99) / 100 ∧
    reports PrintSite.telemetryWriteError (serialSends p ys st).2 =
      (st.error_count + ys.countP (serialSendFails p) + 99) / 100 -
        (st.error_count + 99) / 100 ∧
    (xs.countP udpSendFails = 100 → reports PrintSite.udpSendError (udpSends xs c).2 = 1) ∧
    (ys.countP (serialSendFails p) = 100 →
      reports PrintSite.telemetryWriteError (serialSends p ys st).2 = 1) := by
  obtain ⟨u1, u2⟩ := udpSends_count xs c hc
  obtain ⟨s1, s2⟩ := serialSends_count p ys st hready hs
  refine ⟨fun app k rc => sendUDP_count app k _ _ rc, ?_, u1, s1, u2, s2, ?_, ?_⟩
  · intro app n
    obtain ⟨a, b, -⟩ := sendTelemetryUART_count p app st app.SensorData app.IMUData n hready
    exact ⟨a, b⟩
  · intro h
    rw [u2, h]
    omega
  · intro h
    rw [s2, h]
    omega

theorem C24_rate_limited_reporting_witness :
    (udpSends [(worldStart.app, -1), (worldStart.app, 0), (worldStart.app, -1)] 0).1 =
      0 + [(worldStart.app, (-1 : Int)), (worldStart.app, 0),
        (worldStart.app, -1)].countP udpSendFails ∧
    reports PrintSite.udpSendError
        (udpSends [(worldStart.app, -1), (worldStart.app, 0), (worldStart.app, -1)] 0).2 =
      (0 + [(worldStart.app, (-1 : Int)), (worldStart.app, 0),
        (worldStart.app, -1)].countP udpSendFails + 99) / 100 - (0 + 99) / 100 ∧
    (serialSends samplePlatform [(worldStart.app, 0), (worldStart.app, 56)]
      worldStart.telemetry).1.error_count =
      worldStart.telemetry.error_count +
        [(worldStart.app, (0 : Int)), (worldStart.app, 56)].countP
          (serialSendFails samplePlatform) :=
  ⟨(C24_rate_limited_reporting samplePlatform
      [(worldStart.app, -1), (worldStart.app, 0), (worldStart.app, -1)]
      [(worldStart.app, 0), (worldStart.app, 56)] 0 worldStart.telemetry
      ⟨rfl, by decide⟩
      (Nat.lt_of_le_of_lt (Nat.add_le_add_left (List.countP_le_length _) _) (by decide))
      (Nat.lt_of_le_of_lt (Nat.add_le_add_left (List.countP_le_length _) _)
        (by decide))).2.2.1,
    (C24_rate_limited_reporting samplePlatform
      [(worldStart.app, -1), (worldStart.app, 0), (worldStart.app, -1)]
      [(worldStart.app, 0), (worldStart.app, 56)] 0 worldStart.telemetry
      ⟨rfl, by decide⟩
      (Nat.lt_of_le_of_lt (Nat.add_le_add_left (List.countP_le_length _) _) (by decide))
      (Nat.lt_of_le_of_lt (Nat.add_le_add_left (List.countP_le_length _) _)
        (by decide))).2.2.2.2.1,
    (C24_rate_limited_reporting samplePlatform
      [(worldStart.app, -1), (worldStart.app, 0), (worldStart.app, -1)]
      [(worldStart.app, 0), (worldStart.app, 56)] 0 worldStart.telemetry
      ⟨rfl, by decide⟩
      (Nat.lt_of_le_of_lt (Nat.add_le_add_left (List.countP_le_length _) _) (by decide))
      (Nat.lt_of_le_of_lt (Nat.add_le_add_left (List.countP_le_length _) _)
        (by decide))).2.2.2.1⟩

/-! ## Initialisation -/

/-- `FSWV1_APP_Init` when the four cFE calls succeed. -/
theorem init_past_cfe (env : InitEnv) (app : FSWV1_APP_Data_t) (h : cfeCallsSucceed env) :
    FSWV1_APP_Init env app =
      ⟨RetCode.CFE_SUCCESS,
        { Init_assignments app with
          CombinedTlm := { (Init_assignments app).CombinedTlm with
            TelemetryHeader := env.CFE_MSG_Init_Combined }
          UdpSocket := env.UdpSocket },
        [InitCall.FSWV1_InitSensor] ++
        Init_report env.FSWV1_InitSensor EventId.FSWV1_APP_SENSOR_ERR_EID
          "FSWV1: Sensor initialization failed, RC = 0x%08X" ++
        [InitCall.FSWV1_InitUDP] ++
        Init_report env.FSWV1_InitUDP EventId.FSWV1_APP_UDP_ERR_EID
          "FSWV1: UDP initialization failed, RC = 0x%08X" ++
        [InitCall.FSWV1_InitTelemetryUART] ++
        Init_report env.FSWV1_InitTelemetryUART EventId.FSWV1_APP_UART_TELEMETRY_ERR_EID
          "FSWV1: Telemetry UART initialization failed, RC = 0x%08X" ++
        [InitCall.FSWV1_InitGPIO, InitCall.FSWV1_InitUART] ++
        Init_report env.FSWV1_InitUART EventId.FSWV1_APP_UART_ERR_EID
          "FSWV1: UART initialization failed, RC = 0x%08X" ++
        Init_report env.FSWV1_InitUART EventId.FSWV1_APP_GPIO_ERR_EID
          "FSWV1: GPIO initialization failed, RC = 0x%08X" ++
        [InitCall.CFE_EVS_SendEvent EventId.FSWV1_APP_INIT_INF_EID
          "FSWV1 App Initialized. Version %d.%d.%d.%d"]⟩ := by
  obtain ⟨h1, h2, h3, h4⟩ := h
  unfold FSWV1_APP_Init
  simp only [h1, h2, h3, h4, ne_eq, not_true_eq_false, if_false]

theorem report_filter (status : RetCode) (id : EventId) (text : String) :
    (Init_report status id text).filter isDeviceInit = [] := by
  unfold Init_report
  split_ifs <;> rfl

/-- C25: whenever event registration, pipe creation and the two subscriptions return
`CFE_SUCCESS`, `FSWV1_APP_Init` returns `CFE_SUCCESS` with the run status at
`CFE_ES_RunStatus_APP_RUN`, and `FSWV1_APP_Main` leaves it there, whatever the five device
initialisations return; each of the five is called, in the order sensor, UDP, telemetry
UART, GPIO, UART, none being skipped because an earlier one failed; and the event
`FSWV1_APP_INIT_INF_EID` closes the initialisation. -/
theorem C25_degraded_initialisation (env : InitEnv) (app : FSWV1_APP_Data_t)
    (h : cfeCallsSucceed env) :
    (FSWV1_APP_Init env app).status = RetCode.CFE_SUCCESS ∧
    (FSWV1_APP_Init env app).app.RunStatus = CFE_ES_RunStatus_APP_RUN ∧
    (FSWV1_APP_Main_start env app).1.RunStatus = CFE_ES_RunStatus_APP_RUN ∧
    (FSWV1_APP_Init env app).calls.filter isDeviceInit =
      [InitCall.FSWV1_InitSensor, InitCall.FSWV1_InitUDP, InitCall.FSWV1_InitTelemetryUART,
        InitCall.FSWV1_InitGPIO, InitCall.FSWV1_InitUART] ∧
    (FSWV1_APP_Init env app).calls.getLast? =
      some (InitCall.CFE_EVS_SendEvent EventId.FSWV1_APP_INIT_INF_EID
        "FSWV1 App Initialized. Version %d.%d.%d.%d") := by
  have hi := init_past_cfe env app h
  refine ⟨by rw [hi], by rw [hi]; rfl, ?_, ?_, ?_⟩
  · unfold FSWV1_APP_Main_start
    rw [hi]
    simp only [ne_eq, not_true_eq_false, if_false]
    rfl
  · rw [hi]
    simp only [List.filter_append, report_filter]
    rfl
  · rw [hi]
    simp only [List.getLast?_append, List.getLast?_singleton]
    rfl

theorem C25_degraded_initialisation_witness :
    (FSWV1_APP_Init initEnvAllDown appZero).status = RetCode.CFE_SUCCESS ∧
    (FSWV1_APP_Init initEnvAllDown appZero).app.RunStatus = CFE_ES_RunStatus_APP_RUN ∧
    (FSWV1_APP_Main_start initEnvAllDown appZero).1.RunStatus = CFE_ES_RunStatus_APP_RUN ∧
    (FSWV1_APP_Init initEnvAllDown appZero).calls.filter isDeviceInit =
      [InitCall.FSWV1_InitSensor, InitCall.FSWV1_InitUDP, InitCall.FSWV1_InitTelemetryUART,
        InitCall.FSWV1_InitGPIO, InitCall.FSWV1_InitUART] ∧
    (FSWV1_APP_Init initEnvAllDown appZero).calls.getLast? =
      some (InitCall.CFE_EVS_SendEvent EventId.FSWV1_APP_INIT_INF_EID
        "FSWV1 App Initialized. Version %d.%d.%d.%d") :=
  C25_degraded_initialisation initEnvAllDown appZero (by decide)

/-- `FSWV1_APP_Init` when the four cFE calls succeed. -/
theorem init_calls (env : InitEnv) (app : FSWV1_APP_Data_t) (h : cfeCallsSucceed env) :
    (FSWV1_APP_Init env app).calls =
        [InitCall.FSWV1_InitSensor] ++
        Init_report env.FSWV1_InitSensor EventId.FSWV1_APP_SENSOR_ERR_EID
          "FSWV1: Sensor initialization failed, RC = 0x%08X" ++
        [InitCall.FSWV1_InitUDP] ++
        Init_report env.FSWV1_InitUDP EventId.FSWV1_APP_UDP_ERR_EID
          "FSWV1: UDP initialization failed, RC = 0x%08X" ++
        [InitCall.FSWV1_InitTelemetryUART] ++
        Init_report env.FSWV1_InitTelemetryUART EventId.FSWV1_APP_UART_TELEMETRY_ERR_EID
          "FSWV1: Telemetry UART initialization failed, RC = 0x%08X" ++
        [InitCall.FSWV1_InitGPIO, InitCall.FSWV1_InitUART] ++
        Init_report env.FSWV1_InitUART EventId.FSWV1_APP_UART_ERR_EID
          "FSWV1: UART initialization failed, RC = 0x%08X" ++
        Init_report env.FSWV1_InitUART EventId.FSWV1_APP_GPIO_ERR_EID
          "FSWV1: GPIO initialization failed, RC = 0x%08X" ++
        [InitCall.CFE_EVS_SendEvent EventId.FSWV1_APP_INIT_INF_EID
          "FSWV1 App Initialized. Version %d.%d.%d.%d"] := by
  obtain ⟨h1, h2, h3, h4⟩ := h
  unfold FSWV1_APP_Init
  simp only [h1, h2, h3, h4, ne_eq, not_true_eq_false, if_false]

theorem report_mem (c : InitCall) (status : RetCode) (id : EventId) (text : String) :
    c ∈ Init_report status id text ↔
      status ≠ RetCode.CFE_SUCCESS ∧ c = InitCall.CFE_EVS_SendEvent id text := by
  unfold Init_report
  split_ifs with h
  · simp [h]
  · simp [h]

/-- C30: in `FSWV1_APP_Init`, past the four cFE calls, the event "GPIO initialization
failed" is sent exactly when `FSWV1_InitUART` returned something other than
`CFE_SUCCESS`, whatever `FSWV1_InitGPIO` returned, because `status` is assigned by
`FSWV1_InitUART` before it is tested; the event "UART initialization failed" is sent
exactly when `FSWV1_InitUART` failed. So when only `FSWV1_InitGPIO` fails no GPIO event
is sent, and when only `FSWV1_InitUART` fails the GPIO event is sent although
`FSWV1_InitGPIO` succeeded. -/
theorem C30_gpio_failure_event_follows_uart_status :
    (∀ (env : InitEnv) (app : FSWV1_APP_Data_t), cfeCallsSucceed env →
      (gpioInitFailedEvent ∈ (FSWV1_APP_Init env app).calls ↔
        env.FSWV1_InitUART ≠ RetCode.CFE_SUCCESS) ∧
      (uartInitFailedEvent ∈ (FSWV1_APP_Init env app).calls ↔
        env.FSWV1_InitUART ≠ RetCode.CFE_SUCCESS)) ∧
    (cfeCallsSucceed initEnvGpioDown ∧
      initEnvGpioDown.FSWV1_InitGPIO = RetCode.error (-1) ∧
      initEnvGpioDown.FSWV1_InitUART = RetCode.CFE_SUCCESS ∧
      gpioInitFailedEvent ∉ (FSWV1_APP_Init initEnvGpioDown appZero).calls) ∧
    (cfeCallsSucceed initEnvUartDown ∧
      initEnvUartDown.FSWV1_InitGPIO = RetCode.CFE_SUCCESS ∧
      initEnvUartDown.FSWV1_InitUART = RetCode.error (-1) ∧
      gpioInitFailedEvent ∈ (FSWV1_APP_Init initEnvUartDown appZero).calls) := by
  have key : ∀ (env : InitEnv) (app : FSWV1_APP_Data_t), cfeCallsSucceed env →
      (gpioInitFailedEvent ∈ (FSWV1_APP_Init env app).calls ↔
        env.FSWV1_InitUART ≠ RetCode.CFE_SUCCESS) ∧
      (uartInitFailedEvent ∈ (FSWV1_APP_Init env app).calls ↔
        env.FSWV1_InitUART ≠ RetCode.CFE_SUCCESS) := by
    intro env app h
    rw [init_calls env app h]
    simp only [List.mem_append, report_mem, gpioInitFailedEvent, uartInitFailedEvent,
      List.mem_singleton, List.mem_cons, InitCall.CFE_EVS_SendEvent.injEq, reduceCtorEq,
      false_and, and_false, or_false, false_or, and_true, List.mem_nil_iff, true_and,
      List.not_mem_nil]
  refine ⟨key, ⟨by decide, rfl, rfl, ?_⟩, ⟨by decide, rfl, rfl, ?_⟩⟩
  · rw [(key initEnvGpioDown appZero (by decide)).1]
    decide
  · rw [(key initEnvUartDown appZero (by decide)).1]
    decide

/-! ## The main loop -/

theorem verified_IMUEnabled (pkt : CommandPacket) (n : Nat)
    (handler : CommandState → CommandState × List CmdCall)
    (hh : ∀ cs, cs.app.IMUEnabled = true → (handler cs).1.app.IMUEnabled = true)
    (cs : CommandState) (h : cs.app.IMUEnabled = true) :
    (verified pkt n handler cs).1.app.IMUEnabled = true := by
  unfold verified FSWV1_APP_VerifyCommandLength
  by_cases hn : n = pkt.Size
  · simp only [hn, ne_eq, not_true_eq_false, if_false]
    exact hh cs h
  · simp only [hn, ne_eq, not_false_eq_true, if_true]
    exact h

theorem ledOnOff_IMUEnabled (state : Bool) (id : EventId) (cenv : CommandEnv)
    (cs : CommandState) :
    (LedOnOff state id cenv cs).1.app.IMUEnabled = cs.app.IMUEnabled := by
  unfold LedOnOff
  dsimp only
  split_ifs <;> rfl

theorem ledToggle_IMUEnabled (cenv : CommandEnv) (cs : CommandState) :
    (FSWV1_APP_LedToggle cenv cs).1.app.IMUEnabled = cs.app.IMUEnabled := by
  unfold FSWV1_APP_LedToggle
  dsimp only
  split_ifs <;> rfl

theorem ledStatus_IMUEnabled (cenv : CommandEnv) (cs : CommandState) :
    (FSWV1_APP_LedStatus cenv cs).1.app.IMUEnabled = cs.app.IMUEnabled := by
  unfold FSWV1_APP_LedStatus
  dsimp only
  split
  · split_ifs <;> rfl
  · rfl

theorem reportHousekeeping_IMUEnabled (cenv : CommandEnv) (cs : CommandState) :
    (FSWV1_APP_ReportHousekeeping cenv cs).1.app.IMUEnabled = cs.app.IMUEnabled := by
  unfold FSWV1_APP_ReportHousekeeping
  dsimp only
  split <;> rfl

theorem processGroundCommand_IMUEnabled (cmdLength : Nat) (cenv : CommandEnv)
    (pkt : CommandPacket) (cs : CommandState) (h : cs.app.IMUEnabled = true) :
    (FSWV1_APP_ProcessGroundCommand cmdLength cenv pkt cs).1.app.IMUEnabled = true := by
  unfold FSWV1_APP_ProcessGroundCommand
  split
  · exact verified_IMUEnabled pkt cmdLength _ (fun c hc => hc) cs h
  · exact verified_IMUEnabled pkt cmdLength _ (fun c hc => hc) cs h
  · exact verified_IMUEnabled pkt cmdLength _ (fun _ _ => rfl) cs h
  · exact verified_IMUEnabled pkt cmdLength _ (fun c hc => hc) cs h
  · exact verified_IMUEnabled pkt cmdLength _
      (fun c hc => (ledOnOff_IMUEnabled _ _ cenv c).trans hc) cs h
  · exact verified_IMUEnabled pkt cmdLength _
      (fun c hc => (ledOnOff_IMUEnabled _ _ cenv c).trans hc) cs h
  · exact verified_IMUEnabled pkt cmdLength _
      (fun c hc => (ledToggle_IMUEnabled cenv c).trans hc) cs h
  · exact verified_IMUEnabled pkt cmdLength _
      (fun c hc => (ledStatus_IMUEnabled cenv c).trans hc) cs h
  · exact h

theorem processCommandPacket_IMUEnabled (cmdLength : Nat) (cenv : CommandEnv)
    (pkt : CommandPacket) (cs : CommandState) (h : cs.app.IMUEnabled = true) :
    (FSWV1_APP_ProcessCommandPacket cmdLength cenv pkt cs).1.app.IMUEnabled = true := by
  unfold FSWV1_APP_ProcessCommandPacket
  split_ifs
  · exact processGroundCommand_IMUEnabled cmdLength cenv pkt cs h
  · exact (reportHousekeeping_IMUEnabled cenv cs).trans h
  · exact h

theorem pass_IMUEnabled (p : Platform) (cmdLength : Nat) (r : Received) (m : Machine)
    (h : m.world.app.IMUEnabled = true) :
    (FSWV1_APP_Main_pass p cmdLength r m).1.world.app.IMUEnabled = true := by
  cases r with
  | message pkt cenv =>
    exact processCommandPacket_IMUEnabled cmdLength cenv pkt
      { app := m.world.app, HkTlm := m.HkTlm, gpio := m.gpio } h
  | timeOut env => exact (timeout_app p env m.world).2.1.trans h
  | failure => exact h

theorem init_IMUEnabled (env : InitEnv) (app : FSWV1_APP_Data_t) :
    (FSWV1_APP_Init env app).app.IMUEnabled = true ∧
    (FSWV1_APP_Main_start env app).1.IMUEnabled = true := by
  have h : (FSWV1_APP_Init env app).app.IMUEnabled = true := by
    unfold FSWV1_APP_Init
    dsimp only
    split_ifs <;> rfl
  refine ⟨h, ?_⟩
  unfold FSWV1_APP_Main_start
  split_ifs
  · exact h
  · exact h

theorem running_IMUEnabled (p : Platform) (cmdLength : Nat) (m : Machine)
    (h : Running p cmdLength m) : m.world.app.IMUEnabled = true := by
  induction h with
  | start env app0 m hm =>
    rcases hm with hm | hm
    · rw [hm]; exact (init_IMUEnabled env app0).1
    · rw [hm]; exact (init_IMUEnabled env app0).2
  | pass r m _ ih => exact pass_IMUEnabled p cmdLength r m ih

theorem timeout_uart (p : Platform) (env : TickEnv) (w : World)
    (h : w.app.IMUEnabled = true) :
    (FSWV1_APP_Main_timeout p env w).1.uart =
      (FSWV1_ReadUART w.uart (some w.app.IMUData) env.uartInput env.uartEndRc
        env.uartTime).state := by
  obtain ⟨-, a2, -, a4, a5, -, -⟩ := readSensor_frame env w
  have hr : (Main_readIMU env (Main_readSensor env w).1).1.uart =
      (FSWV1_ReadUART w.uart (some w.app.IMUData) env.uartInput env.uartEndRc
        env.uartTime).state := by
    unfold Main_readIMU
    rw [a2, a4, a5]
    simp only [h, if_true]
    split_ifs <;> rfl
  unfold FSWV1_APP_Main_timeout Main_fanOut Main_stampAndTransmit
  exact hr

/-- C29: in every state the program can be in after `FSWV1_APP_Init`, whatever messages
arrived on the pipe (commands of any code and length, housekeeping requests, other
identifiers) and however many timeouts and pipe failures occurred, `IMUEnabled` is true;
`FSWV1_APP_Disable` clears `SensorEnabled` and leaves `IMUEnabled`; and a pass on the
timeout from such a state calls `FSWV1_ReadUART`: the variables of `fswv1_uart.c`
afterwards are those that call leaves. -/
theorem C29_imu_always_enabled (p : Platform) (cmdLength : Nat) (m : Machine)
    (h : Running p cmdLength m) :
    m.world.app.IMUEnabled = true ∧
    (∀ cs : CommandState, (FSWV1_APP_Disable cs).1.app.IMUEnabled = cs.app.IMUEnabled ∧
      (FSWV1_APP_Disable cs).1.app.SensorEnabled = false) ∧
    ∀ env : TickEnv,
      (FSWV1_APP_Main_pass p cmdLength (Received.timeOut env) m).1.world.uart =
        (FSWV1_ReadUART m.world.uart (some m.world.app.IMUData) env.uartInput
          env.uartEndRc env.uartTime).state :=
  ⟨running_IMUEnabled p cmdLength m h, fun _ => ⟨rfl, rfl⟩,
    fun env => timeout_uart p env m.world (running_IMUEnabled p cmdLength m h)⟩

theorem C29_imu_always_enabled_witness :
    (FSWV1_APP_Main_pass samplePlatform 8 passQuiet
      (FSWV1_APP_Main_pass samplePlatform 8 passDisable machineStart).1).1.world.app.SensorEnabled
        = false ∧
    (FSWV1_APP_Main_pass samplePlatform 8 passQuiet
      (FSWV1_APP_Main_pass samplePlatform 8 passDisable machineStart).1).1.world.app.IMUEnabled
        = true :=
  ⟨by decide,
    (C29_imu_always_enabled samplePlatform 8
      (FSWV1_APP_Main_pass samplePlatform 8 passQuiet
        (FSWV1_APP_Main_pass samplePlatform 8 passDisable machineStart).1).1
      (Running.pass passQuiet _ (Running.pass passDisable _
        (Running.start initEnvAllUp appZero machineStart (Or.inr rfl))))).1⟩

end FSWV1
